import Mathlib

/-!
# libnvmmio allocator (`src/allocator.c`): shallow embedding

The two-tier free-list allocator is embedded as pure functions on an explicit
`State` for one mutator thread.

* A chain of `list_node_t` carriers is represented by the list of its payload
  pointers, head first: `next` is the tail of the list and `NULL` is `[]`.
* Pointers are natural numbers, `0` is `NULL`.
* `unsigned long` arithmetic is taken modulo `2 ^ 64`, `int` arithmetic modulo
  `2 ^ 32` in two's complement.
* Dereferencing `NULL` yields `Res.fault`; `handle_error` yields `Res.fatal`.
* The macros and types of `allocator.h`, `internal.h` and `debug.h` are not part
  of the sources; their values are the fields of `Config`.
* `mmap`, `malloc` and the pthread primitives are assumed to succeed; the
  addresses returned by `mmap` and `malloc` come from oracles stored in the state.
-/

namespace Nvmmio

/-! ## Machine arithmetic -/

/-- Modulus of `unsigned long` arithmetic. -/
def ULONG_MOD : Nat := 18446744073709551616

/-- Sum of two `unsigned long` values. -/
def uadd (a b : Nat) : Nat := (a + b) % ULONG_MOD

/-- Difference of two `unsigned long` values (wraps below zero). -/
def usub (a b : Nat) : Nat := (a % ULONG_MOD + ULONG_MOD - b % ULONG_MOD) % ULONG_MOD

/-- Largest value of `int`. -/
def INT_MAX : Int := 2147483647

/-- Two's-complement wrap of an integer into the range of `int`. -/
def wrap_int (x : Int) : Int := (x + 2147483648) % 4294967296 - 2147483648

/-- Conversion of an `int` to `unsigned long` (or `size_t`): the value modulo
`2 ^ 64`. -/
def int_to_ulong (x : Int) : Nat := (x % 18446744073709551616).toNat

/-! ## Configuration: constants of the missing headers -/

/-- Values of the macros, enum constants and `sizeof`s that `allocator.c` takes
from `allocator.h` and `internal.h`. -/
structure Config where
  MAX_FREE_NODES : Nat
  NR_FILL_NODES : Nat
  NR_LOG_SIZES : Nat
  LOG_FILE_SIZE : Nat
  PAGE_SHIFT : Nat
  LOG_SHIFT : Nat → Nat
  MAX_NR_UMAS : Nat
  LOG_4K : Nat
  sizeof_log_table_t : Nat
  sizeof_log_entry_t : Nat
  sizeof_uma_t : Nat
  sizeof_rwlock_t : Nat

/-! ## Data model -/

/-- The struct `freelist_t`: `head` is the chain of carriers (payload pointers,
head first), `count` the counter field. The mutex is modelled by `Event`s. -/
structure freelist_t where
  head : List Nat
  count : Nat
deriving DecidableEq, Repr

/-- The fields of `log_table_t` written by the allocator. -/
structure log_table_t where
  count : Nat
  type : Nat
  parent : Nat
  index : Int
  log_size : Nat
deriving DecidableEq, Repr

/-- The fields of `log_entry_t` used by the allocator. -/
structure log_entry_t where
  epoch : Nat
  offset : Nat
  len : Nat
  policy : Nat
  dst : Nat
  data : Nat
  united : Nat
  rwlockp : Nat
deriving DecidableEq, Repr

/-- The fields of `uma_t` used by the allocator. -/
structure uma_t where
  id : Int
  epoch : Nat
  policy : Nat
  rwlockp : Nat
deriving DecidableEq, Repr

/-- The mutexes of the allocator. -/
inductive Mutex where
  | tables
  | entries
  | data (log_size : Nat)
  | uma
  | background
deriving DecidableEq, Repr

/-- Calls into pthread and libpmem, recorded in program order. -/
inductive Event where
  | lock (m : Mutex)
  | unlock (m : Mutex)
  | cond_signal
  | cond_wait
  | thread_create
  | pmem_persist (addr size : Nat)
  | rwlock_init (rwlockp : Nat)
  | rwlock_destroy (rwlockp : Nat)
deriving DecidableEq, Repr

/-- The messages passed to `handle_error` by the embedded functions. -/
inductive Fatal where
  | global_entries_empty
  | global_data_empty
  | node_ptr_null
  | node_next_not_null
  | local_entries_not_zero
deriving DecidableEq, Repr

/-- Outcome of a call. Modelled from the spec: `handle_error` (declared in
`debug.h`, which is not part of the sources) prints a diagnostic and aborts the
process, which is `fatal`; `fault` is a dereference of `NULL`. -/
inductive Res (α : Type) where
  | ok (a : α)
  | fatal (e : Fatal)
  | fault

/-- Sequencing of calls: an abort or a fault ends the run. -/
def Res.bind {α β : Type} (r : Res α) (f : α → Res β) : Res β :=
  match r with
  | Res.ok a => f a
  | Res.fatal e => Res.fatal e
  | Res.fault => Res.fault

/-- Global and thread-local variables of `allocator.c`, the object memory, and
the environment (oracles for `mmap` and `malloc`, trace of library calls). -/
structure State where
  global_tables_list : Option freelist_t
  global_entries_list : Option freelist_t
  global_data_list : Nat → Option freelist_t
  global_uma_list : Option freelist_t
  local_tables_list : Option freelist_t
  local_entries_list : Option freelist_t
  local_data_list : Nat → Option freelist_t
  local_node_head : Nat
  background_table_alloc : Bool
  umaid : Int
  tables : Nat → log_table_t
  entries : Nat → log_entry_t
  umas : Nat → uma_t
  mmap_oracle : Nat → Nat
  mmap_calls : Nat
  malloc_oracle : Nat → Nat
  malloc_calls : Nat
  events : List Event

/-- Store `v` at address `p` of an object memory. -/
def mem_write {α : Type} (m : Nat → α) (p : Nat) (v : α) : Nat → α :=
  fun a => if a = p then v else m a

/-- Store `v` at index `i` of an array of list pointers. -/
def arr_write (m : Nat → Option freelist_t) (i : Nat) (v : Option freelist_t) :
    Nat → Option freelist_t :=
  fun a => if a = i then v else m a

/-- Record library calls in program order. -/
def State.emit (st : State) (es : List Event) : State :=
  { st with events := st.events ++ es }

/-- A successful `malloc`: the next address of the oracle. -/
def malloc (st : State) : Nat × State :=
  (st.malloc_oracle st.malloc_calls, { st with malloc_calls := st.malloc_calls + 1 })

/-- The log files of the per-process directory (`ENTRIES_PATH`, `DATA_PATH`,
`UMAS_PATH`). -/
inductive LogFile where
  | entries
  | data (i : Nat)
  | umas
deriving DecidableEq, Repr

/-- The function `map_logfile`: a successful mapping of `len` bytes, anonymous
when `path` is `none`; the base address is the next address of the oracle. -/
def map_logfile (_path : Option LogFile) (_len : Nat) (st : State) : Nat × State :=
  (st.mmap_oracle st.mmap_calls, { st with mmap_calls := st.mmap_calls + 1 })

/-! ## Node pool -/

/-- The function `alloc_list_node`: take a carrier from the thread's reservoir
(`local_node_head`, here the number of carriers in it) or from `malloc`. -/
def alloc_list_node (st : State) : State :=
  if st.local_node_head = 0 then st
  else { st with local_node_head := st.local_node_head - 1 }

/-- The function `free_node`: return a carrier to the thread's reservoir. -/
def free_node (st : State) : State :=
  { st with local_node_head := st.local_node_head + 1 }

/-- The function `get_uma_id`: one successful compare-and-swap of `umaid`. -/
def get_uma_id (st : State) : Int × State :=
  let old := st.umaid
  let new := wrap_int (old + 1)
  (new, { st with umaid := new })

/-- Follow `next` from the head of a chain `steps` times and cut the chain after
the node reached: `some (nodes up to it, the rest)`, or `none` when a `NULL`
node is dereferenced. -/
def walk : List Nat → Nat → Option (List Nat × List Nat)
  | [], _ => none
  | p :: rest, 0 => some ([p], rest)
  | p :: rest, n + 1 =>
    match walk rest n with
    | none => none
    | some (moved, left) => some (p :: moved, left)

/-- The function `create_list`: `count` carriers over the slots
`address + i * size`, each pushed at the head; the second component is the
payload of `*tail`, the first carrier made (`none` is `NULL`). -/
def create_list (address size count : Nat) (st : State) :
    List Nat × Option Nat × State :=
  (List.range count).foldl
    (fun (acc : List Nat × Option Nat × State) (i : Nat) =>
      (((address + i * size) :: acc.1),
       (if acc.2.1 = none then some (address + i * size) else acc.2.1),
       alloc_list_node acc.2.2))
    ([], none, st)

/-! ## Global table pool: slab growth -/

/-- The function `fill_global_tables_list`: map a fresh slab of
`MAX_FREE_NODES` tables, build its chain and splice it in front of the global
table chain (`tail->next = global_tables_list->head`). -/
def fill_global_tables_list (cfg : Config) (lock : Bool) (st : State) : Res State :=
  let total_size := cfg.MAX_FREE_NODES * cfg.sizeof_log_table_t
  let m := map_logfile none total_size st
  let c := create_list m.1 cfg.sizeof_log_table_t cfg.MAX_FREE_NODES m.2
  let st1 := if lock then c.2.2.emit [Event.lock Mutex.tables] else c.2.2
  match c.2.1, st1.global_tables_list with
  | some _, some g =>
    let g1 : freelist_t := { head := c.1 ++ g.head, count := uadd g.count cfg.MAX_FREE_NODES }
    let st2 := { st1 with global_tables_list := some g1 }
    Res.ok (if lock then st2.emit [Event.unlock Mutex.tables] else st2)
  | _, _ => Res.fault

/-! ## Thread-local pools -/

/-- The function `alloc_list`: allocate an empty free list when the pointer is
`NULL`. -/
def alloc_list (list : Option freelist_t) : Option freelist_t :=
  match list with
  | none => some { head := [], count := 0 }
  | some l => some l

/-- The function `alloc_local_data_list`: allocate the thread's data pool of
class `log_size` when the pointer is `NULL`. -/
def alloc_local_data_list (log_size : Nat) (st : State) : State :=
  match st.local_data_list log_size with
  | none =>
    let l : freelist_t := { head := [], count := 0 }
    { st with local_data_list := arr_write st.local_data_list log_size (some l) }
  | some _ => st

/-- The function `fill_local_tables_list`: refill the thread's table pool from
the global one, growing the global pool by a slab when its count is zero, and
wake the background refiller when the global count drops below
`MAX_FREE_NODES`. -/
def fill_local_tables_list (cfg : Config) (st : State) : Res State :=
  let st0 := st.emit [Event.lock Mutex.tables]
  match st0.global_tables_list with
  | none => Res.fault
  | some g0 =>
    (if g0.count = 0 then fill_global_tables_list cfg false st0 else Res.ok st0).bind
      fun st1 =>
        match st1.global_tables_list, st1.local_tables_list with
        | some g, some l =>
          let count0 := if g0.count = 0 then g.count else g0.count
          let count := if count0 > cfg.NR_FILL_NODES then cfg.NR_FILL_NODES else count0
          match walk g.head (usub count 1) with
          | none => Res.fault
          | some (moved, left) =>
            let g1 : freelist_t := { head := left, count := usub g.count count }
            let l1 : freelist_t := { head := moved, count := uadd l.count count }
            let st2 := { st1 with global_tables_list := some g1, local_tables_list := some l1 }
            let st3 :=
              if g1.count < cfg.MAX_FREE_NODES then
                { st2.emit [Event.lock Mutex.background] with
                    background_table_alloc := true }.emit
                  [Event.unlock Mutex.background, Event.cond_signal]
              else st2
            Res.ok (st3.emit [Event.unlock Mutex.tables])
        | _, _ => Res.fault

/-- The function `fill_local_entries_list`: refill the thread's entry pool from
the global one; an empty global pool is fatal. -/
def fill_local_entries_list (cfg : Config) (st : State) : Res State :=
  let st0 := st.emit [Event.lock Mutex.entries]
  match st0.global_entries_list with
  | none => Res.fault
  | some g =>
    if g.count = 0 then Res.fatal Fatal.global_entries_empty
    else
      let nrnodes := if g.count > cfg.NR_FILL_NODES then cfg.NR_FILL_NODES else g.count
      match st0.local_entries_list with
      | none => Res.fault
      | some l =>
        match walk g.head (usub nrnodes 1) with
        | none => Res.fault
        | some (moved, left) =>
          let g1 : freelist_t := { head := left, count := usub g.count nrnodes }
          let l1 : freelist_t := { head := moved, count := uadd l.count nrnodes }
          Res.ok ({ st0 with global_entries_list := some g1,
                             local_entries_list := some l1 }.emit
                    [Event.unlock Mutex.entries])

/-- The function `fill_local_data_list` (it has no caller): refill the thread's
data pool of class `log_size` from the global one. -/
def fill_local_data_list (cfg : Config) (log_size : Nat) (st : State) : Res State :=
  let st0 := st.emit [Event.lock (Mutex.data log_size)]
  match st0.global_data_list log_size with
  | none => Res.fault
  | some g =>
    if g.count = 0 then Res.fatal Fatal.global_data_empty
    else
      let count := if g.count > cfg.NR_FILL_NODES then cfg.NR_FILL_NODES else g.count
      match st0.local_data_list log_size with
      | none => Res.fault
      | some l =>
        match walk g.head (usub count 1) with
        | none => Res.fault
        | some (moved, left) =>
          let g1 : freelist_t := { head := left, count := usub g.count count }
          let l1 : freelist_t := { head := moved, count := uadd l.count count }
          Res.ok ({ st0 with
                      global_data_list := arr_write st0.global_data_list log_size (some g1),
                      local_data_list := arr_write st0.local_data_list log_size (some l1) }.emit
                    [Event.unlock (Mutex.data log_size)])

/-- The function `put_log_global`: walk to the `nrnodes`-th carrier of the local
chain, detach that front part and splice it in front of the global chain; both
counts are adjusted by `nrnodes`. The result is `(local_list, global_list)`;
`none` when the walk dereferences `NULL`. The lock and unlock of the global
mutex are recorded by the caller. The parameter `nrnodes` (an `int` in the
source) is a natural number: the value of `NR_FILL_NODES` is taken to fit. -/
def put_log_global (local_list global_list : freelist_t) (nrnodes : Nat) :
    Option (freelist_t × freelist_t) :=
  match walk local_list.head (nrnodes - 1) with
  | none => none
  | some (moved, left) =>
    some ({ head := left, count := usub local_list.count nrnodes },
          { head := moved ++ global_list.head, count := uadd global_list.count nrnodes })

/-- First part of `put_log_local` (lines 539 to 549): push a carrier holding
`entry->data` on the thread's data pool of class `log_size`. -/
def put_log_local_push_data (entry log_size : Nat) (st : State) : Res State :=
  if entry = 0 then Res.fault
  else
    let st1 := alloc_list_node st
    let data_ptr := (st1.entries entry).data
    let st2 := if st1.local_data_list log_size = none then alloc_local_data_list log_size st1
               else st1
    match st2.local_data_list log_size with
    | none => Res.fault
    | some l =>
      let l1 : freelist_t := { head := data_ptr :: l.head, count := uadd l.count 1 }
      Res.ok { st2 with local_data_list := arr_write st2.local_data_list log_size (some l1) }

/-- Second part of `put_log_local` (lines 551 to 554): spill `NR_FILL_NODES`
data carriers to the global pool when the local count exceeds
`MAX_FREE_NODES`. -/
def put_log_local_spill_data (cfg : Config) (log_size : Nat) (st : State) : Res State :=
  match st.local_data_list log_size with
  | none => Res.fault
  | some l =>
    if l.count > cfg.MAX_FREE_NODES then
      match st.global_data_list log_size with
      | none => Res.fault
      | some g =>
        match put_log_global l g cfg.NR_FILL_NODES with
        | none => Res.fault
        | some (l1, g1) =>
          Res.ok ({ st with
                      local_data_list := arr_write st.local_data_list log_size (some l1),
                      global_data_list := arr_write st.global_data_list log_size (some g1) }.emit
                    [Event.lock (Mutex.data log_size), Event.unlock (Mutex.data log_size)])
    else Res.ok st

/-- Third part of `put_log_local` (lines 556 to 566): push a carrier holding
`entry` on the thread's entry pool. -/
def put_log_local_push_entry (entry : Nat) (st : State) : Res State :=
  let st1 := alloc_list_node st
  let st2 := if st1.local_entries_list = none then
      { st1 with local_entries_list := alloc_list st1.local_entries_list }
    else st1
  match st2.local_entries_list with
  | none => Res.fault
  | some l =>
    let l1 : freelist_t := { head := entry :: l.head, count := uadd l.count 1 }
    Res.ok { st2 with local_entries_list := some l1 }

/-- Last part of `put_log_local` (lines 568 to 571): spill `NR_FILL_NODES`
entry carriers to the global pool when the local count exceeds
`MAX_FREE_NODES`. -/
def put_log_local_spill_entries (cfg : Config) (st : State) : Res State :=
  match st.local_entries_list with
  | none => Res.fault
  | some l =>
    if l.count > cfg.MAX_FREE_NODES then
      match st.global_entries_list with
      | none => Res.fault
      | some g =>
        match put_log_global l g cfg.NR_FILL_NODES with
        | none => Res.fault
        | some (l1, g1) =>
          Res.ok ({ st with local_entries_list := some l1,
                            global_entries_list := some g1 }.emit
                    [Event.lock Mutex.entries, Event.unlock Mutex.entries])
    else Res.ok st

/-- The function `put_log_local`: its four parts in sequence. -/
def put_log_local (cfg : Config) (entry log_size : Nat) (st : State) : Res State :=
  (put_log_local_push_data entry log_size st).bind fun st1 =>
  (put_log_local_spill_data cfg log_size st1).bind fun st2 =>
  (put_log_local_push_entry entry st2).bind fun st3 =>
  put_log_local_spill_entries cfg st3

/-! ## Allocator facade -/

/-- The function `alloc_uma`: pop the head of the global UMA chain, give the UMA
a rwlock when it has none, and assign the next id. -/
def alloc_uma (st : State) : Res (Nat × State) :=
  match st.global_uma_list with
  | none => Res.fault
  | some g =>
    match g.head with
    | [] => Res.fault
    | uma :: rest =>
      let g1 : freelist_t := { head := rest, count := g.count }
      let st1 := ({ st with global_uma_list := some g1 }.emit [Event.lock Mutex.uma]).emit
        [Event.unlock Mutex.uma]
      let st2 := free_node st1
      if uma = 0 then Res.fault
      else
        let st3 :=
          if (st2.umas uma).rwlockp = 0 then
            let m := malloc st2
            { m.2 with umas := mem_write m.2.umas uma { m.2.umas uma with rwlockp := m.1 } }
          else st2
        let r := get_uma_id st3
        Res.ok (uma, { r.2 with umas := mem_write r.2.umas uma { r.2.umas uma with id := r.1 } })

/-- The function `free_uma`: push a carrier holding `uma` on the global UMA
chain. -/
def free_uma (uma : Nat) (st : State) : Res State :=
  let st1 := alloc_list_node st
  match st1.global_uma_list with
  | none => Res.fault
  | some g =>
    let g1 : freelist_t := { head := uma :: g.head, count := g.count }
    Res.ok (({ st1 with global_uma_list := some g1 }.emit [Event.lock Mutex.uma]).emit
      [Event.unlock Mutex.uma])

/-- The function `alloc_log_data`: pop the head of the global data chain of
class `log_size`; a zero count and a `NULL` payload are fatal. -/
def alloc_log_data (log_size : Nat) (st : State) : Res (Nat × State) :=
  let st0 := st.emit [Event.lock (Mutex.data log_size)]
  match st0.global_data_list log_size with
  | none => Res.fault
  | some g =>
    if g.count = 0 then Res.fatal Fatal.global_data_empty
    else
      match g.head with
      | [] => Res.fault
      | ptr :: rest =>
        let g1 : freelist_t := { head := rest, count := usub g.count 1 }
        let st1 := { st0 with global_data_list :=
                       arr_write st0.global_data_list log_size (some g1) }.emit
          [Event.unlock (Mutex.data log_size)]
        if ptr = 0 then Res.fatal Fatal.node_ptr_null
        else Res.ok (ptr, free_node st1)

/-- Lines 644 to 650 of `alloc_log_table`: allocate the thread's table pool when
it is `NULL` and refill it when its count is zero. -/
def alloc_log_table_refill (cfg : Config) (st : State) : Res State :=
  let st1 := if st.local_tables_list = none then
      { st with local_tables_list := alloc_list st.local_tables_list }
    else st
  match st1.local_tables_list with
  | none => Res.fault
  | some l => if l.count = 0 then fill_local_tables_list cfg st1 else Res.ok st1

/-- Lines 652 to 669 of `alloc_log_table`: pop the head of the thread's table
pool and set the fields of the table. -/
def alloc_log_table_pop (cfg : Config) (parent : Nat) (index : Int) (type : Nat)
    (st : State) : Res (Nat × State) :=
  match st.local_tables_list with
  | none => Res.fault
  | some l =>
    match l.head with
    | [] => Res.fault
    | table :: rest =>
      let l1 : freelist_t := { head := rest, count := usub l.count 1 }
      let st1 := { st with local_tables_list := some l1 }
      if table = 0 then Res.fatal Fatal.node_ptr_null
      else
        let st2 := free_node st1
        let t : log_table_t :=
          { count := 0, type := type, parent := parent, index := index,
            log_size := cfg.LOG_4K }
        Res.ok (table, { st2 with tables := mem_write st2.tables table t })

/-- The function `alloc_log_table`. -/
def alloc_log_table (cfg : Config) (parent : Nat) (index : Int) (type : Nat)
    (st : State) : Res (Nat × State) :=
  (alloc_log_table_refill cfg st).bind fun st1 =>
  alloc_log_table_pop cfg parent index type st1

/-- Lines 677 to 683 of `alloc_log_entry`: allocate the thread's entry pool when
it is `NULL` and refill it when its count is zero. -/
def alloc_log_entry_refill (cfg : Config) (st : State) : Res State :=
  let st1 := if st.local_entries_list = none then
      { st with local_entries_list := alloc_list st.local_entries_list }
    else st
  match st1.local_entries_list with
  | none => Res.fault
  | some l => if l.count = 0 then fill_local_entries_list cfg st1 else Res.ok st1

/-- Lines 685 to 708 of `alloc_log_entry`: pop the head of the thread's entry
pool, set the fields of the entry from the UMA, and attach a data block. -/
def alloc_log_entry_pop (uma log_size : Nat) (st : State) : Res (Nat × State) :=
  match st.local_entries_list with
  | none => Res.fault
  | some l =>
    match l.head with
    | [] => Res.fault
    | entry :: rest =>
      let l1 : freelist_t := { head := rest, count := usub l.count 1 }
      let st1 := { st with local_entries_list := some l1 }
      if entry = 0 then Res.fatal Fatal.node_ptr_null
      else
        let st2 := free_node st1
        if uma = 0 then Res.fault
        else
          let e1 : log_entry_t :=
            { st2.entries entry with
                epoch := (st2.umas uma).epoch, offset := 0, len := 0,
                policy := (st2.umas uma).policy, dst := 0 }
          let st3 := { st2 with entries := mem_write st2.entries entry e1 }
          (alloc_log_data log_size st3).bind fun r =>
            let e2 : log_entry_t := { r.2.entries entry with data := r.1 }
            let st4 := { r.2 with entries := mem_write r.2.entries entry e2 }
            Res.ok (entry, st4.emit [Event.rwlock_init (st4.entries entry).rwlockp])

/-- The function `alloc_log_entry`. -/
def alloc_log_entry (cfg : Config) (uma log_size : Nat) (st : State) : Res (Nat × State) :=
  (alloc_log_entry_refill cfg st).bind fun st1 =>
  alloc_log_entry_pop uma log_size st1

/-- Lines 713 to 724 of `free_log_entry`: clear `united`, `data` and `dst`,
flush the entry when `sync` is set, and destroy its rwlock. -/
def free_log_entry_clear (cfg : Config) (entry : Nat) (sync : Bool) (st : State) : State :=
  let e1 : log_entry_t := { st.entries entry with united := 0, data := 0, dst := 0 }
  let st1 := { st with entries := mem_write st.entries entry e1 }
  let st2 := if sync then st1.emit [Event.pmem_persist entry cfg.sizeof_log_entry_t] else st1
  st2.emit [Event.rwlock_destroy (st2.entries entry).rwlockp]

/-- The function `free_log_entry`: clear the entry, then hand it to
`put_log_local`. -/
def free_log_entry (cfg : Config) (entry log_size : Nat) (sync : Bool) (st : State) :
    Res State :=
  if entry = 0 then Res.fault
  else put_log_local cfg entry log_size (free_log_entry_clear cfg entry sync st)

/-- The function `release_local_list`: splice the whole thread-local entry chain
in front of the global entry chain. -/
def release_local_list (st : State) : Res State :=
  let st1 := if st.local_entries_list = none then
      { st with local_entries_list := alloc_list st.local_entries_list }
    else st
  match st1.local_entries_list with
  | none => Res.fault
  | some l =>
    let nrnodes := l.count
    if nrnodes = 0 then Res.ok st1
    else
      match walk l.head (usub nrnodes 1) with
      | none => Res.fault
      | some (moved, left) =>
        if left ≠ [] then Res.fatal Fatal.node_next_not_null
        else
          match st1.global_entries_list with
          | none => Res.fault
          | some g =>
            let g1 : freelist_t := { head := moved ++ g.head, count := uadd g.count nrnodes }
            let l1 : freelist_t := { head := [], count := usub l.count nrnodes }
            let st2 := { st1 with global_entries_list := some g1,
                                  local_entries_list := some l1 }.emit
              [Event.lock Mutex.entries]
            if l1.count ≠ 0 then Res.fatal Fatal.local_entries_not_zero
            else Res.ok (st2.emit [Event.unlock Mutex.entries])

/-! ## Initialisation -/

/-- The function `init_entries_lock`: give every entry of the chain a rwlock
from `malloc`. -/
def init_entries_lock (head : List Nat) (st : State) : State :=
  head.foldl
    (fun (acc : State) (entry : Nat) =>
      let m := malloc acc
      let e : log_entry_t := { m.2.entries entry with rwlockp := m.1 }
      { m.2 with entries := mem_write m.2.entries entry e })
    st

/-- The function `create_global_tables_list`: when the global table pool is
`NULL`, build it over one anonymous mapping of `count` tables and start the
background thread. The parameter is an `int` (line 271); it is converted to
`size_t` in the product of line 282 and to `unsigned long` for `create_list`
and for the count field (lines 286 and 287). -/
def create_global_tables_list (cfg : Config) (count : Int) (st : State) : State :=
  match st.global_tables_list with
  | none =>
    let total_size := (int_to_ulong count * cfg.sizeof_log_table_t) % ULONG_MOD
    let m := map_logfile none total_size st
    let c := create_list m.1 cfg.sizeof_log_table_t (int_to_ulong count) m.2
    let g : freelist_t := { head := c.1, count := int_to_ulong count }
    { c.2.2 with global_tables_list := some g }.emit [Event.thread_create]
  | some _ => st

/-- The function `create_global_entries_list`: when the global entry pool is
`NULL`, build it with one entry per page of `data_file_size`. -/
def create_global_entries_list (cfg : Config) (data_file_size : Nat) (st : State) : State :=
  match st.global_entries_list with
  | none =>
    let count := data_file_size >>> cfg.PAGE_SHIFT
    let entries_file_size := count * cfg.sizeof_log_entry_t
    let m := map_logfile (some LogFile.entries) entries_file_size st
    let c := create_list m.1 cfg.sizeof_log_entry_t count m.2
    let g : freelist_t := { head := c.1, count := count }
    init_entries_lock c.1 { c.2.2 with global_entries_list := some g }
  | some _ => st

/-- The function `create_global_data_list`: one file of `data_file_size` bytes
per size class, cut into blocks of `1 << LOG_SHIFT(i)` bytes. -/
def create_global_data_list (cfg : Config) (data_file_size : Nat) (st : State) : State :=
  (List.range cfg.NR_LOG_SIZES).foldl
    (fun (acc : State) (i : Nat) =>
      let m := map_logfile (some (LogFile.data i)) data_file_size acc
      let log_size := 1 <<< cfg.LOG_SHIFT i
      let count := data_file_size >>> cfg.LOG_SHIFT i
      let c := create_list m.1 log_size count m.2
      let g : freelist_t := { head := c.1, count := count }
      { c.2.2 with global_data_list := arr_write c.2.2.global_data_list i (some g) })
    st

/-- The function `create_global_umas_list`: the global UMA pool over
`MAX_NR_UMAS` slots. -/
def create_global_umas_list (cfg : Config) (st : State) : State :=
  let len := cfg.MAX_NR_UMAS * cfg.sizeof_uma_t
  let m := map_logfile (some LogFile.umas) len st
  let c := create_list m.1 cfg.sizeof_uma_t cfg.MAX_NR_UMAS m.2
  let g : freelist_t := { head := c.1, count := cfg.MAX_NR_UMAS }
  { c.2.2 with global_uma_list := some g }

/-- The function `init_global_freelist`. The argument `MAX_FREE_NODES * 10` of
line 793 is converted to the `int` parameter of `create_global_tables_list`
(two's complement). -/
def init_global_freelist (cfg : Config) (st : State) : State :=
  create_global_umas_list cfg
    (create_global_data_list cfg (cfg.LOG_FILE_SIZE * 2)
      (create_global_entries_list cfg (cfg.LOG_FILE_SIZE * 32)
        (create_global_tables_list cfg (wrap_int (Int.ofNat (cfg.MAX_FREE_NODES * 10))) st)))

/-- Zero-filled entry, as in a freshly allocated file. -/
def zero_entry : log_entry_t :=
  { epoch := 0, offset := 0, len := 0, policy := 0, dst := 0, data := 0, united := 0,
    rwlockp := 0 }

/-- Zero-filled table, as in a fresh anonymous mapping. -/
def zero_table : log_table_t :=
  { count := 0, type := 0, parent := 0, index := 0, log_size := 0 }

/-- Zero-filled UMA, as in a freshly allocated file. -/
def zero_uma : uma_t := { id := 0, epoch := 0, policy := 0, rwlockp := 0 }

/-- The variables at program start (their static initialisers) over zero-filled
object memory, for given `mmap` and `malloc` oracles. -/
def boot (mmap_oracle malloc_oracle : Nat → Nat) : State :=
  { global_tables_list := none
    global_entries_list := none
    global_data_list := fun _ => none
    global_uma_list := none
    local_tables_list := none
    local_entries_list := none
    local_data_list := fun _ => none
    local_node_head := 0
    background_table_alloc := false
    umaid := -1
    tables := fun _ => zero_table
    entries := fun _ => zero_entry
    umas := fun _ => zero_uma
    mmap_oracle := mmap_oracle
    mmap_calls := 0
    malloc_oracle := malloc_oracle
    malloc_calls := 0
    events := [] }

/-! ## Concrete configurations used by the examples -/

/-- A small configuration: 4 KiB pages, two size classes (4 KiB and 8 KiB),
log files of 16 KiB, four UMAs. -/
def cfg_small (max_free_nodes nr_fill_nodes : Nat) : Config :=
  { MAX_FREE_NODES := max_free_nodes
    NR_FILL_NODES := nr_fill_nodes
    NR_LOG_SIZES := 2
    LOG_FILE_SIZE := 16384
    PAGE_SHIFT := 12
    LOG_SHIFT := fun s => s + 12
    MAX_NR_UMAS := 4
    LOG_4K := 0
    sizeof_log_table_t := 64
    sizeof_log_entry_t := 64
    sizeof_uma_t := 128
    sizeof_rwlock_t := 56 }

/-- The state after `init_global_freelist` for `cfg_small`, with mappings at
multiples of `0x10000000` and heap blocks at multiples of `0x100`. -/
def init_small (max_free_nodes nr_fill_nodes : Nat) : State :=
  init_global_freelist (cfg_small max_free_nodes nr_fill_nodes)
    (boot (fun n => (n + 1) * 268435456) (fun n => (n + 1) * 256))

/-- The state of a successful call. -/
def Res.state? : Res State → Option State
  | Res.ok st => some st
  | _ => none

/-- The returned pointer of a successful call. -/
def Res.value? : Res (Nat × State) → Option Nat
  | Res.ok r => some r.1
  | _ => none

/-- The state after a successful call that returns a pointer. -/
def Res.after? : Res (Nat × State) → Option State
  | Res.ok r => some r.2
  | _ => none

/-- A run of `n` calls of `alloc_log_entry` for the same UMA and size class; the
entries are returned in the order of allocation. -/
def alloc_log_entries (cfg : Config) (uma log_size : Nat) : Nat → State → Res (List Nat × State)
  | 0, st => Res.ok ([], st)
  | n + 1, st =>
    (alloc_log_entry cfg uma log_size st).bind fun r =>
    (alloc_log_entries cfg uma log_size n r.2).bind fun q =>
    Res.ok (r.1 :: q.1, q.2)

/-- A run of `free_log_entry` over a list of entries, in the order of the list. -/
def free_log_entries (cfg : Config) (log_size : Nat) (sync : Bool) : List Nat → State → Res State
  | [], st => Res.ok st
  | e :: es, st =>
    (free_log_entry cfg e log_size sync st).bind (free_log_entries cfg log_size sync es)

/-- The state of a successful run, `boot` with constant oracles otherwise. -/
def Res.get (r : Res State) : State :=
  match r with
  | Res.ok st => st
  | _ => boot (fun _ => 0) (fun _ => 0)

/-- The UMA at the head of the UMA pool of `init_small`. -/
def demo_uma : Nat := 1342177664

/-- The state after `alloc_uma` and six calls of `alloc_log_entry` of class 0
from `init_small 4 2`. -/
def spill_demo_allocated : State :=
  ((alloc_uma (init_small 4 2)).bind fun r =>
    (alloc_log_entries (cfg_small 4 2) r.1 0 6 r.2).bind fun q => Res.ok q.2).get

/-- The six entries allocated in `spill_demo_allocated`, in order of
allocation. -/
def spill_demo_entries : List Nat :=
  [536879040, 536878976, 536878912, 536878848, 536878784, 536878720]

/-- The state after freeing the first `k` entries of `spill_demo_entries`. -/
def spill_demo_freed (k : Nat) : State :=
  (free_log_entries (cfg_small 4 2) 0 false (spill_demo_entries.take k)
    spill_demo_allocated).get

/-- A run of `n` calls of `alloc_uma`. -/
def alloc_umas : Nat → State → Res State
  | 0, st => Res.ok st
  | n + 1, st => (alloc_uma st).bind fun r => alloc_umas n r.2

/-- One call of `alloc_uma` followed by `free_uma` of the UMA it returned. -/
def alloc_free_uma (st : State) : Res State :=
  (alloc_uma st).bind fun r => free_uma r.1 r.2

/-- A run of `n` rounds of `alloc_free_uma`. -/
def alloc_free_umas : Nat → State → Res State
  | 0, st => Res.ok st
  | n + 1, st => (alloc_free_uma st).bind (alloc_free_umas n)

/-- The state after `init_global_freelist` and one `alloc_uma` whose caller has
set `epoch = 5` and `policy = 1` in the UMA it got (`demo_uma`). -/
def ready_small (max_free_nodes nr_fill_nodes : Nat) : State :=
  match alloc_uma (init_small max_free_nodes nr_fill_nodes) with
  | Res.ok r =>
    { r.2 with umas := mem_write r.2.umas r.1 { r.2.umas r.1 with epoch := 5, policy := 1 } }
  | _ => init_small max_free_nodes nr_fill_nodes

/-- A run of `n` calls of `alloc_log_table` with parent `NULL`, index 0 and
type 0. -/
def alloc_log_tables (cfg : Config) : Nat → State → Res State
  | 0, st => Res.ok st
  | n + 1, st =>
    (alloc_log_table cfg 0 0 0 st).bind fun r => alloc_log_tables cfg n r.2

/-- The state after forty table allocations from `init_small 4 2`: the local and
the global table pool are both empty. -/
def drained_tables : State :=
  (alloc_log_tables (cfg_small 4 2) 40 (init_small 4 2)).get

/-- The chain built by `create_list`: the slots in decreasing address order. -/
def slab (address size count : Nat) : List Nat :=
  ((List.range count).map (fun i => address + i * size)).reverse

/-- The state after four allocations of class 1 from `ready_small 4 2`: the four
blocks of the global data pool of class 1 are all allocated. -/
def exhaust_demo : State :=
  ((alloc_log_entries (cfg_small 4 2) demo_uma 1 4 (ready_small 4 2)).bind fun q =>
    Res.ok q.2).get

/-- One pass of the loop of `background_table_alloc_thread_func` (lines 239 to
258): take the refill mutex; while the flag is unset the thread sleeps in
`pthread_cond_wait` (the pass ends there); otherwise append a slab with
`fill_global_tables_list(true)`, clear the flag and release the refill mutex. -/
def background_table_alloc_thread_func (cfg : Config) (st : State) : Res State :=
  let st1 := st.emit [Event.lock Mutex.background]
  if st1.background_table_alloc = false then Res.ok (st1.emit [Event.cond_wait])
  else
    (fill_global_tables_list cfg true st1).bind fun st2 =>
      Res.ok ({ st2 with background_table_alloc := false }.emit
        [Event.unlock Mutex.background])

/-- The state after `k` table allocations from `init_small 4 2`. -/
def tables_after (k : Nat) : State :=
  (alloc_log_tables (cfg_small 4 2) k (init_small 4 2)).get

/-- A pool provisioned over a slab: it is allocated, its chain is
`slab base size count` and its count field is `count`; the chain has `count`
nodes with pairwise distinct payloads, which are exactly the addresses
`base + j * size` for `j < count`. -/
def slab_pool (pool : Option freelist_t) (base size count : Nat) : Prop :=
  pool = some { head := slab base size count, count := count } ∧
  (slab base size count).length = count ∧
  (slab base size count).Nodup ∧
  ∀ p, p ∈ slab base size count ↔ ∃ j, j < count ∧ p = base + j * size

/-- The body of the loop of `create_global_data_list` for size class `i`. -/
def create_global_data_list_step (cfg : Config) (data_file_size : Nat) (acc : State)
    (i : Nat) : State :=
  let m := map_logfile (some (LogFile.data i)) data_file_size acc
  let log_size := 1 <<< cfg.LOG_SHIFT i
  let count := data_file_size >>> cfg.LOG_SHIFT i
  let c := create_list m.1 log_size count m.2
  let g : freelist_t := { head := c.1, count := count }
  { c.2.2 with global_data_list := arr_write c.2.2.global_data_list i (some g) }

/-- The first `n` rounds of the loop of `create_global_data_list`. -/
def create_global_data_list_rounds (cfg : Config) (data_file_size n : Nat) (st : State) :
    State :=
  (List.range n).foldl (create_global_data_list_step cfg data_file_size) st

/-- The operations of a mutator thread on the table and entry pools. -/
inductive Op where
  | alloc_table (parent : Nat) (index : Int) (type : Nat)
  | alloc_entry (uma log_size : Nat)
  | free_entry (entry log_size : Nat) (sync : Bool)
  | release
deriving DecidableEq, Repr

/-- One operation of the thread; the pointer returned by an allocation is
dropped. -/
def step (cfg : Config) (op : Op) (st : State) : Res State :=
  match op with
  | Op.alloc_table parent index type =>
    (alloc_log_table cfg parent index type st).bind fun r => Res.ok r.2
  | Op.alloc_entry uma log_size =>
    (alloc_log_entry cfg uma log_size st).bind fun r => Res.ok r.2
  | Op.free_entry entry log_size sync => free_log_entry cfg entry log_size sync st
  | Op.release => release_local_list st

/-- A sequence of operations of the thread, in order; it ends at the first
operation that aborts or faults. -/
def run (cfg : Config) : List Op → State → Res State
  | [], st => Res.ok st
  | op :: ops, st => (step cfg op st).bind (run cfg ops)

/-- One operation of the thread together with the list of the entries the
caller holds: an allocation adds the entry returned, a free is admitted only
for an entry of the list and removes it. The result is `none` when the
operation aborts or faults, or when the free is not admitted. -/
def step_owned (cfg : Config) (op : Op) (x : State × List Nat) : Option (State × List Nat) :=
  match op with
  | Op.alloc_table parent index type =>
    match alloc_log_table cfg parent index type x.1 with
    | Res.ok r => some (r.2, x.2)
    | _ => none
  | Op.alloc_entry uma log_size =>
    match alloc_log_entry cfg uma log_size x.1 with
    | Res.ok r => some (r.2, r.1 :: x.2)
    | _ => none
  | Op.free_entry entry log_size sync =>
    if entry ∈ x.2 then
      match free_log_entry cfg entry log_size sync x.1 with
      | Res.ok st => some (st, x.2.erase entry)
      | _ => none
    else none
  | Op.release =>
    match release_local_list x.1 with
    | Res.ok st => some (st, x.2)
    | _ => none

/-- A sequence of operations with the list of entries held by the caller. -/
def run_owned (cfg : Config) : List Op → State × List Nat → Option (State × List Nat)
  | [], x => some x
  | op :: ops, x =>
    match step_owned cfg op x with
    | some y => run_owned cfg ops y
    | none => none

/-- Every local pool of the thread has a count of at most `b`. -/
def local_counts_le (st : State) (b : Nat) : Prop :=
  (∀ l, st.local_tables_list = some l → l.count ≤ b) ∧
  (∀ l, st.local_entries_list = some l → l.count ≤ b) ∧
  (∀ s l, st.local_data_list s = some l → l.count ≤ b)

/-- The local pools of the thread are empty: each is `NULL` or has no node and
count zero. -/
def locals_empty (st : State) : Prop :=
  alloc_list st.local_tables_list = some { head := [], count := 0 } ∧
  alloc_list st.local_entries_list = some { head := [], count := 0 } ∧
  ∀ s, alloc_list (st.local_data_list s) = some { head := [], count := 0 }

/-- Invariant of the local pools used for the spill bound: the table pool has
count at most `NR_FILL_NODES`; the entry pool and every data pool have a count
equal to the length of their chain, at most `max MAX_FREE_NODES
(NR_FILL_NODES - 1)` for entries and at most `MAX_FREE_NODES` for data. -/
def local_inv (cfg : Config) (st : State) : Prop :=
  (∀ l, st.local_tables_list = some l → l.count ≤ cfg.NR_FILL_NODES) ∧
  (∀ l, st.local_entries_list = some l →
    l.count = l.head.length ∧ l.count ≤ max cfg.MAX_FREE_NODES (cfg.NR_FILL_NODES - 1)) ∧
  (∀ s l, st.local_data_list s = some l →
    l.count = l.head.length ∧ l.count ≤ cfg.MAX_FREE_NODES)

/-- Invariant of the entry pools used for the inflight count: the global pool is
allocated, the local pool has a count equal to the length of its chain, and the
two counts plus the number of entries held by the caller are `total`. -/
def entries_inv (total : Nat) (st : State) (held : List Nat) : Prop :=
  ∃ g l, st.global_entries_list = some g ∧ alloc_list st.local_entries_list = some l ∧
    l.count = l.head.length ∧ g.count + l.count + held.length = total

/-- Six allocations of class 0 followed by the free of the first four entries
allocated. -/
def bound_demo_ops : List Op :=
  List.replicate 6 (Op.alloc_entry demo_uma 0) ++
    (spill_demo_entries.take 4).map (fun e => Op.free_entry e 0 false)

/-- The state after `bound_demo_ops` from `ready_small 4 2`. -/
def bound_demo_state : State :=
  (run (cfg_small 4 2) bound_demo_ops (ready_small 4 2)).get

/-- Six allocations of class 0, then the first five entries freed, a release of
the local entry pool and one further allocation of class 1. -/
def inflight_demo_ops : List Op :=
  List.replicate 6 (Op.alloc_entry demo_uma 0) ++
    (spill_demo_entries.take 5).map (fun e => Op.free_entry e 0 false) ++
    [Op.release, Op.alloc_entry demo_uma 1]

/-- The state and the entries held after `inflight_demo_ops` from
`init_small 4 2`. -/
def inflight_demo_final : State × List Nat :=
  (run_owned (cfg_small 4 2) inflight_demo_ops (init_small 4 2, [])).getD (init_small 4 2, [])

/-! ## Two threads on the refill mutex and the table-pool mutex -/

/-- The library calls that a call started in `st` has recorded when it
returns. -/
def new_events (st : State) (r : Res State) : List Event :=
  match r with
  | Res.ok st1 => st1.events.drop st.events.length
  | _ => []

/-- The pairs `(h, m)` for which a sequence of library calls takes the mutex
`m` while the thread holds the mutex `h`; `held` are the mutexes held at the
start. `pthread_cond_wait` (line 245, on `background_table_alloc_mutex`) gives
up the refill mutex and takes it again. -/
def lock_pairs : List Mutex → List Event → List (Mutex × Mutex)
  | _, [] => []
  | held, Event.lock m :: es => held.map (fun h => (h, m)) ++ lock_pairs (m :: held) es
  | held, Event.unlock m :: es => lock_pairs (held.erase m) es
  | held, Event.cond_wait :: es =>
    (held.erase Mutex.background).map (fun h => (h, Mutex.background)) ++ lock_pairs held es
  | held, _ :: es => lock_pairs held es

/-- Modelled from POSIX (`pthread.h` is not part of the sources): the next
library call of a thread that holds the mutexes `mine` while the other thread
holds `others`. `pthread_mutex_lock` of a mutex that is held blocks (`none`),
otherwise the thread owns the mutex; `pthread_mutex_unlock` releases it. A
thread at `pthread_cond_wait` sleeps and takes no step (its wake-up is outside
this model). The other calls do not block and leave the mutexes as they are. -/
def call_step (e : Event) (mine others : List Mutex) : Option (List Mutex) :=
  match e with
  | Event.lock m => if m ∈ mine ∨ m ∈ others then none else some (m :: mine)
  | Event.unlock m => some (mine.erase m)
  | Event.cond_wait => none
  | _ => some mine

/-- The two threads that meet on the table pool. -/
inductive Thread where
  | mutator
  | worker
deriving DecidableEq, Repr

/-- A mutator thread and the background thread, each with the library calls it
still has to make, in program order, and the mutexes it holds. -/
structure Threads where
  mutator_calls : List Event
  mutator_holds : List Mutex
  worker_calls : List Event
  worker_holds : List Mutex
deriving DecidableEq, Repr

/-- The thread `who` makes its next library call; `none` when it has none left
or when the call blocks. -/
def Threads.step (who : Thread) (c : Threads) : Option Threads :=
  match who with
  | Thread.mutator =>
    match c.mutator_calls with
    | [] => none
    | e :: es =>
      match call_step e c.mutator_holds c.worker_holds with
      | some held => some { c with mutator_calls := es, mutator_holds := held }
      | none => none
  | Thread.worker =>
    match c.worker_calls with
    | [] => none
    | e :: es =>
      match call_step e c.worker_holds c.mutator_holds with
      | some held => some { c with worker_calls := es, worker_holds := held }
      | none => none

/-- The threads scheduled in the order of the list. -/
def Threads.run : List Thread → Threads → Option Threads
  | [], c => some c
  | who :: sched, c =>
    match c.step who with
    | some c1 => Threads.run sched c1
    | none => none

/-- Each thread is at a `pthread_mutex_lock` of a mutex that the other thread
holds: neither can ever proceed. -/
def Threads.deadlocked (c : Threads) : Bool :=
  match c.mutator_calls, c.worker_calls with
  | Event.lock m1 :: _, Event.lock m2 :: _ =>
    decide (m1 ∈ c.worker_holds) && decide (m2 ∈ c.mutator_holds)
  | _, _ => false

/-- A mutator about to run `fill_local_tables_list` and the background thread
at the top of its loop (line 239), both in the state `st`, holding no mutex. -/
def refill_race (cfg : Config) (st : State) : Threads :=
  { mutator_calls := new_events st (fill_local_tables_list cfg st)
    mutator_holds := []
    worker_calls := new_events st (background_table_alloc_thread_func cfg st)
    worker_holds := [] }

/-- Six allocations of class 0, the first four entries freed, then one
allocation of class 1. -/
def lifo_demo_ops : List Op :=
  List.replicate 6 (Op.alloc_entry demo_uma 0) ++
    (spill_demo_entries.take 4).map (fun e => Op.free_entry e 0 false) ++
    [Op.alloc_entry demo_uma 1]

/-- The state after `lifo_demo_ops` from `ready_small 4 2`. -/
def lifo_demo_state : State :=
  (run (cfg_small 4 2) lifo_demo_ops (ready_small 4 2)).get

/-! ## Basic lemmas -/

set_option maxRecDepth 100000

@[simp] theorem Res.bind_ok {α β : Type} (a : α) (f : α → Res β) :
    (Res.ok a).bind f = f a := rfl

@[simp] theorem Res.bind_fatal {α β : Type} (e : Fatal) (f : α → Res β) :
    (Res.fatal e : Res α).bind f = Res.fatal e := rfl

@[simp] theorem Res.bind_fault {α β : Type} (f : α → Res β) :
    (Res.fault : Res α).bind f = Res.fault := rfl

theorem uadd_of_lt {a b : Nat} (h : a + b < ULONG_MOD) : uadd a b = a + b := by
  unfold uadd
  exact Nat.mod_eq_of_lt h

theorem usub_of_le {a b : Nat} (hb : b ≤ a) (ha : a < ULONG_MOD) : usub a b = a - b := by
  unfold usub ULONG_MOD at *
  omega

theorem uadd_zero_left {b : Nat} (h : b < ULONG_MOD) : uadd 0 b = b := by
  unfold uadd
  rw [Nat.zero_add]
  exact Nat.mod_eq_of_lt h

theorem usub_zero_one : usub 0 1 = ULONG_MOD - 1 := by
  decide

/-- The walk succeeds exactly when the chain has more than `n` nodes, and then
cuts it after node `n`. -/
theorem walk_eq (xs : List Nat) (n : Nat) :
    walk xs n = if n < xs.length then some (xs.take (n + 1), xs.drop (n + 1)) else none := by
  induction xs generalizing n with
  | nil => simp [walk]
  | cons p rest ih =>
    cases n with
    | zero => simp [walk]
    | succ m =>
      simp only [walk, ih m, List.length_cons, Nat.add_lt_add_iff_right]
      split_ifs <;> simp

theorem walk_of_lt {xs : List Nat} {n : Nat} (h : n < xs.length) :
    walk xs n = some (xs.take (n + 1), xs.drop (n + 1)) := by
  rw [walk_eq, if_pos h]

@[simp] theorem emit_global_tables_list (st : State) (es : List Event) :
    (st.emit es).global_tables_list = st.global_tables_list := rfl

@[simp] theorem emit_global_entries_list (st : State) (es : List Event) :
    (st.emit es).global_entries_list = st.global_entries_list := rfl

@[simp] theorem emit_global_data_list (st : State) (es : List Event) :
    (st.emit es).global_data_list = st.global_data_list := rfl

@[simp] theorem emit_global_uma_list (st : State) (es : List Event) :
    (st.emit es).global_uma_list = st.global_uma_list := rfl

@[simp] theorem emit_local_tables_list (st : State) (es : List Event) :
    (st.emit es).local_tables_list = st.local_tables_list := rfl

@[simp] theorem emit_local_entries_list (st : State) (es : List Event) :
    (st.emit es).local_entries_list = st.local_entries_list := rfl

@[simp] theorem emit_local_data_list (st : State) (es : List Event) :
    (st.emit es).local_data_list = st.local_data_list := rfl

@[simp] theorem emit_entries (st : State) (es : List Event) :
    (st.emit es).entries = st.entries := rfl

@[simp] theorem emit_umas (st : State) (es : List Event) :
    (st.emit es).umas = st.umas := rfl

@[simp] theorem emit_tables (st : State) (es : List Event) :
    (st.emit es).tables = st.tables := rfl

@[simp] theorem emit_umaid (st : State) (es : List Event) :
    (st.emit es).umaid = st.umaid := rfl

@[simp] theorem emit_mmap_oracle (st : State) (es : List Event) :
    (st.emit es).mmap_oracle = st.mmap_oracle := rfl

@[simp] theorem emit_mmap_calls (st : State) (es : List Event) :
    (st.emit es).mmap_calls = st.mmap_calls := rfl

@[simp] theorem emit_background_table_alloc (st : State) (es : List Event) :
    (st.emit es).background_table_alloc = st.background_table_alloc := rfl

@[simp] theorem mem_write_same {α : Type} (m : Nat → α) (p : Nat) (v : α) :
    mem_write m p v p = v := by
  simp [mem_write]

@[simp] theorem arr_write_same (m : Nat → Option freelist_t) (i : Nat) (v : Option freelist_t) :
    arr_write m i v i = v := by
  simp [arr_write]

theorem arr_write_other (m : Nat → Option freelist_t) {i j : Nat} (v : Option freelist_t)
    (h : j ≠ i) : arr_write m i v j = m j := by
  simp [arr_write, h]

@[simp] theorem arr_write_arr_write (m : Nat → Option freelist_t) (i : Nat)
    (v w : Option freelist_t) : arr_write (arr_write m i v) i w = arr_write m i w := by
  funext a
  simp only [arr_write]
  split_ifs <;> rfl

theorem alloc_list_node_eq (st : State) :
    alloc_list_node st = { st with local_node_head := st.local_node_head - 1 } := by
  unfold alloc_list_node
  split_ifs with h
  · cases st
    simp_all
  · rfl

theorem alloc_list_some (l : Option freelist_t) :
    ∃ x, alloc_list l = some x := by
  cases l <;> simp [alloc_list]

/-- The data push of `put_log_local` on a non-`NULL` entry pushes the current
value of `entry->data`. -/
theorem put_log_local_push_data_eq (entry log_size : Nat) (st : State) (l : freelist_t)
    (he : entry ≠ 0) (hl : alloc_list (st.local_data_list log_size) = some l) :
    put_log_local_push_data entry log_size st =
      Res.ok { alloc_list_node st with
        local_data_list := arr_write st.local_data_list log_size
          (some { head := (st.entries entry).data :: l.head, count := uadd l.count 1 }) } := by
  cases hd : st.local_data_list log_size with
  | none =>
    rw [hd] at hl
    simp only [alloc_list, Option.some.injEq] at hl
    subst hl
    simp [put_log_local_push_data, he, alloc_list_node_eq, hd, alloc_local_data_list]
  | some l0 =>
    rw [hd] at hl
    simp only [alloc_list, Option.some.injEq] at hl
    subst hl
    simp [put_log_local_push_data, he, alloc_list_node_eq, hd]

/-- The data spill of `put_log_local` does nothing while the local count is at
most `MAX_FREE_NODES`. -/
theorem put_log_local_spill_data_skip (cfg : Config) (log_size : Nat) (st : State)
    (l : freelist_t) (hl : st.local_data_list log_size = some l)
    (hc : l.count ≤ cfg.MAX_FREE_NODES) :
    put_log_local_spill_data cfg log_size st = Res.ok st := by
  simp [put_log_local_spill_data, hl, Nat.not_lt.mpr hc]

/-- The data spill of `put_log_local` moves the first `NR_FILL_NODES` carriers
to the global pool when the local count exceeds `MAX_FREE_NODES`. -/
theorem put_log_local_spill_data_move (cfg : Config) (log_size : Nat) (st : State)
    (l g : freelist_t) (hl : st.local_data_list log_size = some l)
    (hg : st.global_data_list log_size = some g)
    (hc : cfg.MAX_FREE_NODES < l.count) (hlen : cfg.NR_FILL_NODES - 1 < l.head.length) :
    put_log_local_spill_data cfg log_size st =
      Res.ok ({ st with
        local_data_list := arr_write st.local_data_list log_size
          (some { head := l.head.drop (cfg.NR_FILL_NODES - 1 + 1),
                  count := usub l.count cfg.NR_FILL_NODES }),
        global_data_list := arr_write st.global_data_list log_size
          (some { head := l.head.take (cfg.NR_FILL_NODES - 1 + 1) ++ g.head,
                  count := uadd g.count cfg.NR_FILL_NODES }) }.emit
        [Event.lock (Mutex.data log_size), Event.unlock (Mutex.data log_size)]) := by
  simp [put_log_local_spill_data, hl, hg, hc, put_log_global, walk_of_lt hlen]

/-- The entry push of `put_log_local`. -/
theorem put_log_local_push_entry_eq (entry : Nat) (st : State) (l : freelist_t)
    (hl : alloc_list st.local_entries_list = some l) :
    put_log_local_push_entry entry st =
      Res.ok { alloc_list_node st with
        local_entries_list := some { head := entry :: l.head, count := uadd l.count 1 } } := by
  cases hd : st.local_entries_list with
  | none =>
    rw [hd] at hl
    simp only [alloc_list, Option.some.injEq] at hl
    subst hl
    simp [put_log_local_push_entry, alloc_list_node_eq, hd, alloc_list]
  | some l0 =>
    rw [hd] at hl
    simp only [alloc_list, Option.some.injEq] at hl
    subst hl
    simp [put_log_local_push_entry, alloc_list_node_eq, hd]

/-- The entry spill of `put_log_local` does nothing while the local count is at
most `MAX_FREE_NODES`. -/
theorem put_log_local_spill_entries_skip (cfg : Config) (st : State)
    (l : freelist_t) (hl : st.local_entries_list = some l)
    (hc : l.count ≤ cfg.MAX_FREE_NODES) :
    put_log_local_spill_entries cfg st = Res.ok st := by
  simp [put_log_local_spill_entries, hl, Nat.not_lt.mpr hc]

/-- The entry spill of `put_log_local` moves the first `NR_FILL_NODES` carriers
to the global pool when the local count exceeds `MAX_FREE_NODES`. -/
theorem put_log_local_spill_entries_move (cfg : Config) (st : State)
    (l g : freelist_t) (hl : st.local_entries_list = some l)
    (hg : st.global_entries_list = some g)
    (hc : cfg.MAX_FREE_NODES < l.count) (hlen : cfg.NR_FILL_NODES - 1 < l.head.length) :
    put_log_local_spill_entries cfg st =
      Res.ok ({ st with
        local_entries_list := some
          { head := l.head.drop (cfg.NR_FILL_NODES - 1 + 1),
            count := usub l.count cfg.NR_FILL_NODES },
        global_entries_list := some
          { head := l.head.take (cfg.NR_FILL_NODES - 1 + 1) ++ g.head,
            count := uadd g.count cfg.NR_FILL_NODES } }.emit
        [Event.lock Mutex.entries, Event.unlock Mutex.entries]) := by
  simp [put_log_local_spill_entries, hl, hg, hc, put_log_global, walk_of_lt hlen]

@[simp] theorem free_log_entry_clear_local_data_list (cfg : Config) (e : Nat) (sync : Bool)
    (st : State) : (free_log_entry_clear cfg e sync st).local_data_list = st.local_data_list := by
  cases sync <;> rfl

@[simp] theorem free_log_entry_clear_global_data_list (cfg : Config) (e : Nat) (sync : Bool)
    (st : State) :
    (free_log_entry_clear cfg e sync st).global_data_list = st.global_data_list := by
  cases sync <;> rfl

@[simp] theorem free_log_entry_clear_local_entries_list (cfg : Config) (e : Nat) (sync : Bool)
    (st : State) :
    (free_log_entry_clear cfg e sync st).local_entries_list = st.local_entries_list := by
  cases sync <;> rfl

@[simp] theorem free_log_entry_clear_global_entries_list (cfg : Config) (e : Nat) (sync : Bool)
    (st : State) :
    (free_log_entry_clear cfg e sync st).global_entries_list = st.global_entries_list := by
  cases sync <;> rfl

@[simp] theorem free_log_entry_clear_umas (cfg : Config) (e : Nat) (sync : Bool)
    (st : State) : (free_log_entry_clear cfg e sync st).umas = st.umas := by
  cases sync <;> rfl

@[simp] theorem free_log_entry_clear_entries (cfg : Config) (e : Nat) (sync : Bool)
    (st : State) :
    (free_log_entry_clear cfg e sync st).entries =
      mem_write st.entries e { st.entries e with united := 0, data := 0, dst := 0 } := by
  cases sync <;> rfl

/-- After the clearing step the `data` field of the entry is `NULL`. -/
theorem free_log_entry_clear_data (cfg : Config) (e : Nat) (sync : Bool) (st : State) :
    ((free_log_entry_clear cfg e sync st).entries e).data = 0 := by
  simp

/-- The two data steps of `put_log_local` succeed on a coherent local data pool
and leave the entry pools, the global state of other kinds and the object
memory as they were. -/
theorem put_log_local_data_steps (cfg : Config) (e s : Nat) (st : State)
    (he : e ≠ 0) (h2 : cfg.NR_FILL_NODES ≤ cfg.MAX_FREE_NODES + 1)
    (hcoh : ∀ l, st.local_data_list s = some l → l.count = l.head.length)
    (hgd : ∃ g, st.global_data_list s = some g) :
    ∃ st1, (put_log_local_push_data e s st).bind (put_log_local_spill_data cfg s) = Res.ok st1 ∧
      st1.local_entries_list = st.local_entries_list ∧
      st1.global_entries_list = st.global_entries_list ∧
      st1.entries = st.entries ∧ st1.umas = st.umas := by
  obtain ⟨l, hl⟩ := alloc_list_some (st.local_data_list s)
  obtain ⟨g, hg⟩ := hgd
  have hlc : l.count = l.head.length := by
    cases hd : st.local_data_list s with
    | none =>
      rw [hd] at hl
      simp only [alloc_list, Option.some.injEq] at hl
      subst hl
      rfl
    | some l0 =>
      rw [hd] at hl
      simp only [alloc_list, Option.some.injEq] at hl
      subst hl
      exact hcoh l0 hd
  rw [put_log_local_push_data_eq e s st l he hl, Res.bind_ok]
  by_cases hc : uadd l.count 1 ≤ cfg.MAX_FREE_NODES
  · rw [put_log_local_spill_data_skip cfg s _
      { head := (st.entries e).data :: l.head, count := uadd l.count 1 } (by simp) hc]
    exact ⟨_, rfl, by simp [alloc_list_node_eq], by simp [alloc_list_node_eq],
      by simp [alloc_list_node_eq], by simp [alloc_list_node_eq]⟩
  · have hlt : cfg.NR_FILL_NODES - 1 < ((st.entries e).data :: l.head).length := by
      have : uadd l.count 1 ≤ l.count + 1 := Nat.mod_le _ _
      simp only [List.length_cons]
      omega
    rw [put_log_local_spill_data_move cfg s _
      { head := (st.entries e).data :: l.head, count := uadd l.count 1 } g (by simp)
      (by simp [alloc_list_node_eq, hg])
      (Nat.lt_of_not_le hc) hlt]
    exact ⟨_, rfl, by simp [alloc_list_node_eq], by simp [alloc_list_node_eq],
      by simp [alloc_list_node_eq], by simp [alloc_list_node_eq]⟩

/-- The function `put_log_local` is its data steps followed by its entry steps. -/
theorem put_log_local_eq (cfg : Config) (e s : Nat) (st : State) :
    put_log_local cfg e s st =
      ((put_log_local_push_data e s st).bind (put_log_local_spill_data cfg s)).bind
        (fun st2 => (put_log_local_push_entry e st2).bind (put_log_local_spill_entries cfg)) := by
  unfold put_log_local
  cases put_log_local_push_data e s st <;> rfl

/-- The entry steps of `put_log_local` when the push does not exceed
`MAX_FREE_NODES`: the entry is pushed and the global pool is untouched. -/
theorem put_log_local_entry_steps_skip (cfg : Config) (e : Nat) (st : State)
    (L : List Nat) (c : Nat)
    (hl : alloc_list st.local_entries_list = some { head := L, count := c })
    (hc : uadd c 1 ≤ cfg.MAX_FREE_NODES) :
    ∃ st1, (put_log_local_push_entry e st).bind (put_log_local_spill_entries cfg) = Res.ok st1 ∧
      st1.local_entries_list = some { head := e :: L, count := uadd c 1 } ∧
      st1.global_entries_list = st.global_entries_list ∧
      st1.local_data_list = st.local_data_list ∧
      st1.global_data_list = st.global_data_list ∧
      st1.entries = st.entries ∧ st1.umas = st.umas := by
  rw [put_log_local_push_entry_eq e st _ hl, Res.bind_ok]
  rw [put_log_local_spill_entries_skip cfg _ { head := e :: L, count := uadd c 1 } (by simp) hc]
  exact ⟨_, rfl, by simp, by simp [alloc_list_node_eq], by simp [alloc_list_node_eq],
    by simp [alloc_list_node_eq], by simp [alloc_list_node_eq], by simp [alloc_list_node_eq]⟩

/-- The entry steps of `put_log_local` when the push exceeds `MAX_FREE_NODES`:
the first `NR_FILL_NODES` carriers, the new one first, move to the front of the
global chain. -/
theorem put_log_local_entry_steps_move (cfg : Config) (e : Nat) (st : State)
    (L G : List Nat) (c gc : Nat)
    (hl : alloc_list st.local_entries_list = some { head := L, count := c })
    (hg : st.global_entries_list = some { head := G, count := gc })
    (hc : cfg.MAX_FREE_NODES < uadd c 1) (h1 : 1 ≤ cfg.NR_FILL_NODES)
    (hlen : cfg.NR_FILL_NODES ≤ L.length + 1) :
    ∃ st1, (put_log_local_push_entry e st).bind (put_log_local_spill_entries cfg) = Res.ok st1 ∧
      st1.local_entries_list = some
        { head := (e :: L).drop cfg.NR_FILL_NODES,
          count := usub (uadd c 1) cfg.NR_FILL_NODES } ∧
      st1.global_entries_list = some
        { head := (e :: L).take cfg.NR_FILL_NODES ++ G,
          count := uadd gc cfg.NR_FILL_NODES } ∧
      st1.local_data_list = st.local_data_list ∧
      st1.global_data_list = st.global_data_list ∧
      st1.entries = st.entries ∧ st1.umas = st.umas := by
  have hn : cfg.NR_FILL_NODES - 1 + 1 = cfg.NR_FILL_NODES := by omega
  rw [put_log_local_push_entry_eq e st _ hl, Res.bind_ok]
  rw [put_log_local_spill_entries_move cfg _ { head := e :: L, count := uadd c 1 }
    { head := G, count := gc } (by simp) (by simp [alloc_list_node_eq, hg]) hc
    (by simp only [List.length_cons]; omega)]
  simp only [hn]
  exact ⟨_, rfl, by simp, by simp, by simp [alloc_list_node_eq], by simp [alloc_list_node_eq],
    by simp [alloc_list_node_eq], by simp [alloc_list_node_eq]⟩

/-- C9: when the thread's entry pool holds exactly `MAX_FREE_NODES` entries and
`1 ≤ NR_FILL_NODES ≤ MAX_FREE_NODES + 1`, `free_log_entry` moves the first
`NR_FILL_NODES` carriers of the local entry chain, the freed entry first, to the
front of the global entry chain in the same order; the local count becomes
`MAX_FREE_NODES + 1 - NR_FILL_NODES` and the global count grows by
`NR_FILL_NODES`. A free that leaves the local count at most `MAX_FREE_NODES`
leaves the global entry pool untouched. -/
theorem free_log_entry_spill (cfg : Config) (st : State) (e s : Nat) (sync : Bool)
    (he : e ≠ 0) (h1 : 1 ≤ cfg.NR_FILL_NODES)
    (h2 : cfg.NR_FILL_NODES ≤ cfg.MAX_FREE_NODES + 1)
    (hmax : cfg.MAX_FREE_NODES + 1 < ULONG_MOD)
    (hcoh : ∀ l, st.local_data_list s = some l → l.count = l.head.length)
    (hgd : ∃ g, st.global_data_list s = some g) :
    (∀ L G gc,
      st.local_entries_list = some { head := L, count := cfg.MAX_FREE_NODES } →
      L.length = cfg.MAX_FREE_NODES →
      st.global_entries_list = some { head := G, count := gc } →
      gc + cfg.NR_FILL_NODES < ULONG_MOD →
      ∃ st1, free_log_entry cfg e s sync st = Res.ok st1 ∧
        st1.local_entries_list = some
          { head := (e :: L).drop cfg.NR_FILL_NODES,
            count := cfg.MAX_FREE_NODES + 1 - cfg.NR_FILL_NODES } ∧
        st1.global_entries_list = some
          { head := (e :: L).take cfg.NR_FILL_NODES ++ G,
            count := gc + cfg.NR_FILL_NODES }) ∧
    (∀ L c,
      alloc_list st.local_entries_list = some { head := L, count := c } →
      c + 1 ≤ cfg.MAX_FREE_NODES →
      ∃ st1, free_log_entry cfg e s sync st = Res.ok st1 ∧
        st1.local_entries_list = some { head := e :: L, count := c + 1 } ∧
        st1.global_entries_list = st.global_entries_list) := by
  obtain ⟨sd, hsd, hle, hge, -, -⟩ :=
    put_log_local_data_steps cfg e s (free_log_entry_clear cfg e sync st) he h2
      (by simpa using hcoh) (by simpa using hgd)
  simp only [free_log_entry_clear_local_entries_list,
    free_log_entry_clear_global_entries_list] at hle hge
  have hfree : free_log_entry cfg e s sync st =
      (put_log_local_push_entry e sd).bind (put_log_local_spill_entries cfg) := by
    simp only [free_log_entry, he, if_false, put_log_local_eq, hsd, Res.bind_ok]
  constructor
  · intro L G gc hl hlen hg hgc
    have hu : uadd cfg.MAX_FREE_NODES 1 = cfg.MAX_FREE_NODES + 1 := uadd_of_lt hmax
    obtain ⟨st1, hst1, hl1, hg1, -⟩ :=
      put_log_local_entry_steps_move cfg e sd L G cfg.MAX_FREE_NODES gc
        (by rw [hle, hl]; rfl) (by rw [hge, hg]) (by rw [hu]; omega) h1 (by omega)
    refine ⟨st1, by rw [hfree, hst1], ?_, ?_⟩
    · rw [hl1, hu, usub_of_le h2 hmax]
    · rw [hg1, uadd_of_lt hgc]
  · intro L c hl hc
    have hu : uadd c 1 = c + 1 := uadd_of_lt (by omega)
    obtain ⟨st1, hst1, hl1, hg1, -⟩ :=
      put_log_local_entry_steps_skip cfg e sd L c (by rw [hle, hl]) (by rw [hu]; exact hc)
    exact ⟨st1, by rw [hfree, hst1], by rw [hl1, hu], by rw [hg1, hge]⟩

/-- The spill scenario with `MAX_FREE_NODES = 4`, `NR_FILL_NODES = 2`: local and
global entry counts after freeing 0, 1, ..., 6 of the six allocated entries.
Only the fifth free spills: the global count grows once, by 2, and the local
count ends at 4. -/
theorem spill_scenario_counts :
    (List.range 7).map (fun k =>
      ((spill_demo_freed k).local_entries_list.map (fun l => l.count),
       (spill_demo_freed k).global_entries_list.map (fun l => l.count))) =
    [(some 0, some 122), (some 1, some 122), (some 2, some 122), (some 3, some 122),
     (some 4, some 122), (some 3, some 124), (some 4, some 124)] := by
  rfl

/-- Witness of C9 on the configuration `MAX_FREE_NODES = 4`, `NR_FILL_NODES = 2`:
after six allocations and four frees the local entry pool holds four entries;
the fifth free spills two carriers (local count 3, global count 122 + 2), the
sixth free does not touch the global pool (local count 4). -/
theorem free_log_entry_spill_witness :
    (∃ st1, free_log_entry (cfg_small 4 2) 536878784 0 false (spill_demo_freed 4) = Res.ok st1 ∧
      st1.local_entries_list = some { head := [536878912, 536878976, 536879040], count := 3 } ∧
      st1.global_entries_list.map (fun l => (l.head.take 3, l.count)) =
        some ([536878784, 536878848, 536878656], 124)) ∧
    (∃ st1, free_log_entry (cfg_small 4 2) 536878720 0 false (spill_demo_freed 5) = Res.ok st1 ∧
      st1.local_entries_list =
        some { head := [536878720, 536878912, 536878976, 536879040], count := 4 } ∧
      st1.global_entries_list = (spill_demo_freed 5).global_entries_list) := by
  have hcoh4 : ∀ l, (spill_demo_freed 4).local_data_list 0 = some l →
      l.count = l.head.length := by
    intro l h
    have h0 : (spill_demo_freed 4).local_data_list 0 =
        some { head := [0, 0, 0, 0], count := 4 } := by rfl
    rw [h0] at h
    cases h
    rfl
  have hcoh5 : ∀ l, (spill_demo_freed 5).local_data_list 0 = some l →
      l.count = l.head.length := by
    intro l h
    have h0 : (spill_demo_freed 5).local_data_list 0 =
        some { head := [0, 0, 0], count := 3 } := by rfl
    rw [h0] at h
    cases h
    rfl
  constructor
  · obtain ⟨st1, h, hl, hg⟩ :=
      (free_log_entry_spill (cfg_small 4 2) (spill_demo_freed 4) 536878784 0 false
        (by decide) (by decide) (by decide) (by decide) hcoh4 ⟨_, rfl⟩).1
        [536878848, 536878912, 536878976, 536879040]
        (((spill_demo_freed 4).global_entries_list.map (fun l => l.head)).getD [])
        122 (by rfl) (by rfl) (by rfl) (by decide)
    exact ⟨st1, h, hl, by rw [hg]; rfl⟩
  · obtain ⟨st1, h, hl, hg⟩ :=
      (free_log_entry_spill (cfg_small 4 2) (spill_demo_freed 5) 536878720 0 false
        (by decide) (by decide) (by decide) (by decide) hcoh5 ⟨_, rfl⟩).2
        [536878912, 536878976, 536879040] 3 (by rfl) (by decide)
    exact ⟨st1, h, hl, hg⟩

/-! ## Slabs -/

theorem create_list_succ (address size n : Nat) (st : State) :
    create_list address size (n + 1) st =
      (((address + n * size) :: (create_list address size n st).1),
       (if (create_list address size n st).2.1 = none then some (address + n * size)
        else (create_list address size n st).2.1),
       alloc_list_node (create_list address size n st).2.2) := by
  simp only [create_list, List.range_succ, List.foldl_append, List.foldl_cons, List.foldl_nil]

theorem create_list_fst (address size n : Nat) (st : State) :
    (create_list address size n st).1 = slab address size n := by
  induction n with
  | zero => rfl
  | succ n ih =>
    rw [create_list_succ]
    simp only [ih, slab, List.range_succ, List.map_append, List.map_cons, List.map_nil,
      List.reverse_append, List.reverse_cons, List.reverse_nil, List.nil_append,
      List.singleton_append]

theorem create_list_tail (address size n : Nat) (st : State) :
    (create_list address size n st).2.1 = if n = 0 then none else some address := by
  induction n with
  | zero => rfl
  | succ n ih =>
    rw [create_list_succ]
    simp only [ih]
    cases n <;> simp

theorem create_list_state (address size n : Nat) (st : State) :
    (create_list address size n st).2.2 =
      { st with local_node_head := st.local_node_head - n } := by
  induction n with
  | zero => rfl
  | succ n ih =>
    rw [create_list_succ]
    simp only [ih, alloc_list_node_eq, Nat.sub_sub]

theorem slab_length (address size n : Nat) : (slab address size n).length = n := by
  simp [slab]

theorem slab_succ (address size n : Nat) :
    slab address size (n + 1) = (address + n * size) :: slab address size n := by
  simp [slab, List.range_succ]

/-- Without a lock, `fill_global_tables_list` puts a slab of `MAX_FREE_NODES`
fresh tables in front of the global table chain and adds `MAX_FREE_NODES` to
its count. -/
theorem fill_global_tables_list_eq (cfg : Config) (st : State) (g : freelist_t)
    (hg : st.global_tables_list = some g) (hmax : 1 ≤ cfg.MAX_FREE_NODES) :
    fill_global_tables_list cfg false st =
      Res.ok { st with
        mmap_calls := st.mmap_calls + 1,
        local_node_head := st.local_node_head - cfg.MAX_FREE_NODES,
        global_tables_list := some
          { head := slab (st.mmap_oracle st.mmap_calls) cfg.sizeof_log_table_t
                      cfg.MAX_FREE_NODES ++ g.head,
            count := uadd g.count cfg.MAX_FREE_NODES } } := by
  have h0 : cfg.MAX_FREE_NODES ≠ 0 := by omega
  simp [fill_global_tables_list, create_list_fst, create_list_tail, create_list_state,
    map_logfile, h0, hg]

/-! ## Refill -/

@[simp] theorem mem_write_mem_write {α : Type} (m : Nat → α) (p : Nat) (v w : α) :
    mem_write (mem_write m p v) p w = mem_write m p w := by
  funext a
  simp only [mem_write]
  split_ifs <;> rfl

/-- The number of carriers moved by a refill. -/
theorem refill_count (g n : Nat) : (if g > n then n else g) = min g n := by
  split_ifs with h <;> omega

/-- With a non-empty global pool `fill_local_entries_list` moves the first
`min g NR_FILL_NODES` carriers of the global chain into the local pool. -/
theorem fill_local_entries_list_eq (cfg : Config) (st : State) (G : List Nat) (g : Nat)
    (l : freelist_t)
    (hg : st.global_entries_list = some { head := G, count := g })
    (hl : st.local_entries_list = some l)
    (hg1 : 1 ≤ g) (hgU : g < ULONG_MOD) (h1 : 1 ≤ cfg.NR_FILL_NODES)
    (hlen : min g cfg.NR_FILL_NODES ≤ G.length) :
    fill_local_entries_list cfg st =
      Res.ok (({ st with
          global_entries_list := some
            { head := G.drop (min g cfg.NR_FILL_NODES),
              count := g - min g cfg.NR_FILL_NODES },
          local_entries_list := some
            { head := G.take (min g cfg.NR_FILL_NODES),
              count := uadd l.count (min g cfg.NR_FILL_NODES) } }.emit
        [Event.lock Mutex.entries]).emit [Event.unlock Mutex.entries]) := by
  have hk1 : 1 ≤ min g cfg.NR_FILL_NODES := by omega
  have hkU : min g cfg.NR_FILL_NODES < ULONG_MOD := by omega
  have hs : usub (min g cfg.NR_FILL_NODES) 1 = min g cfg.NR_FILL_NODES - 1 :=
    usub_of_le hk1 hkU
  have hw := @walk_of_lt G (min g cfg.NR_FILL_NODES - 1) (by omega)
  have hn : min g cfg.NR_FILL_NODES - 1 + 1 = min g cfg.NR_FILL_NODES := by omega
  rw [hn] at hw
  have hg0 : g ≠ 0 := by omega
  simp only [fill_local_entries_list, emit_global_entries_list, emit_local_entries_list, hg, hl,
    hg0, if_false, refill_count, hs, hw, usub_of_le (Nat.min_le_left _ _) hgU]
  rfl

/-- The effect of `fill_local_entries_list` on the pools, with the parts of the
state it leaves alone. -/
theorem fill_local_entries_list_ok (cfg : Config) (st : State) (G : List Nat) (g : Nat)
    (l : freelist_t)
    (hg : st.global_entries_list = some { head := G, count := g })
    (hl : st.local_entries_list = some l)
    (hg1 : 1 ≤ g) (hgU : g < ULONG_MOD) (h1 : 1 ≤ cfg.NR_FILL_NODES)
    (hlen : min g cfg.NR_FILL_NODES ≤ G.length) :
    ∃ st1, fill_local_entries_list cfg st = Res.ok st1 ∧
      st1.global_entries_list = some
        { head := G.drop (min g cfg.NR_FILL_NODES), count := g - min g cfg.NR_FILL_NODES } ∧
      st1.local_entries_list = some
        { head := G.take (min g cfg.NR_FILL_NODES),
          count := uadd l.count (min g cfg.NR_FILL_NODES) } ∧
      st1.global_data_list = st.global_data_list ∧
      st1.entries = st.entries ∧ st1.umas = st.umas :=
  ⟨_, fill_local_entries_list_eq cfg st G g l hg hl hg1 hgU h1 hlen, rfl, rfl, rfl, rfl, rfl⟩

/-- With a non-empty global pool `fill_local_tables_list` moves the first
`min g NR_FILL_NODES` carriers of the global chain into the local pool. -/
theorem fill_local_tables_list_eq (cfg : Config) (st : State) (G : List Nat) (g : Nat)
    (l : freelist_t)
    (hg : st.global_tables_list = some { head := G, count := g })
    (hl : st.local_tables_list = some l)
    (hg1 : 1 ≤ g) (hgU : g < ULONG_MOD) (h1 : 1 ≤ cfg.NR_FILL_NODES)
    (hlen : min g cfg.NR_FILL_NODES ≤ G.length) :
    ∃ st1, fill_local_tables_list cfg st = Res.ok st1 ∧
      st1.global_tables_list = some
        { head := G.drop (min g cfg.NR_FILL_NODES), count := g - min g cfg.NR_FILL_NODES } ∧
      st1.local_tables_list = some
        { head := G.take (min g cfg.NR_FILL_NODES),
          count := uadd l.count (min g cfg.NR_FILL_NODES) } ∧
      st1.tables = st.tables ∧
      st1.background_table_alloc =
        (if g - min g cfg.NR_FILL_NODES < cfg.MAX_FREE_NODES then true
         else st.background_table_alloc) := by
  have hk1 : 1 ≤ min g cfg.NR_FILL_NODES := by omega
  have hkU : min g cfg.NR_FILL_NODES < ULONG_MOD := by omega
  have hs : usub (min g cfg.NR_FILL_NODES) 1 = min g cfg.NR_FILL_NODES - 1 :=
    usub_of_le hk1 hkU
  have hw := @walk_of_lt G (min g cfg.NR_FILL_NODES - 1) (by omega)
  have hn : min g cfg.NR_FILL_NODES - 1 + 1 = min g cfg.NR_FILL_NODES := by omega
  rw [hn] at hw
  have hg0 : g ≠ 0 := by omega
  simp only [fill_local_tables_list, emit_global_tables_list, emit_local_tables_list, hg, hl,
    hg0, if_false, Res.bind_ok, refill_count, hs, hw, usub_of_le (Nat.min_le_left _ _) hgU]
  split_ifs with hlt
  · exact ⟨_, rfl, rfl, rfl, rfl, rfl⟩
  · exact ⟨_, rfl, rfl, rfl, rfl, rfl⟩

/-! ## Pops -/

/-- The pop of `alloc_log_data` on a pool with non-zero count and non-`NULL`
head payload. -/
theorem alloc_log_data_eq (s : Nat) (st : State) (d : Nat) (drest : List Nat) (dc : Nat)
    (hg : st.global_data_list s = some { head := d :: drest, count := dc })
    (hdc : dc ≠ 0) (hd : d ≠ 0) :
    alloc_log_data s st =
      Res.ok (d, free_node (({ st with
        global_data_list := arr_write st.global_data_list s
          (some { head := drest, count := usub dc 1 }) }.emit
        [Event.lock (Mutex.data s)]).emit [Event.unlock (Mutex.data s)])) := by
  simp only [alloc_log_data, emit_global_data_list, hg, hdc, hd, if_false]
  rfl

/-- The pop of `alloc_log_table` on a local pool with non-`NULL` head payload. -/
theorem alloc_log_table_pop_eq (cfg : Config) (parent : Nat) (index : Int) (type : Nat)
    (st : State) (t : Nat) (rest : List Nat) (c : Nat)
    (hl : st.local_tables_list = some { head := t :: rest, count := c }) (ht : t ≠ 0) :
    alloc_log_table_pop cfg parent index type st =
      Res.ok (t, { st with
        local_tables_list := some { head := rest, count := usub c 1 },
        local_node_head := st.local_node_head + 1,
        tables := mem_write st.tables t
          { count := 0, type := type, parent := parent, index := index,
            log_size := cfg.LOG_4K } }) := by
  simp only [alloc_log_table_pop, hl, ht, if_false]
  rfl

/-- The effect of the pop of `alloc_log_table` on the pools and on the table. -/
theorem alloc_log_table_pop_ok (cfg : Config) (parent : Nat) (index : Int) (type : Nat)
    (st : State) (t : Nat) (rest : List Nat) (c : Nat)
    (hl : st.local_tables_list = some { head := t :: rest, count := c }) (ht : t ≠ 0) :
    ∃ st1, alloc_log_table_pop cfg parent index type st = Res.ok (t, st1) ∧
      st1.local_tables_list = some { head := rest, count := usub c 1 } ∧
      st1.global_tables_list = st.global_tables_list ∧
      st1.tables t =
        { count := 0, type := type, parent := parent, index := index,
          log_size := cfg.LOG_4K } ∧
      st1.background_table_alloc = st.background_table_alloc :=
  ⟨_, alloc_log_table_pop_eq cfg parent index type st t rest c hl ht, rfl, rfl,
    by simp, rfl⟩

/-- The pop of `alloc_log_entry` on a local pool with non-`NULL` head payload,
for a non-`NULL` UMA and a global data pool with non-zero count and non-`NULL`
head payload. -/
theorem alloc_log_entry_pop_ok (u s : Nat) (st : State) (e : Nat) (rest : List Nat) (c : Nat)
    (d : Nat) (drest : List Nat) (dc : Nat)
    (hl : st.local_entries_list = some { head := e :: rest, count := c }) (he : e ≠ 0)
    (hu : u ≠ 0)
    (hg : st.global_data_list s = some { head := d :: drest, count := dc })
    (hdc : dc ≠ 0) (hd : d ≠ 0) :
    ∃ st1, alloc_log_entry_pop u s st = Res.ok (e, st1) ∧
      st1.local_entries_list = some { head := rest, count := usub c 1 } ∧
      st1.global_data_list =
        arr_write st.global_data_list s (some { head := drest, count := usub dc 1 }) ∧
      st1.entries = mem_write st.entries e
        { st.entries e with
            epoch := (st.umas u).epoch, offset := 0, len := 0,
            policy := (st.umas u).policy, dst := 0, data := d } ∧
      st1.global_entries_list = st.global_entries_list ∧
      st1.local_data_list = st.local_data_list ∧
      st1.umas = st.umas := by
  simp only [alloc_log_entry_pop, hl, he, hu, if_false]
  rw [alloc_log_data_eq s _ d drest dc (by simpa [free_node] using hg) hdc hd]
  simp only [Res.bind_ok]
  exact ⟨_, rfl, rfl, rfl, by simp [free_node], rfl, rfl, rfl⟩

/-- The refill step of `alloc_log_table` does nothing on a pool with non-zero
count. -/
theorem alloc_log_table_refill_skip (cfg : Config) (st : State) (l : freelist_t)
    (hl : st.local_tables_list = some l) (hc : l.count ≠ 0) :
    alloc_log_table_refill cfg st = Res.ok st := by
  simp [alloc_log_table_refill, hl, hc]

/-- The refill step of `alloc_log_table` on a pool that is `NULL` or has count
zero is `fill_local_tables_list`. -/
theorem alloc_log_table_refill_fill (cfg : Config) (st : State) (lh : List Nat)
    (hl : alloc_list st.local_tables_list = some { head := lh, count := 0 }) :
    alloc_log_table_refill cfg st =
      fill_local_tables_list cfg
        { st with local_tables_list := some { head := lh, count := 0 } } := by
  cases hd : st.local_tables_list with
  | none =>
    rw [hd] at hl
    simp only [alloc_list, Option.some.injEq] at hl
    simp [alloc_log_table_refill, hd, alloc_list, ← hl]
  | some l0 =>
    rw [hd] at hl
    simp only [alloc_list, Option.some.injEq] at hl
    subst hl
    have hst : st = { st with local_tables_list := some { head := lh, count := 0 } } := by
      cases st
      simp_all
    rw [← hst]
    simp [alloc_log_table_refill, hd]

/-- The refill step of `alloc_log_entry` does nothing on a pool with non-zero
count. -/
theorem alloc_log_entry_refill_skip (cfg : Config) (st : State) (l : freelist_t)
    (hl : st.local_entries_list = some l) (hc : l.count ≠ 0) :
    alloc_log_entry_refill cfg st = Res.ok st := by
  simp [alloc_log_entry_refill, hl, hc]

/-- The refill step of `alloc_log_entry` on a pool that is `NULL` or has count
zero is `fill_local_entries_list`. -/
theorem alloc_log_entry_refill_fill (cfg : Config) (st : State) (lh : List Nat)
    (hl : alloc_list st.local_entries_list = some { head := lh, count := 0 }) :
    alloc_log_entry_refill cfg st =
      fill_local_entries_list cfg
        { st with local_entries_list := some { head := lh, count := 0 } } := by
  cases hd : st.local_entries_list with
  | none =>
    rw [hd] at hl
    simp only [alloc_list, Option.some.injEq] at hl
    simp [alloc_log_entry_refill, hd, alloc_list, ← hl]
  | some l0 =>
    rw [hd] at hl
    simp only [alloc_list, Option.some.injEq] at hl
    subst hl
    have hst : st = { st with local_entries_list := some { head := lh, count := 0 } } := by
      cases st
      simp_all
    rw [← hst]
    simp [alloc_log_entry_refill, hd]

theorem take_cons_of_pos (t : Nat) (G : List Nat) (k : Nat) (hk : 1 ≤ k) :
    (t :: G).take k = t :: G.take (k - 1) := by
  cases k with
  | zero => omega
  | succ n => simp

/-- C10: when the thread's table (resp. entry) pool is empty and the global pool
holds `g ≥ 1` nodes, `alloc_log_table` (resp. `alloc_log_entry`) moves exactly
`k = min g NR_FILL_NODES` nodes, the first `k` of the global chain in their
order, into the local pool, leaves the other `g - k` nodes of the global chain
in order, and after the pop the local count is `k - 1` and the global count is
`g - k`. -/
theorem refill_moves_first_nodes (cfg : Config) (st : State)
    (h1 : 1 ≤ cfg.NR_FILL_NODES) :
    (∀ (parent : Nat) (index : Int) (type : Nat) (lh : List Nat) (t : Nat) (G : List Nat)
        (g : Nat),
      alloc_list st.local_tables_list = some { head := lh, count := 0 } →
      st.global_tables_list = some { head := t :: G, count := g } →
      (t :: G).length = g → g < ULONG_MOD → t ≠ 0 →
      ∃ st1 st2,
        alloc_log_table_refill cfg st = Res.ok st1 ∧
        st1.local_tables_list = some
          { head := (t :: G).take (min g cfg.NR_FILL_NODES),
            count := min g cfg.NR_FILL_NODES } ∧
        st1.global_tables_list = some
          { head := (t :: G).drop (min g cfg.NR_FILL_NODES),
            count := g - min g cfg.NR_FILL_NODES } ∧
        alloc_log_table cfg parent index type st = Res.ok (t, st2) ∧
        st2.local_tables_list = some
          { head := G.take (min g cfg.NR_FILL_NODES - 1),
            count := min g cfg.NR_FILL_NODES - 1 } ∧
        st2.global_tables_list = some
          { head := (t :: G).drop (min g cfg.NR_FILL_NODES),
            count := g - min g cfg.NR_FILL_NODES }) ∧
    (∀ (u s : Nat) (lh : List Nat) (e : Nat) (G : List Nat) (g : Nat) (d : Nat)
        (drest : List Nat) (dc : Nat),
      alloc_list st.local_entries_list = some { head := lh, count := 0 } →
      st.global_entries_list = some { head := e :: G, count := g } →
      (e :: G).length = g → g < ULONG_MOD → e ≠ 0 → u ≠ 0 →
      st.global_data_list s = some { head := d :: drest, count := dc } → dc ≠ 0 → d ≠ 0 →
      ∃ st1 st2,
        alloc_log_entry_refill cfg st = Res.ok st1 ∧
        st1.local_entries_list = some
          { head := (e :: G).take (min g cfg.NR_FILL_NODES),
            count := min g cfg.NR_FILL_NODES } ∧
        st1.global_entries_list = some
          { head := (e :: G).drop (min g cfg.NR_FILL_NODES),
            count := g - min g cfg.NR_FILL_NODES } ∧
        alloc_log_entry cfg u s st = Res.ok (e, st2) ∧
        st2.local_entries_list = some
          { head := G.take (min g cfg.NR_FILL_NODES - 1),
            count := min g cfg.NR_FILL_NODES - 1 } ∧
        st2.global_entries_list = some
          { head := (e :: G).drop (min g cfg.NR_FILL_NODES),
            count := g - min g cfg.NR_FILL_NODES }) := by
  constructor
  · intro parent index type lh t G g hl hg hlen hgU ht
    have hg1 : 1 ≤ g := by
      rw [← hlen]
      simp
    have hk1 : 1 ≤ min g cfg.NR_FILL_NODES := by omega
    have hkU : min g cfg.NR_FILL_NODES < ULONG_MOD := by omega
    obtain ⟨st1, hf, hgl, hll, -, -⟩ :=
      fill_local_tables_list_eq cfg
        { st with local_tables_list := some { head := lh, count := 0 } }
        (t :: G) g { head := lh, count := 0 } hg rfl hg1 hgU h1 (by omega)
    have hu : uadd 0 (min g cfg.NR_FILL_NODES) = min g cfg.NR_FILL_NODES :=
      uadd_zero_left hkU
    simp only [hu] at hll
    have hr : alloc_log_table_refill cfg st = Res.ok st1 := by
      rw [alloc_log_table_refill_fill cfg st lh hl, hf]
    have hll2 := hll
    rw [take_cons_of_pos t G _ hk1] at hll2
    obtain ⟨st2, hp, hl2, hg2, -, -⟩ :=
      alloc_log_table_pop_ok cfg parent index type st1 t _ _ hll2 ht
    refine ⟨st1, st2, hr, hll, hgl, ?_, ?_, ?_⟩
    · simp only [alloc_log_table, hr, Res.bind_ok]
      exact hp
    · rw [hl2, usub_of_le hk1 hkU]
    · rw [hg2, hgl]
  · intro u s lh e G g d drest dc hl hg hlen hgU he hu hd hdc hd0
    have hg1 : 1 ≤ g := by
      rw [← hlen]
      simp
    have hk1 : 1 ≤ min g cfg.NR_FILL_NODES := by omega
    have hkU : min g cfg.NR_FILL_NODES < ULONG_MOD := by omega
    obtain ⟨st1, hf, hgl, hll, hdl, -, hum⟩ :=
      fill_local_entries_list_ok cfg
        { st with local_entries_list := some { head := lh, count := 0 } }
        (e :: G) g { head := lh, count := 0 } hg rfl hg1 hgU h1 (by omega)
    simp only [uadd_zero_left hkU] at hll
    have hr : alloc_log_entry_refill cfg st = Res.ok st1 := by
      rw [alloc_log_entry_refill_fill cfg st lh hl, hf]
    have hll2 := hll
    rw [take_cons_of_pos e G _ hk1] at hll2
    obtain ⟨st2, hp, hl2, -, -, hg2, -, -⟩ :=
      alloc_log_entry_pop_ok u s st1 e (G.take (min g cfg.NR_FILL_NODES - 1))
        (min g cfg.NR_FILL_NODES) d drest dc hll2 he hu (by rw [hdl]; exact hd) hdc hd0
    refine ⟨st1, st2, hr, hll, hgl, ?_, ?_, ?_⟩
    · simp only [alloc_log_entry, hr, Res.bind_ok]
      exact hp
    · rw [hl2, usub_of_le hk1 hkU]
    · rw [hg2, hgl]

/-- Witness of C10 on the configuration `MAX_FREE_NODES = 8`, `NR_FILL_NODES = 4`:
the first table allocation after initialisation leaves local count 3 and the
global count lower by 4 (80 becomes 76); the first entry allocation leaves
local count 3 and the global entry count lower by 4 (128 becomes 124). -/
theorem refill_moves_first_nodes_witness :
    ((init_small 8 4).global_tables_list.map (fun l => l.count) = some 80 ∧
      ∃ st2, alloc_log_table (cfg_small 8 4) 0 0 0 (init_small 8 4) =
          Res.ok (268440512, st2) ∧
        st2.local_tables_list =
          some { head := [268440448, 268440384, 268440320], count := 3 } ∧
        st2.global_tables_list.map (fun l => (l.head.take 2, l.count)) =
          some ([268440256, 268440192], 76)) ∧
    ((init_small 8 4).global_entries_list.map (fun l => l.count) = some 128 ∧
      ∃ st2, alloc_log_entry (cfg_small 8 4) demo_uma 0 (init_small 8 4) =
          Res.ok (536879040, st2) ∧
        st2.local_entries_list =
          some { head := [536878976, 536878912, 536878848], count := 3 } ∧
        st2.global_entries_list.map (fun l => (l.head.take 2, l.count)) =
          some ([536878784, 536878720], 124)) := by
  refine ⟨⟨by rfl, ?_⟩, ⟨by rfl, ?_⟩⟩
  · obtain ⟨st1, st2, -, -, -, h, hl, hg⟩ :=
      (refill_moves_first_nodes (cfg_small 8 4) (init_small 8 4) (by decide)).1 0 0 0 []
        268440512
        ((((init_small 8 4).global_tables_list.map (fun l => l.head)).getD []).tail)
        80 (by rfl) (by rfl) (by rfl) (by decide) (by decide)
    exact ⟨st2, h, by rw [hl]; rfl, by rw [hg]; rfl⟩
  · obtain ⟨st1, st2, -, -, -, h, hl, hg⟩ :=
      (refill_moves_first_nodes (cfg_small 8 4) (init_small 8 4) (by decide)).2 demo_uma 0 []
        536879040
        ((((init_small 8 4).global_entries_list.map (fun l => l.head)).getD []).tail)
        128 805335040 [805330944, 805326848, 805322752, 805318656, 805314560, 805310464,
          805306368] 8
        (by rfl) (by rfl) (by rfl) (by decide) (by decide) (by decide) (by rfl) (by decide)
        (by decide)
    exact ⟨st2, h, by rw [hl]; rfl, by rw [hg]; rfl⟩

/-! ## Synchronous slab growth -/

/-- On a global table pool with count zero `fill_local_tables_list` first puts a
fresh slab in front of the global chain and then moves the first
`min MAX_FREE_NODES NR_FILL_NODES` carriers into the local pool. -/
theorem fill_local_tables_list_grow (cfg : Config) (st : State) (Gold : List Nat)
    (l : freelist_t)
    (hg : st.global_tables_list = some { head := Gold, count := 0 })
    (hl : st.local_tables_list = some l)
    (hmax1 : 1 ≤ cfg.MAX_FREE_NODES) (hmaxU : cfg.MAX_FREE_NODES < ULONG_MOD)
    (h1 : 1 ≤ cfg.NR_FILL_NODES) :
    ∃ st1, fill_local_tables_list cfg st = Res.ok st1 ∧
      st1.global_tables_list = some
        { head := (slab (st.mmap_oracle st.mmap_calls) cfg.sizeof_log_table_t
                    cfg.MAX_FREE_NODES).drop (min cfg.MAX_FREE_NODES cfg.NR_FILL_NODES) ++ Gold,
          count := cfg.MAX_FREE_NODES - min cfg.MAX_FREE_NODES cfg.NR_FILL_NODES } ∧
      st1.local_tables_list = some
        { head := (slab (st.mmap_oracle st.mmap_calls) cfg.sizeof_log_table_t
                    cfg.MAX_FREE_NODES).take (min cfg.MAX_FREE_NODES cfg.NR_FILL_NODES),
          count := uadd l.count (min cfg.MAX_FREE_NODES cfg.NR_FILL_NODES) } ∧
      st1.tables = st.tables := by
  have hk1 : 1 ≤ min cfg.MAX_FREE_NODES cfg.NR_FILL_NODES := by omega
  have hkU : min cfg.MAX_FREE_NODES cfg.NR_FILL_NODES < ULONG_MOD := by omega
  have hkle : min cfg.MAX_FREE_NODES cfg.NR_FILL_NODES ≤
      (slab (st.mmap_oracle st.mmap_calls) cfg.sizeof_log_table_t
        cfg.MAX_FREE_NODES).length := by
    rw [slab_length]
    omega
  have hs : usub (min cfg.MAX_FREE_NODES cfg.NR_FILL_NODES) 1 =
      min cfg.MAX_FREE_NODES cfg.NR_FILL_NODES - 1 := usub_of_le hk1 hkU
  have hw := @walk_of_lt
    (slab (st.mmap_oracle st.mmap_calls) cfg.sizeof_log_table_t cfg.MAX_FREE_NODES ++ Gold)
    (min cfg.MAX_FREE_NODES cfg.NR_FILL_NODES - 1)
    (by rw [List.length_append]; omega)
  have hn : min cfg.MAX_FREE_NODES cfg.NR_FILL_NODES - 1 + 1 =
      min cfg.MAX_FREE_NODES cfg.NR_FILL_NODES := by omega
  rw [hn, List.take_append_of_le_length hkle, List.drop_append_of_le_length hkle] at hw
  have hfg := fill_global_tables_list_eq cfg (st.emit [Event.lock Mutex.tables])
    { head := Gold, count := 0 } hg hmax1
  simp only [emit_mmap_calls, emit_mmap_oracle, uadd_zero_left hmaxU] at hfg
  simp only [fill_local_tables_list, emit_global_tables_list, hg, if_true, hfg, Res.bind_ok,
    emit_local_tables_list, hl, refill_count, hs, hw,
    usub_of_le (Nat.min_le_left _ _) hmaxU]
  split_ifs with hlt
  · exact ⟨_, rfl, rfl, rfl, rfl⟩
  · exact ⟨_, rfl, rfl, rfl, rfl⟩

/-- C8: `alloc_log_table` called when the thread's table pool and the global
table pool are both empty does not fail: a fresh slab of `MAX_FREE_NODES` tables
is mapped, the returned table is the first node of that slab, the next
`min MAX_FREE_NODES NR_FILL_NODES - 1` nodes stay in the local pool, and the
global pool is left with the rest of the slab and
`count = MAX_FREE_NODES - min MAX_FREE_NODES NR_FILL_NODES`, the length of its
chain. -/
theorem alloc_log_table_synchronous_fallback (cfg : Config) (st : State)
    (parent : Nat) (index : Int) (type : Nat)
    (hl : alloc_list st.local_tables_list = some { head := [], count := 0 })
    (hg : st.global_tables_list = some { head := [], count := 0 })
    (hmax1 : 1 ≤ cfg.MAX_FREE_NODES) (hmaxU : cfg.MAX_FREE_NODES < ULONG_MOD)
    (h1 : 1 ≤ cfg.NR_FILL_NODES)
    (haddr : st.mmap_oracle st.mmap_calls ≠ 0) :
    ∃ t st2 rest,
      alloc_log_table cfg parent index type st = Res.ok (t, st2) ∧
      slab (st.mmap_oracle st.mmap_calls) cfg.sizeof_log_table_t cfg.MAX_FREE_NODES =
        t :: rest ∧
      (t :: rest).length = cfg.MAX_FREE_NODES ∧
      st2.local_tables_list = some
        { head := rest.take (min cfg.MAX_FREE_NODES cfg.NR_FILL_NODES - 1),
          count := min cfg.MAX_FREE_NODES cfg.NR_FILL_NODES - 1 } ∧
      st2.global_tables_list = some
        { head := rest.drop (min cfg.MAX_FREE_NODES cfg.NR_FILL_NODES - 1),
          count := cfg.MAX_FREE_NODES - min cfg.MAX_FREE_NODES cfg.NR_FILL_NODES } ∧
      (rest.drop (min cfg.MAX_FREE_NODES cfg.NR_FILL_NODES - 1)).length =
        cfg.MAX_FREE_NODES - min cfg.MAX_FREE_NODES cfg.NR_FILL_NODES := by
  obtain ⟨m, hm⟩ : ∃ m, cfg.MAX_FREE_NODES = m + 1 := ⟨cfg.MAX_FREE_NODES - 1, by omega⟩
  have hk1 : 1 ≤ min cfg.MAX_FREE_NODES cfg.NR_FILL_NODES := by omega
  have hkU : min cfg.MAX_FREE_NODES cfg.NR_FILL_NODES < ULONG_MOD := by omega
  obtain ⟨st1, hf, hg1, hl1, -⟩ :=
    fill_local_tables_list_grow cfg
      { st with local_tables_list := some { head := [], count := 0 } } []
      { head := [], count := 0 } hg rfl hmax1 hmaxU h1
  have hS : slab (st.mmap_oracle st.mmap_calls) cfg.sizeof_log_table_t cfg.MAX_FREE_NODES =
      (st.mmap_oracle st.mmap_calls + m * cfg.sizeof_log_table_t) ::
        slab (st.mmap_oracle st.mmap_calls) cfg.sizeof_log_table_t m := by
    rw [hm, slab_succ]
  obtain ⟨k, hk⟩ : ∃ k, min cfg.MAX_FREE_NODES cfg.NR_FILL_NODES = k + 1 :=
    ⟨min cfg.MAX_FREE_NODES cfg.NR_FILL_NODES - 1, by omega⟩
  simp only [hS, hk, uadd_zero_left (hk ▸ hkU), List.take_succ_cons, List.drop_succ_cons,
    List.append_nil] at hg1 hl1
  have hr : alloc_log_table_refill cfg st = Res.ok st1 := by
    rw [alloc_log_table_refill_fill cfg st [] hl, hf]
  obtain ⟨st2, hp, hl2, hg2, -, -⟩ :=
    alloc_log_table_pop_ok cfg parent index type st1 _ _ _ hl1 (by omega)
  refine ⟨_, st2, _, ?_, hS, ?_, ?_, ?_, ?_⟩
  · simp only [alloc_log_table, hr, Res.bind_ok]
    exact hp
  · rw [← hS, slab_length]
  · rw [hl2, hk, usub_of_le (by omega) (by omega)]
    rfl
  · rw [hg2, hg1, hk]
    rfl
  · rw [hk, List.length_drop, slab_length]
    omega

/-- Witness of C8 on the configuration `MAX_FREE_NODES = 4`, `NR_FILL_NODES = 2`:
after forty table allocations both table pools are empty; the next allocation
maps a slab of four tables, returns its first node, keeps one node in the local
pool and leaves two in the global pool. -/
theorem alloc_log_table_synchronous_fallback_witness :
    drained_tables.local_tables_list = some { head := [], count := 0 } ∧
    drained_tables.global_tables_list = some { head := [], count := 0 } ∧
    ∃ st2, alloc_log_table (cfg_small 4 2) 0 0 0 drained_tables = Res.ok (1610612928, st2) ∧
      st2.local_tables_list = some { head := [1610612864], count := 1 } ∧
      st2.global_tables_list = some { head := [1610612800, 1610612736], count := 2 } := by
  refine ⟨by rfl, by rfl, ?_⟩
  obtain ⟨t, st2, rest, h, hS, -, hl, hg, -⟩ :=
    alloc_log_table_synchronous_fallback (cfg_small 4 2) drained_tables 0 0 0
      (by rfl) (by rfl) (by decide) (by decide) (by decide) (by decide)
  have hS2 : slab (drained_tables.mmap_oracle drained_tables.mmap_calls)
      (cfg_small 4 2).sizeof_log_table_t (cfg_small 4 2).MAX_FREE_NODES =
      [1610612928, 1610612864, 1610612800, 1610612736] := by rfl
  rw [hS2] at hS
  simp only [List.cons.injEq] at hS
  obtain ⟨ht, hrest⟩ := hS
  subst ht hrest
  exact ⟨st2, h, by rw [hl]; rfl, by rw [hg]; rfl⟩

/-! ## Frame of the entry refill -/

theorem Res.ok_inj {α : Type} {a b : α} (h : Res.ok a = Res.ok b) : a = b := by
  cases h
  rfl

/-- A successful `fill_local_entries_list` leaves the data pools and the object
memory as they were. -/
theorem fill_local_entries_list_frame (cfg : Config) (st st1 : State)
    (h : fill_local_entries_list cfg st = Res.ok st1) :
    st1.global_data_list = st.global_data_list ∧ st1.local_data_list = st.local_data_list ∧
      st1.umas = st.umas ∧ st1.entries = st.entries := by
  unfold fill_local_entries_list at h
  simp only at h
  split at h
  · cases h
  · split_ifs at h <;>
    · split at h
      · cases h
      · split at h
        · cases h
        · have h2 := Res.ok_inj h
          subst h2
          exact ⟨rfl, rfl, rfl, rfl⟩

/-- A successful refill step of `alloc_log_entry` leaves the data pools and the
object memory as they were. -/
theorem alloc_log_entry_refill_frame (cfg : Config) (st st1 : State)
    (h : alloc_log_entry_refill cfg st = Res.ok st1) :
    st1.global_data_list = st.global_data_list ∧ st1.local_data_list = st.local_data_list ∧
      st1.umas = st.umas ∧ st1.entries = st.entries := by
  unfold alloc_log_entry_refill at h
  simp only at h
  split at h
  · cases h
  · split_ifs at h <;>
    first
    | (have h2 := Res.ok_inj h
       subst h2
       exact ⟨rfl, rfl, rfl, rfl⟩)
    | (obtain ⟨a, b, c, d⟩ := fill_local_entries_list_frame cfg _ _ h
       exact ⟨a, b, c, d⟩)

/-! ## Allocation of entries and tables -/

/-- The returning case of `alloc_log_entry`: for a UMA `u` and a size class `s`,
when the thread's entry pool after the refill step has head payload `e` and the
global data pool of class `s` has non-zero count and a head payload `d` that is
not `NULL` before the call, `alloc_log_entry` returns `e` with `epoch` and
`policy` copied from `u`, `offset = 0`, `len = 0`, `dst = NULL` and
`data = d`. -/
theorem alloc_log_entry_returns (cfg : Config) (st st1 : State) (u s e : Nat)
    (rest : List Nat) (c d : Nat) (drest : List Nat) (dc : Nat)
    (hr : alloc_log_entry_refill cfg st = Res.ok st1)
    (hl : st1.local_entries_list = some { head := e :: rest, count := c })
    (he : e ≠ 0) (hu : u ≠ 0)
    (hd : st.global_data_list s = some { head := d :: drest, count := dc })
    (hdc : dc ≠ 0) (hd0 : d ≠ 0) :
    ∃ st2, alloc_log_entry cfg u s st = Res.ok (e, st2) ∧
      (st2.entries e).epoch = (st.umas u).epoch ∧
      (st2.entries e).policy = (st.umas u).policy ∧
      (st2.entries e).offset = 0 ∧
      (st2.entries e).len = 0 ∧
      (st2.entries e).dst = 0 ∧
      (st2.entries e).data = d := by
  obtain ⟨hgd, -, hum, -⟩ := alloc_log_entry_refill_frame cfg st st1 hr
  obtain ⟨st2, hp, -, -, hen, -, -, -⟩ :=
    alloc_log_entry_pop_ok u s st1 e rest c d drest dc hl he hu (by rw [hgd]; exact hd) hdc hd0
  refine ⟨st2, ?_, ?_, ?_, ?_, ?_, ?_, ?_⟩
  · simp only [alloc_log_entry, hr, Res.bind_ok]
    exact hp
  all_goals simp [hen, hum]

/-- The returning case on the first entry allocation after initialisation (the
local pool is refilled), for a UMA with `epoch = 5` and `policy = 1`. -/
theorem alloc_log_entry_returns_witness :
    ((ready_small 4 2).umas demo_uma).epoch = 5 ∧
    ((ready_small 4 2).umas demo_uma).policy = 1 ∧
    (ready_small 4 2).global_data_list 0 =
      some { head := [805335040, 805330944, 805326848, 805322752, 805318656, 805314560,
        805310464, 805306368], count := 8 } ∧
    ∃ st2, alloc_log_entry (cfg_small 4 2) demo_uma 0 (ready_small 4 2) =
        Res.ok (536879040, st2) ∧
      (st2.entries 536879040).epoch = 5 ∧
      (st2.entries 536879040).policy = 1 ∧
      (st2.entries 536879040).offset = 0 ∧
      (st2.entries 536879040).len = 0 ∧
      (st2.entries 536879040).dst = 0 ∧
      (st2.entries 536879040).data = 805335040 :=
  ⟨by rfl, by rfl, by rfl,
    alloc_log_entry_returns (cfg_small 4 2) (ready_small 4 2)
      (alloc_log_entry_refill (cfg_small 4 2) (ready_small 4 2)).get demo_uma 0 536879040
      [536878976] 2 805335040
      [805330944, 805326848, 805322752, 805318656, 805314560, 805310464, 805306368] 8
      (by rfl) (by rfl) (by decide) (by decide) (by rfl) (by decide) (by decide)⟩

/-- C4: for every parent, index and type, `alloc_log_table` returns the table
that is the head payload of the thread's table pool after the refill step, with
`count = 0`, `log_size = LOG_4K` and the given `parent`, `index` and `type`, and
the local table pool is left with the rest of its chain and a count one below
its value after the refill step. -/
theorem alloc_log_table_returns (cfg : Config) (st st1 : State) (parent : Nat) (index : Int)
    (type t : Nat) (rest : List Nat) (c : Nat)
    (hr : alloc_log_table_refill cfg st = Res.ok st1)
    (hl : st1.local_tables_list = some { head := t :: rest, count := c })
    (ht : t ≠ 0) (hc1 : 1 ≤ c) (hcU : c < ULONG_MOD) :
    ∃ st2, alloc_log_table cfg parent index type st = Res.ok (t, st2) ∧
      st2.tables t =
        { count := 0, type := type, parent := parent, index := index,
          log_size := cfg.LOG_4K } ∧
      st2.local_tables_list = some { head := rest, count := c - 1 } := by
  obtain ⟨st2, hp, hl2, -, htab, -⟩ :=
    alloc_log_table_pop_ok cfg parent index type st1 t rest c hl ht
  refine ⟨st2, ?_, htab, ?_⟩
  · simp only [alloc_log_table, hr, Res.bind_ok]
    exact hp
  · rw [hl2, usub_of_le hc1 hcU]

/-- Witness of C4: the first table allocation after initialisation, with
parent `4096`, index `7` and type `1`; the refill step leaves four tables in the
local pool and the allocation three. -/
theorem alloc_log_table_returns_witness :
    ((alloc_log_table_refill (cfg_small 8 4) (init_small 8 4)).get).local_tables_list =
      some { head := [268440512, 268440448, 268440384, 268440320], count := 4 } ∧
    ∃ st2, alloc_log_table (cfg_small 8 4) 4096 7 1 (init_small 8 4) =
        Res.ok (268440512, st2) ∧
      st2.tables 268440512 =
        { count := 0, type := 1, parent := 4096, index := 7, log_size := 0 } ∧
      st2.local_tables_list =
        some { head := [268440448, 268440384, 268440320], count := 3 } :=
  ⟨by rfl,
    alloc_log_table_returns (cfg_small 8 4) (init_small 8 4)
      (alloc_log_table_refill (cfg_small 8 4) (init_small 8 4)).get 4096 7 1 268440512
      [268440448, 268440384, 268440320] 4 (by rfl) (by rfl) (by decide) (by decide)
      (by decide)⟩

/-! ## Defects -/

/-- The carrier that `put_log_local` pushes on the data pool after the clearing
step of `free_log_entry` holds `NULL`, whatever block the entry owned. -/
theorem put_log_local_push_data_after_clear (cfg : Config) (st : State) (e s : Nat)
    (sync : Bool) (l : freelist_t) (he : e ≠ 0)
    (hl : alloc_list (st.local_data_list s) = some l) :
    ∃ st1, put_log_local_push_data e s (free_log_entry_clear cfg e sync st) = Res.ok st1 ∧
      st1.local_data_list s = some { head := 0 :: l.head, count := uadd l.count 1 } := by
  rw [put_log_local_push_data_eq e s _ l he (by simpa using hl)]
  exact ⟨_, rfl, by simp⟩

/-- C1 (the code departs from the claim): the first entry allocated after
initialisation owns the data block `805335040`; `free_log_entry` of that entry
succeeds without a spill, pushes the entry on the local entry pool, but the new
head of the local data pool of class 0 holds `NULL`, not the block the entry
held when the call was made, because `entry->data` is cleared before
`put_log_local` reads it. -/
theorem free_log_entry_pushes_null_data :
    ∃ st1 st2,
      alloc_log_entry (cfg_small 4 2) demo_uma 0 (ready_small 4 2) =
        Res.ok (536879040, st1) ∧
      (st1.entries 536879040).data = 805335040 ∧
      st1.local_data_list 0 = none ∧
      free_log_entry (cfg_small 4 2) 536879040 0 false st1 = Res.ok st2 ∧
      st2.local_data_list 0 = some { head := [0], count := 1 } ∧
      st2.local_entries_list = some { head := [536879040, 536878976], count := 2 } :=
  ⟨_, _, rfl, rfl, rfl, rfl, rfl, rfl⟩

/-- C2 (the code departs from the claim): after initialisation the global UMA
pool has count 4 and four nodes; `alloc_uma` removes the head node and leaves
the count at 4, so the count no longer equals the number of nodes reachable
from the head. -/
theorem alloc_uma_leaves_count :
    (init_small 4 2).global_uma_list =
      some { head := [1342177664, 1342177536, 1342177408, 1342177280], count := 4 } ∧
    ∃ st1, alloc_uma (init_small 4 2) = Res.ok (1342177664, st1) ∧
      st1.global_uma_list =
        some { head := [1342177536, 1342177408, 1342177280], count := 4 } ∧
      st1.global_uma_list.map (fun l => decide (l.count = l.head.length)) = some false :=
  ⟨rfl, _, rfl, rfl, rfl⟩

/-- C7 (the code departs from the claim): after four calls of `alloc_uma` the
global UMA pool of four slots is empty; the next `alloc_uma` dereferences the
`NULL` head (`Res.fault`) and does not reach `handle_error`. -/
theorem alloc_uma_on_empty_pool_faults :
    ∃ st, alloc_umas 4 (init_small 4 2) = Res.ok st ∧
      st.global_uma_list = some { head := [], count := 4 } ∧
      alloc_uma st = Res.fault ∧
      ∀ e, alloc_uma st ≠ Res.fatal e :=
  ⟨_, rfl, rfl, rfl, fun e h => by cases h⟩

/-- The part of C7 on the entry pool: with the thread's entry pool empty and the
count of the global entry pool zero, `alloc_log_entry` ends in `handle_error`. -/
theorem alloc_log_entry_fatal_of_entries_empty (cfg : Config) (st : State) (u s : Nat)
    (lh G : List Nat)
    (hl : alloc_list st.local_entries_list = some { head := lh, count := 0 })
    (hg : st.global_entries_list = some { head := G, count := 0 }) :
    alloc_log_entry cfg u s st = Res.fatal Fatal.global_entries_empty := by
  simp only [alloc_log_entry, alloc_log_entry_refill_fill cfg st lh hl]
  simp [fill_local_entries_list, hg]

/-- The part of C7 on the data pools: when the entry pool yields an entry and
the count of the global data pool of the requested class is zero,
`alloc_log_entry` ends in `handle_error`. -/
theorem alloc_log_entry_fatal_of_data_empty (cfg : Config) (st st1 : State) (u s e : Nat)
    (rest : List Nat) (c : Nat) (D : List Nat)
    (hr : alloc_log_entry_refill cfg st = Res.ok st1)
    (hl : st1.local_entries_list = some { head := e :: rest, count := c })
    (he : e ≠ 0) (hu : u ≠ 0)
    (hd : st.global_data_list s = some { head := D, count := 0 }) :
    alloc_log_entry cfg u s st = Res.fatal Fatal.global_data_empty := by
  obtain ⟨hgd, -, -, -⟩ := alloc_log_entry_refill_frame cfg st st1 hr
  rw [← hgd] at hd
  simp [alloc_log_entry, hr, alloc_log_entry_pop, hl, he, hu, alloc_log_data, free_node, hd]

/-! ## UMA identifiers -/

theorem wrap_int_of_mem {x : Int} (h1 : -2147483648 ≤ x) (h2 : x ≤ 2147483647) :
    wrap_int x = x := by
  unfold wrap_int
  omega

/-- The effect of `alloc_uma` on a pool whose head payload is not `NULL`. -/
theorem alloc_uma_ok (st : State) (p : Nat) (rest : List Nat) (c : Nat)
    (hg : st.global_uma_list = some { head := p :: rest, count := c }) (hp : p ≠ 0) :
    ∃ st1, alloc_uma st = Res.ok (p, st1) ∧
      st1.global_uma_list = some { head := rest, count := c } ∧
      st1.umaid = wrap_int (st.umaid + 1) ∧
      (st1.umas p).id = wrap_int (st.umaid + 1) := by
  simp only [alloc_uma, hg, hp, if_false]
  split_ifs with h
  · exact ⟨_, rfl, rfl, rfl, by simp [get_uma_id, malloc, free_node, State.emit]⟩
  · exact ⟨_, rfl, rfl, rfl, by simp [get_uma_id, free_node, State.emit]⟩

/-- The effect of `free_uma`. -/
theorem free_uma_ok (st : State) (u : Nat) (L : List Nat) (c : Nat)
    (hg : st.global_uma_list = some { head := L, count := c }) :
    ∃ st1, free_uma u st = Res.ok st1 ∧
      st1.global_uma_list = some { head := u :: L, count := c } ∧
      st1.umaid = st.umaid ∧ st1.umas = st.umas := by
  have hg2 : (alloc_list_node st).global_uma_list = some { head := L, count := c } := by
    rw [alloc_list_node_eq]
    exact hg
  simp only [free_uma, hg2]
  exact ⟨_, rfl, rfl, by simp [alloc_list_node_eq], by simp [alloc_list_node_eq]⟩

/-- While the counter stays below `INT_MAX`, `n` rounds of allocating and
freeing a UMA leave the pool as it was and advance `umaid` by `n`. -/
theorem alloc_free_umas_umaid (n : Nat) (st : State) (p : Nat) (rest : List Nat) (c : Nat)
    (hg : st.global_uma_list = some { head := p :: rest, count := c }) (hp : p ≠ 0)
    (hlo : -1 ≤ st.umaid) (hhi : st.umaid + n ≤ 2147483647) :
    ∃ st1, alloc_free_umas n st = Res.ok st1 ∧
      st1.global_uma_list = some { head := p :: rest, count := c } ∧
      st1.umaid = st.umaid + n := by
  induction n generalizing st with
  | zero => exact ⟨st, rfl, hg, by simp⟩
  | succ n ih =>
    obtain ⟨sa, ha, hga, hida, -⟩ := alloc_uma_ok st p rest c hg hp
    obtain ⟨sf, hf, hgf, hidf, -⟩ := free_uma_ok sa p rest c hga
    have hw : wrap_int (st.umaid + 1) = st.umaid + 1 :=
      wrap_int_of_mem (by omega) (by push_cast at hhi; omega)
    have hid : sf.umaid = st.umaid + 1 := by rw [hidf, hida, hw]
    obtain ⟨st1, h1, hg1, hid1⟩ := ih sf hgf (by omega) (by push_cast at hhi; omega)
    refine ⟨st1, ?_, hg1, ?_⟩
    · simp only [alloc_free_umas, alloc_free_uma, ha, Res.bind_ok, hf]
      exact h1
    · rw [hid1, hid]
      push_cast
      omega

/-- C5 (the code departs from the claim): from the initialised state, after
`2 ^ 31 - 1` rounds of `alloc_uma` and `free_uma` the next `alloc_uma` issues
the id `INT_MAX = 2147483647`, and the `alloc_uma` after it issues
`-2147483648`: the counter `umaid` overflows (the check named in the source's
TODO is absent), so the ids are not strictly increasing. -/
theorem get_uma_id_overflows :
    ∃ st u1 st1 st2 u2 st3,
      alloc_free_umas 2147483647 (init_small 4 2) = Res.ok st ∧
      alloc_uma st = Res.ok (u1, st1) ∧ (st1.umas u1).id = 2147483647 ∧
      free_uma u1 st1 = Res.ok st2 ∧
      alloc_uma st2 = Res.ok (u2, st3) ∧ (st3.umas u2).id = -2147483648 := by
  obtain ⟨st, hst, hg, hid⟩ :=
    alloc_free_umas_umaid 2147483647 (init_small 4 2) 1342177664
      [1342177536, 1342177408, 1342177280] 4 (by rfl) (by decide) (by decide) (by decide)
  obtain ⟨st1, h1, hg1, hid1, hv1⟩ := alloc_uma_ok st _ _ _ hg (by decide)
  obtain ⟨st2, h2, hg2, hid2, -⟩ := free_uma_ok st1 1342177664 _ _ hg1
  obtain ⟨st3, h3, -, -, hv3⟩ := alloc_uma_ok st2 _ _ _ hg2 (by decide)
  have hi0 : (init_small 4 2).umaid = -1 := by rfl
  refine ⟨st, _, st1, st2, _, st3, hst, h1, ?_, h2, h3, ?_⟩
  · rw [hv1, hid, hi0]
    decide
  · rw [hv3, hid2, hid1, hid, hi0]
    decide

/-- The first id issued after initialisation is 0, and while `umaid` is below
`INT_MAX` each `alloc_uma` issues the id `umaid + 1`, one more than the id
issued before it. -/
theorem alloc_uma_id_below_int_max (st : State) (p : Nat) (rest : List Nat) (c : Nat)
    (hg : st.global_uma_list = some { head := p :: rest, count := c }) (hp : p ≠ 0)
    (hlo : -1 ≤ st.umaid) (hhi : st.umaid < 2147483647) :
    ∃ st1, alloc_uma st = Res.ok (p, st1) ∧ (st1.umas p).id = st.umaid + 1 ∧
      st1.umaid = st.umaid + 1 := by
  obtain ⟨st1, h, -, hid, hv⟩ := alloc_uma_ok st p rest c hg hp
  have hw : wrap_int (st.umaid + 1) = st.umaid + 1 := wrap_int_of_mem (by omega) (by omega)
  exact ⟨st1, h, by rw [hv, hw], by rw [hid, hw]⟩

/-! ## Allocate, free, allocate again -/

/-- When neither push exceeds `MAX_FREE_NODES`, `free_log_entry` pushes a `NULL`
payload on the local data pool and the entry on the local entry pool, and
leaves the global pools and the UMAs as they were. -/
theorem free_log_entry_no_spill (cfg : Config) (st : State) (e s : Nat) (sync : Bool)
    (ld le : freelist_t) (he : e ≠ 0)
    (hld : alloc_list (st.local_data_list s) = some ld)
    (hle : alloc_list st.local_entries_list = some le)
    (h1 : uadd ld.count 1 ≤ cfg.MAX_FREE_NODES)
    (h2 : uadd le.count 1 ≤ cfg.MAX_FREE_NODES) :
    ∃ st1, free_log_entry cfg e s sync st = Res.ok st1 ∧
      st1.local_data_list s = some { head := 0 :: ld.head, count := uadd ld.count 1 } ∧
      st1.local_entries_list = some { head := e :: le.head, count := uadd le.count 1 } ∧
      st1.global_data_list = st.global_data_list ∧
      st1.global_entries_list = st.global_entries_list ∧
      st1.umas = st.umas := by
  have hpush := put_log_local_push_data_eq e s (free_log_entry_clear cfg e sync st) ld he
    (by simpa using hld)
  simp only [free_log_entry_clear_entries, mem_write_same,
    free_log_entry_clear_local_data_list] at hpush
  have hskip := put_log_local_spill_data_skip cfg s
    { alloc_list_node (free_log_entry_clear cfg e sync st) with
      local_data_list := arr_write st.local_data_list s
        (some { head := 0 :: ld.head, count := uadd ld.count 1 }) }
    { head := 0 :: ld.head, count := uadd ld.count 1 } (by simp) h1
  obtain ⟨st1, hst1, hl1, hg1, hdl, hdg, -, hum⟩ :=
    put_log_local_entry_steps_skip cfg e
      { alloc_list_node (free_log_entry_clear cfg e sync st) with
        local_data_list := arr_write st.local_data_list s
          (some { head := 0 :: ld.head, count := uadd ld.count 1 }) }
      le.head le.count (by simpa [alloc_list_node_eq] using hle) h2
  refine ⟨st1, ?_, ?_, hl1, ?_, ?_, ?_⟩
  · simp only [free_log_entry, he, if_false, put_log_local, hpush, Res.bind_ok, hskip]
    exact hst1
  · rw [hdl]
    simp
  · rw [hdg]
    simp [alloc_list_node_eq]
  · rw [hg1]
    simp [alloc_list_node_eq]
  · rw [hum]
    simp [alloc_list_node_eq]

/-- C6 as amended: let `u` be a non-`NULL` UMA and `s` a size class, in a state
where (i) after the refill step of `alloc_log_entry` the thread's entry pool has
the non-`NULL` head `e` and a count `c` with `1 ≤ c ≤ MAX_FREE_NODES < 2^64`,
(ii) the global data pool of class `s` has a count of at least 2 (below `2^64`)
and starts with two different non-`NULL` blocks `d`, `d2`, and (iii) the
thread's data pool of class `s` holds fewer than `MAX_FREE_NODES` nodes (the
free spills nothing). Then `alloc_log_entry(u, s)` returns `e` with data block
`d`, `free_log_entry(e, s, false)` returns, and `alloc_log_entry(u, s)` called
next on the same thread returns `e` again with data block `d2`, the block that
followed `d` in the global data pool of class `s`, and not `d`: the freed block
is not taken from the thread's data pool. -/
theorem alloc_free_alloc_data (cfg : Config) (st st1 : State) (u s e : Nat)
    (rest : List Nat) (c d d2 : Nat) (drest : List Nat) (dc : Nat) (ld : freelist_t)
    (hu : u ≠ 0)
    (hr : alloc_log_entry_refill cfg st = Res.ok st1)
    (hl : st1.local_entries_list = some { head := e :: rest, count := c })
    (he : e ≠ 0) (hc1 : 1 ≤ c) (hcmax : c ≤ cfg.MAX_FREE_NODES)
    (hU : cfg.MAX_FREE_NODES < ULONG_MOD)
    (hd : st.global_data_list s = some { head := d :: d2 :: drest, count := dc })
    (hdc : 2 ≤ dc) (hdcU : dc < ULONG_MOD) (hd0 : d ≠ 0) (hd2 : d2 ≠ 0) (hne : d2 ≠ d)
    (hld : alloc_list (st.local_data_list s) = some ld)
    (hldc : ld.count < cfg.MAX_FREE_NODES) :
    ∃ st2 st3 st4,
      alloc_log_entry cfg u s st = Res.ok (e, st2) ∧
      (st2.entries e).data = d ∧
      free_log_entry cfg e s false st2 = Res.ok st3 ∧
      alloc_log_entry cfg u s st3 = Res.ok (e, st4) ∧
      (st4.entries e).data = d2 ∧
      (st4.entries e).data ≠ d := by
  have hcU : c < ULONG_MOD := by omega
  have hldU : ld.count + 1 < ULONG_MOD := by omega
  obtain ⟨hgd, hldf, -, -⟩ := alloc_log_entry_refill_frame cfg st st1 hr
  obtain ⟨st2, hp, hl2, hg2, hen2, -, hld2, -⟩ :=
    alloc_log_entry_pop_ok u s st1 e rest c d (d2 :: drest) dc hl he hu
      (by rw [hgd]; exact hd) (by omega) hd0
  have hc' : uadd (usub c 1) 1 = c := by
    rw [usub_of_le hc1 hcU, uadd_of_lt (by omega)]
    omega
  obtain ⟨st3, hf, -, hl3, hg3, -, -⟩ :=
    free_log_entry_no_spill cfg st2 e s false ld { head := rest, count := usub c 1 } he
      (by rw [hld2, hldf]; exact hld) (by rw [hl2]; rfl)
      (by rw [uadd_of_lt hldU]; omega) (by rw [hc']; exact hcmax)
  simp only [hc'] at hl3
  have hr3 : alloc_log_entry_refill cfg st3 = Res.ok st3 :=
    alloc_log_entry_refill_skip cfg st3 _ hl3 (by simp only; omega)
  obtain ⟨st4, hp4, -, -, hen4, -, -, -⟩ :=
    alloc_log_entry_pop_ok u s st3 e rest c d2 drest (usub dc 1) hl3 he hu
      (by rw [hg3, hg2]; simp) (by rw [usub_of_le (by omega) hdcU]; omega) hd2
  have h4 : (st4.entries e).data = d2 := by simp [hen4]
  refine ⟨st2, st3, st4, ?_, ?_, hf, ?_, h4, ?_⟩
  · simp only [alloc_log_entry, hr, Res.bind_ok]
    exact hp
  · simp [hen2]
  · simp only [alloc_log_entry, hr3, Res.bind_ok]
    exact hp4
  · rw [h4]
    exact hne

/-- Witness of C6 as amended, on the first allocation after initialisation: the
entry `536879040` is returned twice, first with data block `805335040`, then
with `805330944`. -/
theorem alloc_free_alloc_data_witness :
    ∃ st2 st3 st4,
      alloc_log_entry (cfg_small 4 2) demo_uma 0 (ready_small 4 2) =
        Res.ok (536879040, st2) ∧
      (st2.entries 536879040).data = 805335040 ∧
      free_log_entry (cfg_small 4 2) 536879040 0 false st2 = Res.ok st3 ∧
      alloc_log_entry (cfg_small 4 2) demo_uma 0 st3 = Res.ok (536879040, st4) ∧
      (st4.entries 536879040).data = 805330944 ∧
      (st4.entries 536879040).data ≠ 805335040 :=
  alloc_free_alloc_data (cfg_small 4 2) (ready_small 4 2)
    (alloc_log_entry_refill (cfg_small 4 2) (ready_small 4 2)).get demo_uma 0 536879040
    [536878976] 2 805335040 805330944
    [805326848, 805322752, 805318656, 805314560, 805310464, 805306368] 8
    { head := [], count := 0 }
    (by decide) (by rfl) (by rfl) (by decide) (by decide) (by decide) (by decide) (by rfl)
    (by decide) (by decide) (by decide) (by decide) (by decide) (by rfl) (by decide)

/-- C6 as stated fails: the entry allocated first after initialisation has data
block `805335040`; after `free_log_entry` with `persist = false` the next
`alloc_log_entry` of the same class on the same thread returns the same entry
with data block `805330944`, so the data pointer is not reused. -/
theorem data_block_not_reused :
    ∃ st2 st3 st4,
      alloc_log_entry (cfg_small 4 2) demo_uma 0 (ready_small 4 2) =
        Res.ok (536879040, st2) ∧
      (st2.entries 536879040).data = 805335040 ∧
      free_log_entry (cfg_small 4 2) 536879040 0 false st2 = Res.ok st3 ∧
      alloc_log_entry (cfg_small 4 2) demo_uma 0 st3 = Res.ok (536879040, st4) ∧
      (st4.entries 536879040).data ≠ (st2.entries 536879040).data :=
  ⟨_, _, _, rfl, rfl, rfl, rfl, by decide⟩

/-! ## UMA round trip -/

/-- C15: in a state whose global UMA pool is non-empty (head payload `p`, not
`NULL`), `alloc_uma` returns `p` and `free_uma p` then leaves the global UMA
pool with the count and the sequence of payload addresses it had before the
allocation. -/
theorem alloc_uma_free_uma_round_trip (st : State) (p : Nat) (rest : List Nat) (c : Nat)
    (hg : st.global_uma_list = some { head := p :: rest, count := c }) (hp : p ≠ 0) :
    ∃ st1 st2, alloc_uma st = Res.ok (p, st1) ∧ free_uma p st1 = Res.ok st2 ∧
      st2.global_uma_list = some { head := p :: rest, count := c } := by
  obtain ⟨st1, h1, hg1, -, -⟩ := alloc_uma_ok st p rest c hg hp
  obtain ⟨st2, h2, hg2, -, -⟩ := free_uma_ok st1 p rest c hg1
  exact ⟨st1, st2, h1, h2, hg2⟩

/-- Witness of C15 on the initialised state with four UMA slots. -/
theorem alloc_uma_free_uma_round_trip_witness :
    (init_small 4 2).global_uma_list =
      some { head := [1342177664, 1342177536, 1342177408, 1342177280], count := 4 } ∧
    ∃ st1 st2, alloc_uma (init_small 4 2) = Res.ok (1342177664, st1) ∧
      free_uma 1342177664 st1 = Res.ok st2 ∧
      st2.global_uma_list =
        some { head := [1342177664, 1342177536, 1342177408, 1342177280], count := 4 } :=
  ⟨by rfl,
    alloc_uma_free_uma_round_trip (init_small 4 2) 1342177664
      [1342177536, 1342177408, 1342177280] 4 (by rfl) (by decide)⟩

/-! ## Data blocks: allocation from the global pool only -/

/-- C17: `alloc_log_entry` of class `s` removes the head node of the global data
pool of class `s` and lowers its count by one, leaves the global data pools of
the other classes as they were, and leaves every local data pool of the thread
as it was, whatever the local data pool of class `s` holds. -/
theorem alloc_log_entry_data_pools (cfg : Config) (st st1 : State) (u s e : Nat)
    (rest : List Nat) (c d : Nat) (drest : List Nat) (dc : Nat)
    (hr : alloc_log_entry_refill cfg st = Res.ok st1)
    (hl : st1.local_entries_list = some { head := e :: rest, count := c })
    (he : e ≠ 0) (hu : u ≠ 0)
    (hd : st.global_data_list s = some { head := d :: drest, count := dc })
    (hdc : 1 ≤ dc) (hdcU : dc < ULONG_MOD) (hd0 : d ≠ 0) :
    ∃ st2, alloc_log_entry cfg u s st = Res.ok (e, st2) ∧
      st2.global_data_list s = some { head := drest, count := dc - 1 } ∧
      (∀ s2, s2 ≠ s → st2.global_data_list s2 = st.global_data_list s2) ∧
      st2.local_data_list = st.local_data_list := by
  obtain ⟨hgd, hld, -, -⟩ := alloc_log_entry_refill_frame cfg st st1 hr
  obtain ⟨st2, hp, -, hg2, -, -, hl2, -⟩ :=
    alloc_log_entry_pop_ok u s st1 e rest c d drest dc hl he hu (by rw [hgd]; exact hd)
      (by omega) hd0
  refine ⟨st2, ?_, ?_, ?_, ?_⟩
  · simp only [alloc_log_entry, hr, Res.bind_ok]
    exact hp
  · rw [hg2, arr_write_same, usub_of_le hdc hdcU]
  · intro s2 hs2
    rw [hg2, arr_write_other _ _ hs2, hgd]
  · rw [hl2, hld]

/-- Witness of C17: in the state after six allocations and two frees of class 0
the local data pool of class 0 holds two nodes; the next allocation takes the
head of the global data pool and leaves the local data pool alone. -/
theorem alloc_log_entry_data_pools_witness :
    (spill_demo_freed 2).local_data_list 0 = some { head := [0, 0], count := 2 } ∧
    (spill_demo_freed 2).global_data_list 0 =
      some { head := [805310464, 805306368], count := 2 } ∧
    ∃ st2, alloc_log_entry (cfg_small 4 2) demo_uma 0 (spill_demo_freed 2) =
        Res.ok (536878976, st2) ∧
      st2.global_data_list 0 = some { head := [805306368], count := 1 } ∧
      (∀ s2, s2 ≠ 0 → st2.global_data_list s2 = (spill_demo_freed 2).global_data_list s2) ∧
      st2.local_data_list = (spill_demo_freed 2).local_data_list :=
  ⟨by rfl, by rfl,
    alloc_log_entry_data_pools (cfg_small 4 2) (spill_demo_freed 2) (spill_demo_freed 2)
      demo_uma 0 536878976 [536879040] 2 805310464 [805306368] 2
      (by rfl) (by rfl) (by decide) (by decide) (by rfl) (by decide) (by decide) (by decide)⟩

/-! ## Free, then allocate -/

/-- C19 as stated fails: after four allocations of class 1 the thread's entry
pool is empty (fewer than `MAX_FREE_NODES = 4` entries) and the four blocks of
the global data pool of class 1 are in use; `free_log_entry` of the first entry
succeeds, and the `alloc_log_entry` of class 1 that follows ends in
`handle_error` instead of returning that entry. -/
theorem free_then_alloc_fatal_when_data_exhausted :
    exhaust_demo.local_entries_list = some { head := [], count := 0 } ∧
    exhaust_demo.global_data_list 1 = some { head := [], count := 0 } ∧
    ∃ st1, free_log_entry (cfg_small 4 2) 536879040 1 false exhaust_demo = Res.ok st1 ∧
      st1.local_entries_list = some { head := [536879040], count := 1 } ∧
      alloc_log_entry (cfg_small 4 2) demo_uma 1 st1 = Res.fatal Fatal.global_data_empty :=
  ⟨rfl, rfl, _, rfl, rfl, rfl⟩

/-! ## NULL payloads in the data pools -/

/-- C20 (the code departs from the claim): from the initialised state, allocate
a UMA and six entries of class 0 and free five of them; no global pool runs
empty. The
first free already leaves a `NULL` payload in the local data pool, the fifth
free spills two `NULL` payloads to the head of the global data pool, and the
next `alloc_log_entry` reaches the `node->ptr == NULL` branch of
`alloc_log_data`. -/
theorem alloc_log_data_reaches_null_branch :
    ((alloc_uma (init_small 4 2)).bind fun r =>
        alloc_log_entries (cfg_small 4 2) r.1 0 6 r.2) =
      Res.ok (spill_demo_entries, spill_demo_allocated) ∧
    free_log_entries (cfg_small 4 2) 0 false (spill_demo_entries.take 5)
        spill_demo_allocated = Res.ok (spill_demo_freed 5) ∧
    (spill_demo_freed 1).local_data_list 0 = some { head := [0], count := 1 } ∧
    (spill_demo_freed 5).local_data_list 0 = some { head := [0, 0, 0], count := 3 } ∧
    (spill_demo_freed 5).global_data_list 0 =
      some { head := [0, 0, 805310464, 805306368], count := 4 } ∧
    (spill_demo_freed 5).global_entries_list.map (fun l => l.count) = some 124 ∧
    alloc_log_entry (cfg_small 4 2) demo_uma 0 (spill_demo_freed 5) =
      Res.fatal Fatal.node_ptr_null :=
  ⟨rfl, rfl, rfl, rfl, rfl, rfl, rfl⟩

/-! ## Slab append -/

theorem slab_mem (address size n p : Nat) :
    p ∈ slab address size n ↔ ∃ j, j < n ∧ p = address + j * size := by
  simp only [slab, List.mem_reverse, List.mem_map, List.mem_range]
  constructor
  · rintro ⟨j, hj, rfl⟩
    exact ⟨j, hj, rfl⟩
  · rintro ⟨j, hj, rfl⟩
    exact ⟨j, hj, rfl⟩

theorem slab_nodup (address size n : Nat) (hs : 0 < size) : (slab address size n).Nodup := by
  unfold slab
  rw [List.nodup_reverse]
  refine List.Nodup.map ?_ (List.nodup_range n)
  intro a b hab
  have h2 : a * size = b * size := by
    dsimp only at hab
    omega
  exact Nat.eq_of_mul_eq_mul_right hs h2

/-- With or without the lock, `fill_global_tables_list` puts a slab of
`MAX_FREE_NODES` fresh tables in front of the global table chain, adds
`MAX_FREE_NODES` to its count, and leaves the rest of the allocator state as it
was. -/
theorem fill_global_tables_list_ok (cfg : Config) (lock : Bool) (st : State) (g : freelist_t)
    (hg : st.global_tables_list = some g) (hmax : 1 ≤ cfg.MAX_FREE_NODES) :
    ∃ st1, fill_global_tables_list cfg lock st = Res.ok st1 ∧
      st1.global_tables_list = some
        { head := slab (st.mmap_oracle st.mmap_calls) cfg.sizeof_log_table_t
                    cfg.MAX_FREE_NODES ++ g.head,
          count := uadd g.count cfg.MAX_FREE_NODES } ∧
      st1.local_tables_list = st.local_tables_list ∧
      st1.background_table_alloc = st.background_table_alloc ∧
      st1.events = st.events ++
        (if lock then [Event.lock Mutex.tables, Event.unlock Mutex.tables] else []) := by
  have h0 : cfg.MAX_FREE_NODES ≠ 0 := by omega
  cases lock with
  | false =>
    refine ⟨_, fill_global_tables_list_eq cfg st g hg hmax, rfl, rfl, rfl, ?_⟩
    simp
  | true =>
    simp only [fill_global_tables_list, create_list_fst, create_list_tail, create_list_state,
      map_logfile, h0, if_true, if_false, emit_global_tables_list, hg]
    refine ⟨_, rfl, rfl, rfl, rfl, ?_⟩
    simp [State.emit]

/-- A successful `fill_global_tables_list` found the global table pool
allocated and `MAX_FREE_NODES` positive. -/
theorem fill_global_tables_list_inv (cfg : Config) (lock : Bool) (st st1 : State)
    (h : fill_global_tables_list cfg lock st = Res.ok st1) :
    (∃ g, st.global_tables_list = some g) ∧ 1 ≤ cfg.MAX_FREE_NODES := by
  by_cases h0 : cfg.MAX_FREE_NODES = 0
  · exfalso
    simp [fill_global_tables_list, create_list_tail, h0] at h
  · cases hg : st.global_tables_list with
    | none =>
      exfalso
      cases lock <;>
        simp [fill_global_tables_list, create_list_tail, create_list_state, map_logfile, h0,
          hg] at h
    | some g => exact ⟨⟨g, rfl⟩, by omega⟩

/-- C18: the slab-append step only adds. With or without the lock,
`fill_global_tables_list` raises the count of the global table pool by exactly
`MAX_FREE_NODES`, and the new chain is `MAX_FREE_NODES` fresh nodes, with
pairwise distinct payloads `base + j * sizeof(log_table_t)` in the new mapping,
followed by the whole old chain in its old order. A pass of the background
thread with the flag set has the same effect on the pool. -/
theorem fill_global_tables_list_only_adds (cfg : Config) (lock : Bool) (st : State)
    (G : List Nat) (gc : Nat)
    (hg : st.global_tables_list = some { head := G, count := gc })
    (hmax : 1 ≤ cfg.MAX_FREE_NODES) (hU : gc + cfg.MAX_FREE_NODES < ULONG_MOD)
    (hsz : 0 < cfg.sizeof_log_table_t) :
    ∃ fresh,
      fresh.length = cfg.MAX_FREE_NODES ∧ fresh.Nodup ∧
      (∀ p, p ∈ fresh ↔
        ∃ j, j < cfg.MAX_FREE_NODES ∧
          p = st.mmap_oracle st.mmap_calls + j * cfg.sizeof_log_table_t) ∧
      (∃ st1, fill_global_tables_list cfg lock st = Res.ok st1 ∧
        st1.global_tables_list = some
          { head := fresh ++ G, count := gc + cfg.MAX_FREE_NODES }) ∧
      (st.background_table_alloc = true →
        ∃ st2, background_table_alloc_thread_func cfg st = Res.ok st2 ∧
          st2.global_tables_list = some
            { head := fresh ++ G, count := gc + cfg.MAX_FREE_NODES }) := by
  refine ⟨slab (st.mmap_oracle st.mmap_calls) cfg.sizeof_log_table_t cfg.MAX_FREE_NODES,
    slab_length _ _ _, slab_nodup _ _ _ hsz, fun p => slab_mem _ _ _ p, ?_, ?_⟩
  · obtain ⟨st1, h, hg1, -⟩ := fill_global_tables_list_ok cfg lock st _ hg hmax
    exact ⟨st1, h, by rw [hg1, uadd_of_lt hU]⟩
  · intro hflag
    obtain ⟨st1, h, hg1, -⟩ :=
      fill_global_tables_list_ok cfg true (st.emit [Event.lock Mutex.background]) _ hg hmax
    simp only [emit_mmap_oracle, emit_mmap_calls, uadd_of_lt hU] at hg1
    refine ⟨{ st1 with background_table_alloc := false }.emit [Event.unlock Mutex.background],
      ?_, ?_⟩
    · simp only [background_table_alloc_thread_func, emit_background_table_alloc, hflag,
        Bool.true_eq_false, if_false, h, Res.bind_ok]
    · simp only [emit_global_tables_list]
      exact hg1

/-- Witness of C18 on the initialised state with `MAX_FREE_NODES = 4`: the
global table pool of forty tables grows to forty-four, the four new nodes in
front. -/
theorem fill_global_tables_list_only_adds_witness :
    (init_small 4 2).global_tables_list.map (fun l => (l.head.take 2, l.count)) =
      some ([268437952, 268437888], 40) ∧
    ∃ st1, fill_global_tables_list (cfg_small 4 2) true (init_small 4 2) = Res.ok st1 ∧
      st1.global_tables_list.map (fun l => (l.head.take 6, l.count)) =
        some ([1610612928, 1610612864, 1610612800, 1610612736, 268437952, 268437888], 44) := by
  refine ⟨by rfl, ?_⟩
  obtain ⟨fresh, -, -, -, ⟨st1, h, hg1⟩, -⟩ :=
    fill_global_tables_list_only_adds (cfg_small 4 2) true (init_small 4 2)
      (((init_small 4 2).global_tables_list.map (fun l => l.head)).getD []) 40
      (by rfl) (by decide) (by decide) (by decide)
  refine ⟨st1, h, ?_⟩
  have h2 : fill_global_tables_list (cfg_small 4 2) true (init_small 4 2) =
      Res.ok (fill_global_tables_list (cfg_small 4 2) true (init_small 4 2)).get := by rfl
  rw [h2] at h
  rw [← Res.ok_inj h]
  rfl

/-! ## Refill trigger -/

/-- The first part of `fill_local_tables_list`, up to the slab growth: when it
succeeds, only the lock of the table mutex has been recorded and the flag is as
it was. -/
theorem fill_local_tables_list_growth_frame (cfg : Config) (st st2 : State) (c : Nat)
    (h : (if c = 0 then fill_global_tables_list cfg false (st.emit [Event.lock Mutex.tables])
          else Res.ok (st.emit [Event.lock Mutex.tables])) = Res.ok st2) :
    st2.events = st.events ++ [Event.lock Mutex.tables] ∧
      st2.background_table_alloc = st.background_table_alloc ∧
      st2.local_tables_list = st.local_tables_list := by
  split_ifs at h with hc
  · obtain ⟨⟨g, hg⟩, hmax⟩ := fill_global_tables_list_inv cfg false _ _ h
    obtain ⟨st3, h3, -, hl, hbg, hev⟩ := fill_global_tables_list_ok cfg false _ g hg hmax
    rw [h] at h3
    have h4 := Res.ok_inj h3
    subst h4
    refine ⟨?_, ?_, ?_⟩
    · rw [hev]
      simp [State.emit]
    · rw [hbg]
      rfl
    · rw [hl]
      rfl
  · have h4 := Res.ok_inj h
    subst h4
    exact ⟨rfl, rfl, rfl⟩

/-- C14: whenever `fill_local_tables_list` finishes with the count of the global
table pool below `MAX_FREE_NODES`, the flag `background_table_alloc` is true on
return and the calls recorded are: lock of the table-pool mutex, lock of the
refill mutex, unlock of the refill mutex, `pthread_cond_signal`, unlock of the
table-pool mutex, so the signal precedes the release of the table-pool mutex.
When it finishes with the count at least `MAX_FREE_NODES`, the flag is as it
was and no signal is recorded. -/
theorem fill_local_tables_list_refill_trigger (cfg : Config) (st st1 : State)
    (h : fill_local_tables_list cfg st = Res.ok st1) :
    ∃ g1, st1.global_tables_list = some g1 ∧
      (g1.count < cfg.MAX_FREE_NODES →
        st1.background_table_alloc = true ∧
        st1.events = st.events ++
          [Event.lock Mutex.tables, Event.lock Mutex.background,
           Event.unlock Mutex.background, Event.cond_signal, Event.unlock Mutex.tables]) ∧
      (cfg.MAX_FREE_NODES ≤ g1.count →
        st1.background_table_alloc = st.background_table_alloc ∧
        st1.events = st.events ++ [Event.lock Mutex.tables, Event.unlock Mutex.tables]) := by
  unfold fill_local_tables_list at h
  simp only [emit_global_tables_list] at h
  cases hg0 : st.global_tables_list with
  | none =>
    rw [hg0] at h
    cases h
  | some g0 =>
    rw [hg0] at h
    simp only at h
    cases hfg : (if g0.count = 0 then
        fill_global_tables_list cfg false (st.emit [Event.lock Mutex.tables])
        else Res.ok (st.emit [Event.lock Mutex.tables])) with
    | fatal e =>
      rw [hfg] at h
      cases h
    | fault =>
      rw [hfg] at h
      cases h
    | ok st2 =>
      rw [hfg] at h
      obtain ⟨hev, hbg, -⟩ := fill_local_tables_list_growth_frame cfg st st2 g0.count hfg
      simp only [Res.bind_ok] at h
      split at h
      · split at h
        · cases h
        · have h4 := Res.ok_inj h
          subst h4
          split_ifs <;>
          first
          | (refine ⟨_, rfl, fun _ => ⟨rfl, ?_⟩, fun hge => ?_⟩
             · simp [State.emit, hev]
             · exfalso
               dsimp only at hge
               omega)
          | (refine ⟨_, rfl, fun hlt2 => ?_, fun _ => ⟨hbg, ?_⟩⟩
             · exfalso
               dsimp only at hlt2
               omega
             · simp [State.emit, hev])
      · cases h

/-- Witness of C14 with `MAX_FREE_NODES = 4`, `NR_FILL_NODES = 2`: after 36
table allocations the global table pool holds 4 tables; the refill leaves 2,
sets the flag and signals before the table-pool mutex is released. After 2
allocations the global pool holds 38 tables; the refill leaves 36, the flag
stays unset and nothing is signalled. -/
theorem fill_local_tables_list_refill_trigger_witness :
    (∃ st1, fill_local_tables_list (cfg_small 4 2) (tables_after 36) = Res.ok st1 ∧
      st1.global_tables_list.map (fun l => l.count) = some 2 ∧
      st1.background_table_alloc = true ∧
      st1.events = (tables_after 36).events ++
        [Event.lock Mutex.tables, Event.lock Mutex.background,
         Event.unlock Mutex.background, Event.cond_signal, Event.unlock Mutex.tables]) ∧
    (∃ st1, fill_local_tables_list (cfg_small 4 2) (tables_after 2) = Res.ok st1 ∧
      st1.global_tables_list.map (fun l => l.count) = some 36 ∧
      (tables_after 2).background_table_alloc = false ∧
      st1.background_table_alloc = false ∧
      st1.events = (tables_after 2).events ++
        [Event.lock Mutex.tables, Event.unlock Mutex.tables]) := by
  constructor
  · have h : fill_local_tables_list (cfg_small 4 2) (tables_after 36) =
        Res.ok (fill_local_tables_list (cfg_small 4 2) (tables_after 36)).get := by rfl
    obtain ⟨g1, hg1, hlt, -⟩ :=
      fill_local_tables_list_refill_trigger (cfg_small 4 2) (tables_after 36) _ h
    have hc : (fill_local_tables_list (cfg_small 4 2) (tables_after 36)).get.global_tables_list
        = some { head := [268435520, 268435456], count := 2 } := by rfl
    rw [hc] at hg1
    cases hg1
    obtain ⟨hflag, hev⟩ := hlt (by decide)
    exact ⟨_, h, by rw [hc]; rfl, hflag, hev⟩
  · have h : fill_local_tables_list (cfg_small 4 2) (tables_after 2) =
        Res.ok (fill_local_tables_list (cfg_small 4 2) (tables_after 2)).get := by rfl
    obtain ⟨g1, hg1, -, hge⟩ :=
      fill_local_tables_list_refill_trigger (cfg_small 4 2) (tables_after 2) _ h
    have hc : ((fill_local_tables_list (cfg_small 4 2)
        (tables_after 2)).get.global_tables_list).map (fun l => l.count) = some 36 := by rfl
    rw [hg1] at hc
    simp only [Option.map_some', Option.some.injEq] at hc
    obtain ⟨hflag, hev⟩ := hge (by rw [hc]; decide)
    exact ⟨_, h, by rw [hg1]; simp [hc], by rfl, by rw [hflag]; rfl, hev⟩

/-! ## Release of the thread-local entry pool -/

theorem alloc_list_eq_some (l : Option freelist_t) (x : freelist_t)
    (h : alloc_list l = some x) :
    (l = none ∧ x = { head := [], count := 0 }) ∨ l = some x := by
  cases l with
  | none =>
    simp only [alloc_list, Option.some.injEq] at h
    exact Or.inl ⟨rfl, h.symm⟩
  | some y =>
    simp only [alloc_list, Option.some.injEq] at h
    exact Or.inr (by rw [h])

/-- The first step of `release_local_list` replaces a `NULL` pool pointer by an
empty pool and keeps an allocated pool. -/
theorem release_local_list_eq (st : State) (l : freelist_t)
    (hl : alloc_list st.local_entries_list = some l) :
    release_local_list st =
      (if l.count = 0 then Res.ok { st with local_entries_list := some l }
       else
        match walk l.head (usub l.count 1) with
        | none => Res.fault
        | some (moved, left) =>
          if left ≠ [] then Res.fatal Fatal.node_next_not_null
          else
            match st.global_entries_list with
            | none => Res.fault
            | some g =>
              if usub l.count l.count ≠ 0 then Res.fatal Fatal.local_entries_not_zero
              else
                Res.ok (({ st with
                    global_entries_list := some
                      { head := moved ++ g.head, count := uadd g.count l.count },
                    local_entries_list := some
                      { head := [], count := usub l.count l.count } }.emit
                  [Event.lock Mutex.entries]).emit [Event.unlock Mutex.entries])) := by
  have hA : release_local_list st =
      release_local_list { st with local_entries_list := some l } := by
    rcases alloc_list_eq_some _ _ hl with ⟨hn, hx⟩ | hs
    · subst hx
      simp [release_local_list, hn, alloc_list]
    · have hst : st = { st with local_entries_list := some l } := by
        cases st
        simp_all
      rw [← hst]
  rw [hA]
  simp [release_local_list]

/-- C11: `release_local_list` drains the thread's entry pool into the global
entry pool. If the local pool holds `n` entries (chain `L`), then afterwards the
local pool is empty (head `NULL`, count 0), the global chain is `L` followed by
the old global chain, and the global count has grown by `n`; when `n = 0` the
global pool is not touched at all. The local table and data pools are as they
were. -/
theorem release_local_list_drains (st : State) (L : List Nat) (n : Nat)
    (hl : alloc_list st.local_entries_list = some { head := L, count := n })
    (hlen : L.length = n) (hnU : n < ULONG_MOD) :
    (∀ G gc, st.global_entries_list = some { head := G, count := gc } →
      gc + n < ULONG_MOD →
      ∃ st1, release_local_list st = Res.ok st1 ∧
        st1.local_entries_list = some { head := [], count := 0 } ∧
        st1.global_entries_list = some { head := L ++ G, count := gc + n } ∧
        st1.local_tables_list = st.local_tables_list ∧
        st1.local_data_list = st.local_data_list) ∧
    (n = 0 →
      ∃ st1, release_local_list st = Res.ok st1 ∧
        st1.local_entries_list = some { head := [], count := 0 } ∧
        st1.global_entries_list = st.global_entries_list ∧
        st1.local_tables_list = st.local_tables_list ∧
        st1.local_data_list = st.local_data_list) := by
  have hrel := release_local_list_eq st _ hl
  simp only at hrel
  have hzero : n = 0 →
      ∃ st1, release_local_list st = Res.ok st1 ∧
        st1.local_entries_list = some { head := [], count := 0 } ∧
        st1.global_entries_list = st.global_entries_list ∧
        st1.local_tables_list = st.local_tables_list ∧
        st1.local_data_list = st.local_data_list := by
    intro hn
    subst hn
    have hL : L = [] := List.length_eq_zero.mp hlen
    subst hL
    rw [hrel]
    exact ⟨_, rfl, rfl, rfl, rfl, rfl⟩
  refine ⟨?_, hzero⟩
  intro G gc hg hgc
  by_cases hn : n = 0
  · obtain ⟨st1, h, h1, h2, h3, h4⟩ := hzero hn
    subst hn
    have hL : L = [] := List.length_eq_zero.mp hlen
    subst hL
    exact ⟨st1, h, h1, by rw [h2, hg]; rfl, h3, h4⟩
  · have hw : walk L (usub n 1) = some (L, []) := by
      rw [usub_of_le (by omega) hnU, walk_of_lt (by omega)]
      have h1 : n - 1 + 1 = n := by omega
      rw [h1, ← hlen, List.take_length, List.drop_length]
    have hz : usub n n = 0 := by
      rw [usub_of_le (Nat.le_refl n) hnU]
      omega
    rw [hrel]
    simp only [hn, if_false, hw, hg, hz, ne_eq, not_true_eq_false, uadd_of_lt hgc]
    exact ⟨_, rfl, rfl, rfl, rfl, rfl⟩

/-- Witness of C11: after six allocations and four frees the local entry pool
holds four entries and the global pool 122; `release_local_list` empties the
local pool and puts its four entries in front of the global chain. A second
call finds the local pool empty and leaves the global pool as it is. -/
theorem release_local_list_drains_witness :
    (spill_demo_freed 4).local_entries_list =
      some { head := [536878848, 536878912, 536878976, 536879040], count := 4 } ∧
    (∃ st1, release_local_list (spill_demo_freed 4) = Res.ok st1 ∧
      st1.local_entries_list = some { head := [], count := 0 } ∧
      st1.global_entries_list.map (fun l => (l.head.take 5, l.count)) =
        some ([536878848, 536878912, 536878976, 536879040, 536878656], 126) ∧
      st1.local_tables_list = (spill_demo_freed 4).local_tables_list ∧
      st1.local_data_list = (spill_demo_freed 4).local_data_list) ∧
    (∃ st1, release_local_list (spill_demo_freed 0) = Res.ok st1 ∧
      st1.local_entries_list = some { head := [], count := 0 } ∧
      st1.global_entries_list = (spill_demo_freed 0).global_entries_list) := by
  refine ⟨by rfl, ?_, ?_⟩
  · obtain ⟨st1, h, h1, h2, h3, h4⟩ :=
      (release_local_list_drains (spill_demo_freed 4)
        [536878848, 536878912, 536878976, 536879040] 4 (by rfl) (by rfl) (by decide)).1
        (((spill_demo_freed 4).global_entries_list.map (fun l => l.head)).getD []) 122
        (by rfl) (by decide)
    exact ⟨st1, h, h1, by rw [h2]; rfl, h3, h4⟩
  · obtain ⟨st1, h, h1, h2, -, -⟩ :=
      (release_local_list_drains (spill_demo_freed 0) [] 0 (by rfl) (by rfl) (by decide)).2 rfl
    exact ⟨st1, h, h1, h2⟩

/-! ## Initial provisioning -/

theorem slab_pool_of_eq (pool : Option freelist_t) (base size count : Nat)
    (h : pool = some { head := slab base size count, count := count }) (hs : 0 < size) :
    slab_pool pool base size count :=
  ⟨h, slab_length _ _ _, slab_nodup _ _ _ hs, fun p => slab_mem _ _ _ p⟩

/-- The function `init_entries_lock` changes only the entry memory and the
`malloc` counter. -/
theorem init_entries_lock_frame (head : List Nat) (st : State) :
    (init_entries_lock head st).global_tables_list = st.global_tables_list ∧
    (init_entries_lock head st).global_entries_list = st.global_entries_list ∧
    (init_entries_lock head st).global_data_list = st.global_data_list ∧
    (init_entries_lock head st).global_uma_list = st.global_uma_list ∧
    (init_entries_lock head st).local_tables_list = st.local_tables_list ∧
    (init_entries_lock head st).local_entries_list = st.local_entries_list ∧
    (init_entries_lock head st).local_data_list = st.local_data_list ∧
    (init_entries_lock head st).mmap_oracle = st.mmap_oracle ∧
    (init_entries_lock head st).mmap_calls = st.mmap_calls := by
  induction head generalizing st with
  | nil => exact ⟨rfl, rfl, rfl, rfl, rfl, rfl, rfl, rfl, rfl⟩
  | cons e rest ih =>
    have h := ih
      { (malloc st).2 with
        entries := mem_write (malloc st).2.entries e
          { (malloc st).2.entries e with rwlockp := (malloc st).1 } }
    simp only [init_entries_lock, List.foldl_cons] at h ⊢
    exact h

/-- The effect of `create_global_tables_list` on a state without a global table
pool. -/
theorem create_global_tables_list_spec (cfg : Config) (count : Int) (st : State)
    (ht : st.global_tables_list = none) :
    (create_global_tables_list cfg count st).global_tables_list =
      some { head := slab (st.mmap_oracle st.mmap_calls) cfg.sizeof_log_table_t
                       (int_to_ulong count),
             count := int_to_ulong count } ∧
    (create_global_tables_list cfg count st).global_entries_list = st.global_entries_list ∧
    (create_global_tables_list cfg count st).local_tables_list = st.local_tables_list ∧
    (create_global_tables_list cfg count st).local_entries_list = st.local_entries_list ∧
    (create_global_tables_list cfg count st).local_data_list = st.local_data_list ∧
    (create_global_tables_list cfg count st).mmap_oracle = st.mmap_oracle ∧
    (create_global_tables_list cfg count st).mmap_calls = st.mmap_calls + 1 := by
  simp [create_global_tables_list, ht, map_logfile, create_list_fst, create_list_state]

/-- The effect of `create_global_entries_list` on a state without a global entry
pool. -/
theorem create_global_entries_list_spec (cfg : Config) (size : Nat) (st : State)
    (he : st.global_entries_list = none) :
    (create_global_entries_list cfg size st).global_entries_list =
      some { head := slab (st.mmap_oracle st.mmap_calls) cfg.sizeof_log_entry_t
                       (size >>> cfg.PAGE_SHIFT),
             count := size >>> cfg.PAGE_SHIFT } ∧
    (create_global_entries_list cfg size st).global_tables_list = st.global_tables_list ∧
    (create_global_entries_list cfg size st).local_tables_list = st.local_tables_list ∧
    (create_global_entries_list cfg size st).local_entries_list = st.local_entries_list ∧
    (create_global_entries_list cfg size st).local_data_list = st.local_data_list ∧
    (create_global_entries_list cfg size st).mmap_oracle = st.mmap_oracle ∧
    (create_global_entries_list cfg size st).mmap_calls = st.mmap_calls + 1 := by
  simp only [create_global_entries_list, he]
  obtain ⟨h1, h2, -, -, h5, h6, h7, h8, h9⟩ := init_entries_lock_frame
    (create_list (map_logfile (some LogFile.entries)
      ((size >>> cfg.PAGE_SHIFT) * cfg.sizeof_log_entry_t) st).1 cfg.sizeof_log_entry_t
      (size >>> cfg.PAGE_SHIFT) (map_logfile (some LogFile.entries)
      ((size >>> cfg.PAGE_SHIFT) * cfg.sizeof_log_entry_t) st).2).1
    { (create_list (map_logfile (some LogFile.entries)
        ((size >>> cfg.PAGE_SHIFT) * cfg.sizeof_log_entry_t) st).1 cfg.sizeof_log_entry_t
        (size >>> cfg.PAGE_SHIFT) (map_logfile (some LogFile.entries)
        ((size >>> cfg.PAGE_SHIFT) * cfg.sizeof_log_entry_t) st).2).2.2 with
      global_entries_list := some
        { head := (create_list (map_logfile (some LogFile.entries)
            ((size >>> cfg.PAGE_SHIFT) * cfg.sizeof_log_entry_t) st).1 cfg.sizeof_log_entry_t
            (size >>> cfg.PAGE_SHIFT) (map_logfile (some LogFile.entries)
            ((size >>> cfg.PAGE_SHIFT) * cfg.sizeof_log_entry_t) st).2).1,
          count := size >>> cfg.PAGE_SHIFT } }
  refine ⟨?_, ?_, ?_, ?_, ?_, ?_, ?_⟩
  · rw [h2]
    simp [map_logfile, create_list_fst]
  · rw [h1]
    simp [map_logfile, create_list_state]
  · rw [h5]
    simp [map_logfile, create_list_state]
  · rw [h6]
    simp [map_logfile, create_list_state]
  · rw [h7]
    simp [map_logfile, create_list_state]
  · rw [h8]
    simp [map_logfile, create_list_state]
  · rw [h9]
    simp [map_logfile, create_list_state]

theorem create_global_data_list_eq_rounds (cfg : Config) (size : Nat) (st : State) :
    create_global_data_list cfg size st =
      create_global_data_list_rounds cfg size cfg.NR_LOG_SIZES st := rfl

theorem create_global_data_list_rounds_succ (cfg : Config) (size n : Nat) (st : State) :
    create_global_data_list_rounds cfg size (n + 1) st =
      create_global_data_list_step cfg size (create_global_data_list_rounds cfg size n st) n := by
  simp only [create_global_data_list_rounds, List.range_succ, List.foldl_append,
    List.foldl_cons, List.foldl_nil]

/-- The loop of `create_global_data_list` after `n` rounds: the pools of the
classes below `n` are built over the next `n` mappings, the other pools are
as they were. -/
theorem create_global_data_list_rounds_spec (cfg : Config) (size n : Nat) (st : State) :
    (∀ i, (create_global_data_list_rounds cfg size n st).global_data_list i =
      if i < n then
        some { head := slab (st.mmap_oracle (st.mmap_calls + i)) (1 <<< cfg.LOG_SHIFT i)
                         (size >>> cfg.LOG_SHIFT i),
               count := size >>> cfg.LOG_SHIFT i }
      else st.global_data_list i) ∧
    (create_global_data_list_rounds cfg size n st).global_tables_list =
      st.global_tables_list ∧
    (create_global_data_list_rounds cfg size n st).global_entries_list =
      st.global_entries_list ∧
    (create_global_data_list_rounds cfg size n st).local_tables_list =
      st.local_tables_list ∧
    (create_global_data_list_rounds cfg size n st).local_entries_list =
      st.local_entries_list ∧
    (create_global_data_list_rounds cfg size n st).local_data_list = st.local_data_list ∧
    (create_global_data_list_rounds cfg size n st).mmap_oracle = st.mmap_oracle ∧
    (create_global_data_list_rounds cfg size n st).mmap_calls = st.mmap_calls + n := by
  induction n with
  | zero =>
    refine ⟨fun i => ?_, rfl, rfl, rfl, rfl, rfl, rfl, rfl⟩
    simp [create_global_data_list_rounds]
  | succ n ih =>
    obtain ⟨h1, h2, h3, h4, h5, h6, h7, h8⟩ := ih
    rw [create_global_data_list_rounds_succ]
    simp only [create_global_data_list_step, map_logfile, create_list_fst, create_list_state,
      h2, h3, h4, h5, h6, h7, h8]
    refine ⟨?_, trivial, trivial, trivial, trivial, trivial, trivial, ?_⟩
    · intro i
      simp only [arr_write]
      by_cases hi : i = n
      · subst hi
        simp
      · rw [if_neg hi, h1 i]
        by_cases hlt : i < n
        · rw [if_pos hlt, if_pos (by omega)]
        · rw [if_neg hlt, if_neg (by omega)]
    · omega

/-- The effect of `create_global_umas_list`. -/
theorem create_global_umas_list_spec (cfg : Config) (st : State) :
    (create_global_umas_list cfg st).global_uma_list =
      some { head := slab (st.mmap_oracle st.mmap_calls) cfg.sizeof_uma_t cfg.MAX_NR_UMAS,
             count := cfg.MAX_NR_UMAS } ∧
    (create_global_umas_list cfg st).global_tables_list = st.global_tables_list ∧
    (create_global_umas_list cfg st).global_entries_list = st.global_entries_list ∧
    (create_global_umas_list cfg st).global_data_list = st.global_data_list ∧
    (create_global_umas_list cfg st).local_tables_list = st.local_tables_list ∧
    (create_global_umas_list cfg st).local_entries_list = st.local_entries_list ∧
    (create_global_umas_list cfg st).local_data_list = st.local_data_list := by
  simp [create_global_umas_list, map_logfile, create_list_fst, create_list_state]

/-- The pools after `init_global_freelist`, started without global table and
entry pools, as chains over the mappings number `c`, `c + 1`, ... of the
oracle, `c` being the number of mappings made before. -/
theorem init_global_freelist_pools (cfg : Config) (st : State)
    (ht : st.global_tables_list = none) (he : st.global_entries_list = none) :
    (init_global_freelist cfg st).global_tables_list =
      some { head := slab (st.mmap_oracle st.mmap_calls) cfg.sizeof_log_table_t
                       (int_to_ulong (wrap_int (Int.ofNat (cfg.MAX_FREE_NODES * 10)))),
             count := int_to_ulong (wrap_int (Int.ofNat (cfg.MAX_FREE_NODES * 10))) } ∧
    (init_global_freelist cfg st).global_entries_list =
      some { head := slab (st.mmap_oracle (st.mmap_calls + 1)) cfg.sizeof_log_entry_t
                       ((cfg.LOG_FILE_SIZE * 32) >>> cfg.PAGE_SHIFT),
             count := (cfg.LOG_FILE_SIZE * 32) >>> cfg.PAGE_SHIFT } ∧
    (∀ i, i < cfg.NR_LOG_SIZES →
      (init_global_freelist cfg st).global_data_list i =
        some { head := slab (st.mmap_oracle (st.mmap_calls + 2 + i)) (1 <<< cfg.LOG_SHIFT i)
                         ((cfg.LOG_FILE_SIZE * 2) >>> cfg.LOG_SHIFT i),
               count := (cfg.LOG_FILE_SIZE * 2) >>> cfg.LOG_SHIFT i }) ∧
    (init_global_freelist cfg st).global_uma_list =
      some { head := slab (st.mmap_oracle (st.mmap_calls + 2 + cfg.NR_LOG_SIZES))
                       cfg.sizeof_uma_t cfg.MAX_NR_UMAS,
             count := cfg.MAX_NR_UMAS } ∧
    (init_global_freelist cfg st).local_tables_list = st.local_tables_list ∧
    (init_global_freelist cfg st).local_entries_list = st.local_entries_list ∧
    (init_global_freelist cfg st).local_data_list = st.local_data_list := by
  obtain ⟨t1, t2, t3, t4, t5, t6, t7⟩ :=
    create_global_tables_list_spec cfg (wrap_int (Int.ofNat (cfg.MAX_FREE_NODES * 10))) st ht
  obtain ⟨e1, e2, e3, e4, e5, e6, e7⟩ :=
    create_global_entries_list_spec cfg (cfg.LOG_FILE_SIZE * 32)
      (create_global_tables_list cfg (wrap_int (Int.ofNat (cfg.MAX_FREE_NODES * 10))) st)
      (by rw [t2, he])
  obtain ⟨d1, d2, d3, d4, d5, d6, d7, d8⟩ :=
    create_global_data_list_rounds_spec cfg (cfg.LOG_FILE_SIZE * 2) cfg.NR_LOG_SIZES
      (create_global_entries_list cfg (cfg.LOG_FILE_SIZE * 32)
        (create_global_tables_list cfg (wrap_int (Int.ofNat (cfg.MAX_FREE_NODES * 10))) st))
  obtain ⟨u1, u2, u3, u4, u5, u6, u7⟩ :=
    create_global_umas_list_spec cfg
      (create_global_data_list cfg (cfg.LOG_FILE_SIZE * 2)
        (create_global_entries_list cfg (cfg.LOG_FILE_SIZE * 32)
          (create_global_tables_list cfg (wrap_int (Int.ofNat (cfg.MAX_FREE_NODES * 10))) st)))
  rw [create_global_data_list_eq_rounds] at u1 u2 u3 u4 u5 u6 u7
  simp only [init_global_freelist]
  refine ⟨?_, ?_, ?_, ?_, ?_, ?_, ?_⟩
  · rw [create_global_data_list_eq_rounds, u2, d2, e2, t1]
  · rw [create_global_data_list_eq_rounds, u3, d3, e1, t6, t7]
  · intro i hi
    rw [create_global_data_list_eq_rounds, u4, d1 i, if_pos hi, e6, e7, t6, t7]
  · rw [create_global_data_list_eq_rounds, u1, d7, d8, e6, e7, t6, t7]
  · rw [create_global_data_list_eq_rounds, u5, d4, e3, t3]
  · rw [create_global_data_list_eq_rounds, u6, d5, e4, t4]
  · rw [create_global_data_list_eq_rounds, u7, d6, e5, t5]

/-- A product that fits `int` passes unchanged through the conversions to `int`
and on to `unsigned long`. -/
theorem int_to_ulong_wrap_int (n : Nat) (h : n ≤ 2147483647) :
    int_to_ulong (wrap_int (Int.ofNat n)) = n := by
  unfold int_to_ulong wrap_int
  simp only [Int.ofNat_eq_coe]
  omega

theorem shiftRight_mul_shiftLeft_le (a k : Nat) : (a >>> k) * (1 <<< k) ≤ a := by
  rw [Nat.shiftRight_eq_div_pow, Nat.shiftLeft_eq, Nat.one_mul]
  exact Nat.div_mul_le_self a (2 ^ k)

theorem one_shiftLeft_pos (k : Nat) : 0 < 1 <<< k := by
  rw [Nat.shiftLeft_eq, Nat.one_mul]
  exact Nat.pos_pow_of_pos k (by decide)

/-- C16 as amended: when `10 * MAX_FREE_NODES` fits `int` (it is at most
`2147483647`), `32 * LOG_FILE_SIZE` fits `size_t` (it is below `2^64`), the
object sizes are not zero and `init_global_freelist` is started without global
table and entry pools (the program start), the global table pool holds
`10 * MAX_FREE_NODES` tables, the global entry pool
`(32 * LOG_FILE_SIZE) >> PAGE_SHIFT` entries, the global data pool of every
class `i < NR_LOG_SIZES` holds `(2 * LOG_FILE_SIZE) >> LOG_SHIFT(i)` blocks of
`1 << LOG_SHIFT(i)` bytes, and the UMA pool `MAX_NR_UMAS` slots. In each pool
the payloads are the pairwise distinct addresses `base + j * size` for `j`
below the count, and for every data pool `count * size` is at most
`2 * LOG_FILE_SIZE`. -/
theorem init_global_freelist_provisions (cfg : Config) (st : State)
    (ht : st.global_tables_list = none) (he : st.global_entries_list = none)
    (hst : 0 < cfg.sizeof_log_table_t) (hse : 0 < cfg.sizeof_log_entry_t)
    (hsu : 0 < cfg.sizeof_uma_t) (hint : 10 * cfg.MAX_FREE_NODES ≤ 2147483647)
    (_hfile : 32 * cfg.LOG_FILE_SIZE < ULONG_MOD) :
    slab_pool (init_global_freelist cfg st).global_tables_list
      (st.mmap_oracle st.mmap_calls) cfg.sizeof_log_table_t (10 * cfg.MAX_FREE_NODES) ∧
    slab_pool (init_global_freelist cfg st).global_entries_list
      (st.mmap_oracle (st.mmap_calls + 1)) cfg.sizeof_log_entry_t
      ((32 * cfg.LOG_FILE_SIZE) >>> cfg.PAGE_SHIFT) ∧
    (∀ i, i < cfg.NR_LOG_SIZES →
      slab_pool ((init_global_freelist cfg st).global_data_list i)
        (st.mmap_oracle (st.mmap_calls + 2 + i)) (1 <<< cfg.LOG_SHIFT i)
        ((2 * cfg.LOG_FILE_SIZE) >>> cfg.LOG_SHIFT i) ∧
      ((2 * cfg.LOG_FILE_SIZE) >>> cfg.LOG_SHIFT i) * (1 <<< cfg.LOG_SHIFT i) ≤
        2 * cfg.LOG_FILE_SIZE) ∧
    slab_pool (init_global_freelist cfg st).global_uma_list
      (st.mmap_oracle (st.mmap_calls + 2 + cfg.NR_LOG_SIZES)) cfg.sizeof_uma_t
      cfg.MAX_NR_UMAS := by
  obtain ⟨h1, h2, h3, h4, -, -, -⟩ := init_global_freelist_pools cfg st ht he
  rw [Nat.mul_comm cfg.MAX_FREE_NODES 10, int_to_ulong_wrap_int _ hint] at h1
  rw [Nat.mul_comm cfg.LOG_FILE_SIZE 32] at h2
  refine ⟨slab_pool_of_eq _ _ _ _ h1 hst, slab_pool_of_eq _ _ _ _ h2 hse, ?_,
    slab_pool_of_eq _ _ _ _ h4 hsu⟩
  intro i hi
  have h := h3 i hi
  rw [Nat.mul_comm cfg.LOG_FILE_SIZE 2] at h
  exact ⟨slab_pool_of_eq _ _ _ _ h (one_shiftLeft_pos _), shiftRight_mul_shiftLeft_le _ _⟩

/-- C16 as stated fails: with `MAX_FREE_NODES = 429496730` the argument
`MAX_FREE_NODES * 10 = 4294967300` does not fit the `int` parameter of
`create_global_tables_list`; it arrives as `4`, and after
`init_global_freelist` the global table pool holds 4 tables, not 4294967300. -/
theorem init_global_freelist_table_count_narrowed :
    (cfg_small 429496730 2).MAX_FREE_NODES * 10 = 4294967300 ∧
    wrap_int (Int.ofNat ((cfg_small 429496730 2).MAX_FREE_NODES * 10)) = 4 ∧
    (init_small 429496730 2).global_tables_list =
      some { head := [268435648, 268435584, 268435520, 268435456], count := 4 } :=
  ⟨by rfl, by rfl, by rfl⟩

/-- Witness of C16 as amended on `cfg_small 4 2` (pages of 4 KiB, log files of 16 KiB, two
size classes, four UMAs), from the program start state: 40 tables of 64 bytes,
128 entries of 64 bytes, 8 blocks of 4 KiB, 4 blocks of 8 KiB and 4 UMAs of 128
bytes, each pool over its own mapping. -/
theorem init_global_freelist_provisions_witness :
    slab_pool (init_small 4 2).global_tables_list 268435456 64 40 ∧
    slab_pool (init_small 4 2).global_entries_list 536870912 64 128 ∧
    (slab_pool ((init_small 4 2).global_data_list 0) 805306368 4096 8 ∧
      8 * 4096 ≤ 2 * 16384) ∧
    (slab_pool ((init_small 4 2).global_data_list 1) 1073741824 8192 4 ∧
      4 * 8192 ≤ 2 * 16384) ∧
    slab_pool (init_small 4 2).global_uma_list 1342177280 128 4 ∧
    (init_small 4 2).global_data_list 1 =
      some { head := [1073766400, 1073758208, 1073750016, 1073741824], count := 4 } :=
  ⟨(init_global_freelist_provisions (cfg_small 4 2)
      (boot (fun n => (n + 1) * 268435456) (fun n => (n + 1) * 256)) rfl rfl
      (by decide) (by decide) (by decide) (by decide) (by decide)).1,
    (init_global_freelist_provisions (cfg_small 4 2)
      (boot (fun n => (n + 1) * 268435456) (fun n => (n + 1) * 256)) rfl rfl
      (by decide) (by decide) (by decide) (by decide) (by decide)).2.1,
    (init_global_freelist_provisions (cfg_small 4 2)
      (boot (fun n => (n + 1) * 268435456) (fun n => (n + 1) * 256)) rfl rfl
      (by decide) (by decide) (by decide) (by decide) (by decide)).2.2.1 0 (by decide),
    (init_global_freelist_provisions (cfg_small 4 2)
      (boot (fun n => (n + 1) * 268435456) (fun n => (n + 1) * 256)) rfl rfl
      (by decide) (by decide) (by decide) (by decide) (by decide)).2.2.1 1 (by decide),
    (init_global_freelist_provisions (cfg_small 4 2)
      (boot (fun n => (n + 1) * 268435456) (fun n => (n + 1) * 256)) rfl rfl
      (by decide) (by decide) (by decide) (by decide) (by decide)).2.2.2,
    by rfl⟩

/-! ## Inversion of successful calls -/

theorem Res.bind_eq_ok {α β : Type} {r : Res α} {f : α → Res β} {b : β}
    (h : r.bind f = Res.ok b) : ∃ a, r = Res.ok a ∧ f a = Res.ok b := by
  cases r with
  | ok a => exact ⟨a, rfl, h⟩
  | fatal e => cases h
  | fault => cases h

theorem walk_eq_some {xs : List Nat} {n : Nat} {moved left : List Nat}
    (h : walk xs n = some (moved, left)) :
    n < xs.length ∧ moved = xs.take (n + 1) ∧ left = xs.drop (n + 1) := by
  rw [walk_eq] at h
  split_ifs at h with hlt
  simp only [Option.some.injEq, Prod.mk.injEq] at h
  exact ⟨hlt, h.1.symm, h.2.symm⟩

/-- A successful `alloc_log_data` changes no pool but the global data pool of
its class. -/
theorem alloc_log_data_frame (s : Nat) (st st1 : State) (d : Nat)
    (h : alloc_log_data s st = Res.ok (d, st1)) :
    st1.local_entries_list = st.local_entries_list ∧
    st1.global_entries_list = st.global_entries_list ∧
    st1.local_tables_list = st.local_tables_list ∧
    st1.global_tables_list = st.global_tables_list ∧
    st1.local_data_list = st.local_data_list := by
  unfold alloc_log_data at h
  simp only at h
  split at h
  · cases h
  · split_ifs at h
    split at h
    · cases h
    · split_ifs at h
      have h2 := Res.ok_inj h
      simp only [Prod.mk.injEq] at h2
      obtain ⟨-, h3⟩ := h2
      subst h3
      exact ⟨rfl, rfl, rfl, rfl, rfl⟩

/-- A successful pop of `alloc_log_entry` took the head of the thread's entry
chain, lowered its count by one, and left the other entry, table and local data
pools as they were. -/
theorem alloc_log_entry_pop_inv (u s : Nat) (st st1 : State) (e : Nat)
    (h : alloc_log_entry_pop u s st = Res.ok (e, st1)) :
    ∃ l rest, st.local_entries_list = some l ∧ l.head = e :: rest ∧
      st1.local_entries_list = some { head := rest, count := usub l.count 1 } ∧
      st1.global_entries_list = st.global_entries_list ∧
      st1.local_tables_list = st.local_tables_list ∧
      st1.local_data_list = st.local_data_list := by
  unfold alloc_log_entry_pop at h
  split at h
  · cases h
  · rename_i l hl
    split at h
    · cases h
    · rename_i entry rest hhead
      simp only at h
      split_ifs at h
      obtain ⟨r, hd, h2⟩ := Res.bind_eq_ok h
      obtain ⟨d, st2⟩ := r
      obtain ⟨f1, f2, f3, f4, f5⟩ := alloc_log_data_frame s _ _ _ hd
      have h3 := Res.ok_inj h2
      simp only [Prod.mk.injEq] at h3
      obtain ⟨h4, h5⟩ := h3
      subst h4 h5
      exact ⟨l, rest, hl, hhead, f1, f2, f3, f5⟩

/-- A successful `fill_local_entries_list` found a global pool with non-zero
count, walked `min count NR_FILL_NODES - 1` steps along its chain and moved the
nodes up to there into the local pool; the table and data pools are as they
were. -/
theorem fill_local_entries_list_inv (cfg : Config) (st st1 : State)
    (h : fill_local_entries_list cfg st = Res.ok st1) :
    ∃ g l moved left, st.global_entries_list = some g ∧ st.local_entries_list = some l ∧
      g.count ≠ 0 ∧
      walk g.head (usub (min g.count cfg.NR_FILL_NODES) 1) = some (moved, left) ∧
      st1.global_entries_list = some
        { head := left, count := usub g.count (min g.count cfg.NR_FILL_NODES) } ∧
      st1.local_entries_list = some
        { head := moved, count := uadd l.count (min g.count cfg.NR_FILL_NODES) } ∧
      st1.local_tables_list = st.local_tables_list ∧
      st1.local_data_list = st.local_data_list := by
  unfold fill_local_entries_list at h
  simp only [refill_count, emit_global_entries_list, emit_local_entries_list] at h
  split at h
  · cases h
  · rename_i g hg
    split_ifs at h with hc
    split at h
    · cases h
    · rename_i l hl
      split at h
      · cases h
      · rename_i moved left hw
        have h2 := Res.ok_inj h
        subst h2
        exact ⟨g, l, moved, left, hg, hl, hc, hw, rfl, rfl, rfl, rfl⟩

/-- The effect of a successful `alloc_log_entry` on the entry pools, for a local
pool whose count is the length of its chain: without a refill the local count
drops by one; with a refill `k = min count NR_FILL_NODES` nodes leave the global
pool and `k - 1` stay in the local pool. The table pool and the local data
pools are as they were. -/
theorem alloc_log_entry_entries_effect (cfg : Config) (u s : Nat) (st st1 : State) (e : Nat)
    (l0 : freelist_t)
    (h : alloc_log_entry cfg u s st = Res.ok (e, st1))
    (h1 : 1 ≤ cfg.NR_FILL_NODES)
    (hNR : ∀ g, st.global_entries_list = some g →
      min g.count cfg.NR_FILL_NODES < ULONG_MOD)
    (hl0 : alloc_list st.local_entries_list = some l0)
    (hcoh : l0.count = l0.head.length) (hU : l0.count < ULONG_MOD) :
    (∃ l1, st1.local_entries_list = some l1 ∧ l1.count = l1.head.length ∧
      ((l0.count ≠ 0 ∧ l1.count + 1 = l0.count ∧
          st1.global_entries_list = st.global_entries_list) ∨
       (l0.count = 0 ∧ ∃ g left, st.global_entries_list = some g ∧ g.count ≠ 0 ∧
          l1.count + 1 = min g.count cfg.NR_FILL_NODES ∧
          st1.global_entries_list = some
            { head := left, count := usub g.count (min g.count cfg.NR_FILL_NODES) }))) ∧
    st1.local_tables_list = st.local_tables_list ∧
    st1.local_data_list = st.local_data_list := by
  unfold alloc_log_entry at h
  obtain ⟨sr, hr, hp⟩ := Res.bind_eq_ok h
  obtain ⟨l, rest, hl, hhead, hl1, hg1, ht1, hd1⟩ := alloc_log_entry_pop_inv u s sr st1 e hp
  by_cases hc : l0.count = 0
  · have hl0' : alloc_list st.local_entries_list = some { head := l0.head, count := 0 } := by
      rw [hl0, ← hc]
    rw [alloc_log_entry_refill_fill cfg st l0.head hl0'] at hr
    obtain ⟨g, lf, moved, left, hg, hlf, hgc, hw, hgr, hlr, htr, hdr⟩ :=
      fill_local_entries_list_inv cfg _ _ hr
    simp only [Option.some.injEq] at hlf
    subst hlf
    have hk1 : 1 ≤ min g.count cfg.NR_FILL_NODES := by omega
    have hkU : min g.count cfg.NR_FILL_NODES < ULONG_MOD := hNR g hg
    rw [usub_of_le hk1 hkU] at hw
    obtain ⟨hlt, hmoved, -⟩ := walk_eq_some hw
    rw [hlr] at hl
    simp only [Option.some.injEq] at hl
    subst hl
    simp only [uadd_zero_left hkU] at hl1 hhead
    have hlen : rest.length + 1 = min g.count cfg.NR_FILL_NODES := by
      have h3 : (e :: rest).length = (g.head.take (min g.count cfg.NR_FILL_NODES - 1 + 1)).length := by
        rw [← hhead, hmoved]
      rw [List.length_take, List.length_cons] at h3
      omega
    refine ⟨⟨_, hl1, ?_, Or.inr ⟨hc, g, left, hg, hgc, ?_, ?_⟩⟩, ?_, ?_⟩
    · simp only [usub_of_le hk1 hkU]
      omega
    · simp only [usub_of_le hk1 hkU]
      omega
    · rw [hg1, hgr]
    · rw [ht1, htr]
    · rw [hd1, hdr]
  · have hs : st.local_entries_list = some l0 := by
      rcases alloc_list_eq_some _ _ hl0 with ⟨-, hx⟩ | hs
      · exfalso
        rw [hx] at hc
        exact hc rfl
      · exact hs
    rw [alloc_log_entry_refill_skip cfg st l0 hs hc] at hr
    have hsr := Res.ok_inj hr
    subst hsr
    rw [hs] at hl
    simp only [Option.some.injEq] at hl
    subst hl
    have hlen : l0.count = rest.length + 1 := by
      rw [hcoh, hhead, List.length_cons]
    refine ⟨⟨_, hl1, ?_, Or.inl ⟨hc, ?_, hg1⟩⟩, ht1, hd1⟩
    · simp only [usub_of_le (Nat.one_le_iff_ne_zero.mpr hc) hU]
      omega
    · simp only [usub_of_le (Nat.one_le_iff_ne_zero.mpr hc) hU]
      omega

/-- A successful data push of `put_log_local` had a non-`NULL` entry and pushed
one carrier on the local data pool of its class. -/
theorem put_log_local_push_data_inv (e s : Nat) (st st1 : State)
    (h : put_log_local_push_data e s st = Res.ok st1) :
    e ≠ 0 ∧ ∃ l, alloc_list (st.local_data_list s) = some l ∧
      st1 = { alloc_list_node st with
        local_data_list := arr_write st.local_data_list s
          (some { head := (st.entries e).data :: l.head, count := uadd l.count 1 }) } := by
  by_cases he : e = 0
  · exfalso
    simp [put_log_local_push_data, he] at h
  · obtain ⟨l, hl⟩ := alloc_list_some (st.local_data_list s)
    rw [put_log_local_push_data_eq e s st l he hl] at h
    exact ⟨he, l, hl, (Res.ok_inj h).symm⟩

/-- A successful data spill of `put_log_local` either did nothing (count at most
`MAX_FREE_NODES`) or moved the first `NR_FILL_NODES` carriers to the global
pool. -/
theorem put_log_local_spill_data_inv (cfg : Config) (s : Nat) (st st1 : State)
    (h : put_log_local_spill_data cfg s st = Res.ok st1) :
    ∃ l, st.local_data_list s = some l ∧
      ((l.count ≤ cfg.MAX_FREE_NODES ∧ st1 = st) ∨
       (cfg.MAX_FREE_NODES < l.count ∧ cfg.NR_FILL_NODES - 1 < l.head.length ∧
        ∃ g, st.global_data_list s = some g ∧
          st1 = { st with
            local_data_list := arr_write st.local_data_list s
              (some { head := l.head.drop (cfg.NR_FILL_NODES - 1 + 1),
                      count := usub l.count cfg.NR_FILL_NODES }),
            global_data_list := arr_write st.global_data_list s
              (some { head := l.head.take (cfg.NR_FILL_NODES - 1 + 1) ++ g.head,
                      count := uadd g.count cfg.NR_FILL_NODES }) }.emit
            [Event.lock (Mutex.data s), Event.unlock (Mutex.data s)])) := by
  cases hl : st.local_data_list s with
  | none =>
    exfalso
    simp [put_log_local_spill_data, hl] at h
  | some l =>
    refine ⟨l, rfl, ?_⟩
    by_cases hc : l.count ≤ cfg.MAX_FREE_NODES
    · rw [put_log_local_spill_data_skip cfg s st l hl hc] at h
      exact Or.inl ⟨hc, (Res.ok_inj h).symm⟩
    · have hc2 : cfg.MAX_FREE_NODES < l.count := Nat.lt_of_not_le hc
      cases hg : st.global_data_list s with
      | none =>
        exfalso
        simp [put_log_local_spill_data, hl, hg, hc2] at h
      | some g =>
        by_cases hlen : cfg.NR_FILL_NODES - 1 < l.head.length
        · rw [put_log_local_spill_data_move cfg s st l g hl hg hc2 hlen] at h
          exact Or.inr ⟨hc2, hlen, g, rfl, (Res.ok_inj h).symm⟩
        · exfalso
          simp [put_log_local_spill_data, hl, hg, hc2, put_log_global, walk_eq, hlen] at h

/-- A successful entry spill of `put_log_local` either did nothing (count at
most `MAX_FREE_NODES`) or moved the first `NR_FILL_NODES` carriers to the global
pool. -/
theorem put_log_local_spill_entries_inv (cfg : Config) (st st1 : State)
    (h : put_log_local_spill_entries cfg st = Res.ok st1) :
    ∃ l, st.local_entries_list = some l ∧
      ((l.count ≤ cfg.MAX_FREE_NODES ∧ st1 = st) ∨
       (cfg.MAX_FREE_NODES < l.count ∧ cfg.NR_FILL_NODES - 1 < l.head.length ∧
        ∃ g, st.global_entries_list = some g ∧
          st1 = { st with
            local_entries_list := some
              { head := l.head.drop (cfg.NR_FILL_NODES - 1 + 1),
                count := usub l.count cfg.NR_FILL_NODES },
            global_entries_list := some
              { head := l.head.take (cfg.NR_FILL_NODES - 1 + 1) ++ g.head,
                count := uadd g.count cfg.NR_FILL_NODES } }.emit
            [Event.lock Mutex.entries, Event.unlock Mutex.entries])) := by
  cases hl : st.local_entries_list with
  | none =>
    exfalso
    simp [put_log_local_spill_entries, hl] at h
  | some l =>
    refine ⟨l, rfl, ?_⟩
    by_cases hc : l.count ≤ cfg.MAX_FREE_NODES
    · rw [put_log_local_spill_entries_skip cfg st l hl hc] at h
      exact Or.inl ⟨hc, (Res.ok_inj h).symm⟩
    · have hc2 : cfg.MAX_FREE_NODES < l.count := Nat.lt_of_not_le hc
      cases hg : st.global_entries_list with
      | none =>
        exfalso
        simp [put_log_local_spill_entries, hl, hg, hc2] at h
      | some g =>
        by_cases hlen : cfg.NR_FILL_NODES - 1 < l.head.length
        · rw [put_log_local_spill_entries_move cfg st l g hl hg hc2 hlen] at h
          exact Or.inr ⟨hc2, hlen, g, rfl, (Res.ok_inj h).symm⟩
        · exfalso
          simp [put_log_local_spill_entries, hl, hg, hc2, put_log_global, walk_eq, hlen] at h

/-! ## Effect of the steps of `put_log_local` on the local pools -/

/-- The data push adds one node to the local data pool of its class and leaves
the other local pools and the entry pools as they were. -/
theorem put_log_local_push_data_effect (e s : Nat) (st st1 : State) (ld : freelist_t)
    (h : put_log_local_push_data e s st = Res.ok st1)
    (hld : alloc_list (st.local_data_list s) = some ld)
    (hcoh : ld.count = ld.head.length) (hU : ld.count + 1 < ULONG_MOD) :
    (∃ ld1, st1.local_data_list s = some ld1 ∧ ld1.count = ld1.head.length ∧
      ld1.count = ld.count + 1) ∧
    (∀ s2, s2 ≠ s → st1.local_data_list s2 = st.local_data_list s2) ∧
    st1.local_entries_list = st.local_entries_list ∧
    st1.global_entries_list = st.global_entries_list ∧
    st1.local_tables_list = st.local_tables_list := by
  obtain ⟨-, l, hl, hst1⟩ := put_log_local_push_data_inv e s st st1 h
  rw [hld] at hl
  simp only [Option.some.injEq] at hl
  subst hl
  subst hst1
  refine ⟨⟨{ head := (st.entries e).data :: ld.head, count := uadd ld.count 1 }, by simp,
    ?_, ?_⟩, ?_, ?_, ?_, ?_⟩
  · dsimp only
    rw [uadd_of_lt hU, List.length_cons, hcoh]
  · simp only [uadd_of_lt hU]
  · intro s2 hs2
    simp [arr_write_other _ _ hs2]
  · simp [alloc_list_node_eq]
  · simp [alloc_list_node_eq]
  · simp [alloc_list_node_eq]

/-- The data spill keeps the local data pool of its class coherent: either it
is untouched, or `NR_FILL_NODES` nodes leave it. The other local pools and the
entry pools are as they were. -/
theorem put_log_local_spill_data_effect (cfg : Config) (s : Nat) (st st1 : State)
    (ld : freelist_t) (h1 : 1 ≤ cfg.NR_FILL_NODES)
    (h : put_log_local_spill_data cfg s st = Res.ok st1)
    (hld : st.local_data_list s = some ld)
    (hcoh : ld.count = ld.head.length) (hU : ld.count < ULONG_MOD) :
    (∃ ld1, st1.local_data_list s = some ld1 ∧ ld1.count = ld1.head.length ∧
      ((ld.count ≤ cfg.MAX_FREE_NODES ∧ ld1.count = ld.count) ∨
       (cfg.MAX_FREE_NODES < ld.count ∧ ld1.count + cfg.NR_FILL_NODES = ld.count))) ∧
    (∀ s2, s2 ≠ s → st1.local_data_list s2 = st.local_data_list s2) ∧
    st1.local_entries_list = st.local_entries_list ∧
    st1.global_entries_list = st.global_entries_list ∧
    st1.local_tables_list = st.local_tables_list := by
  obtain ⟨l, hl, hcase⟩ := put_log_local_spill_data_inv cfg s st st1 h
  rw [hld] at hl
  simp only [Option.some.injEq] at hl
  subst hl
  rcases hcase with ⟨hc, hst1⟩ | ⟨hc, hlen, g, hg, hst1⟩
  · subst hst1
    exact ⟨⟨ld, hld, hcoh, Or.inl ⟨hc, rfl⟩⟩, fun _ _ => rfl, rfl, rfl, rfl⟩
  · subst hst1
    have hn : cfg.NR_FILL_NODES - 1 + 1 = cfg.NR_FILL_NODES := by omega
    have hle : cfg.NR_FILL_NODES ≤ ld.count := by omega
    refine ⟨⟨{ head := ld.head.drop (cfg.NR_FILL_NODES - 1 + 1),
               count := usub ld.count cfg.NR_FILL_NODES }, by simp, ?_, Or.inr ⟨hc, ?_⟩⟩,
      ?_, rfl, rfl, rfl⟩
    · dsimp only
      rw [hn, usub_of_le hle hU, List.length_drop, hcoh]
    · simp only [usub_of_le hle hU]
      omega
    · intro s2 hs2
      simp [arr_write_other _ _ hs2]

/-- The entry push adds one node to the local entry pool and leaves the other
local pools and the global entry pool as they were. -/
theorem put_log_local_push_entry_effect (e : Nat) (st st1 : State) (l : freelist_t)
    (h : put_log_local_push_entry e st = Res.ok st1)
    (hl : alloc_list st.local_entries_list = some l)
    (hcoh : l.count = l.head.length) (hU : l.count + 1 < ULONG_MOD) :
    (∃ l1, st1.local_entries_list = some l1 ∧ l1.count = l1.head.length ∧
      l1.count = l.count + 1) ∧
    st1.local_data_list = st.local_data_list ∧
    st1.global_entries_list = st.global_entries_list ∧
    st1.local_tables_list = st.local_tables_list := by
  rw [put_log_local_push_entry_eq e st l hl] at h
  have hst1 := Res.ok_inj h
  subst hst1
  refine ⟨⟨_, rfl, ?_, ?_⟩, ?_, ?_, ?_⟩
  · dsimp only
    rw [uadd_of_lt hU, List.length_cons, hcoh]
  · simp only [uadd_of_lt hU]
  · simp [alloc_list_node_eq]
  · simp [alloc_list_node_eq]
  · simp [alloc_list_node_eq]

/-- The entry spill keeps the local entry pool coherent: either both entry
pools are untouched, or `NR_FILL_NODES` nodes leave the local pool and the
global count grows by `NR_FILL_NODES` (modulo `2 ^ 64`). The other local pools
are as they were. -/
theorem put_log_local_spill_entries_effect (cfg : Config) (st st1 : State)
    (l : freelist_t) (h1 : 1 ≤ cfg.NR_FILL_NODES)
    (h : put_log_local_spill_entries cfg st = Res.ok st1)
    (hl : st.local_entries_list = some l)
    (hcoh : l.count = l.head.length) (hU : l.count < ULONG_MOD) :
    (∃ l1, st1.local_entries_list = some l1 ∧ l1.count = l1.head.length ∧
      ((l.count ≤ cfg.MAX_FREE_NODES ∧ l1.count = l.count ∧
          st1.global_entries_list = st.global_entries_list) ∨
       (cfg.MAX_FREE_NODES < l.count ∧ l1.count + cfg.NR_FILL_NODES = l.count ∧
          ∃ g gh, st.global_entries_list = some g ∧
            st1.global_entries_list = some
              { head := gh, count := uadd g.count cfg.NR_FILL_NODES }))) ∧
    st1.local_data_list = st.local_data_list ∧
    st1.local_tables_list = st.local_tables_list := by
  obtain ⟨l2, hl2, hcase⟩ := put_log_local_spill_entries_inv cfg st st1 h
  rw [hl] at hl2
  simp only [Option.some.injEq] at hl2
  subst hl2
  rcases hcase with ⟨hc, hst1⟩ | ⟨hc, hlen, g, hg, hst1⟩
  · subst hst1
    exact ⟨⟨l, hl, hcoh, Or.inl ⟨hc, rfl, rfl⟩⟩, rfl, rfl⟩
  · subst hst1
    have hn : cfg.NR_FILL_NODES - 1 + 1 = cfg.NR_FILL_NODES := by omega
    have hle : cfg.NR_FILL_NODES ≤ l.count := by omega
    refine ⟨⟨_, rfl, ?_, Or.inr ⟨hc, ?_, g, _, hg, rfl⟩⟩, rfl, rfl⟩
    · dsimp only
      rw [hn, usub_of_le hle hU, List.length_drop, hcoh]
    · simp only [usub_of_le hle hU]
      omega

/-! ## Effect of `alloc_log_table` on the local pools -/

/-- The first part of `fill_local_tables_list`: when it succeeds, the global
table pool has a count that is the old one if that was not zero, and
`MAX_FREE_NODES` more (with `MAX_FREE_NODES ≥ 1`) if it was; the local pools
and the entry pools are as they were. -/
theorem fill_local_tables_list_growth_inv (cfg : Config) (st st2 : State) (g0 : freelist_t)
    (hg0 : st.global_tables_list = some g0)
    (h : (if g0.count = 0 then fill_global_tables_list cfg false st else Res.ok st) =
      Res.ok st2) :
    st2.local_tables_list = st.local_tables_list ∧
    st2.local_entries_list = st.local_entries_list ∧
    st2.global_entries_list = st.global_entries_list ∧
    st2.local_data_list = st.local_data_list ∧
    ∃ g, st2.global_tables_list = some g ∧
      ((g0.count ≠ 0 ∧ g = g0) ∨
       (g0.count = 0 ∧ 1 ≤ cfg.MAX_FREE_NODES ∧ g.count = uadd 0 cfg.MAX_FREE_NODES)) := by
  split_ifs at h with hc
  · obtain ⟨-, hmax⟩ := fill_global_tables_list_inv cfg false _ _ h
    rw [fill_global_tables_list_eq cfg st g0 hg0 hmax] at h
    have h4 := Res.ok_inj h
    subst h4
    exact ⟨rfl, rfl, rfl, rfl, _, rfl, Or.inr ⟨hc, hmax, by rw [hc]⟩⟩
  · have h4 := Res.ok_inj h
    subst h4
    exact ⟨rfl, rfl, rfl, rfl, g0, hg0, Or.inl ⟨hc, rfl⟩⟩

/-- A successful `fill_local_tables_list` added `k` to the count of the local
table pool, with `k ≤ NR_FILL_NODES`, and `k ≥ 1` when `NR_FILL_NODES ≥ 1` and
`MAX_FREE_NODES < 2 ^ 64`; the entry and data pools of the thread and the global
entry pool are as they were. -/
theorem fill_local_tables_list_inv (cfg : Config) (st st1 : State)
    (h : fill_local_tables_list cfg st = Res.ok st1) :
    (∃ l moved k, st.local_tables_list = some l ∧
      st1.local_tables_list = some { head := moved, count := uadd l.count k } ∧
      k ≤ cfg.NR_FILL_NODES ∧
      (1 ≤ cfg.NR_FILL_NODES → cfg.MAX_FREE_NODES < ULONG_MOD → 1 ≤ k)) ∧
    st1.local_entries_list = st.local_entries_list ∧
    st1.global_entries_list = st.global_entries_list ∧
    st1.local_data_list = st.local_data_list := by
  unfold fill_local_tables_list at h
  simp only [emit_global_tables_list] at h
  cases hg0 : st.global_tables_list with
  | none =>
    rw [hg0] at h
    cases h
  | some g0 =>
    rw [hg0] at h
    simp only at h
    obtain ⟨st2, hfg, h2⟩ := Res.bind_eq_ok h
    obtain ⟨f1, f2, f3, f4, g, hg, hcase⟩ :=
      fill_local_tables_list_growth_inv cfg (st.emit [Event.lock Mutex.tables]) st2 g0
        (by simpa using hg0) hfg
    simp only [refill_count] at h2
    rw [hg] at h2
    split at h2
    · rename_i gg l hgg hl
      simp only [Option.some.injEq] at hgg
      subst hgg
      split at h2
      · cases h2
      · rename_i moved left hw
        have hk : (1 ≤ cfg.NR_FILL_NODES → cfg.MAX_FREE_NODES < ULONG_MOD →
            1 ≤ min (if g0.count = 0 then g.count else g0.count) cfg.NR_FILL_NODES) := by
          intro h1 hU
          rcases hcase with ⟨hc, -⟩ | ⟨hc, hmax, hgc⟩
          · rw [if_neg hc]
            omega
          · rw [if_pos hc, hgc, uadd_zero_left hU]
            omega
        have h4 := Res.ok_inj h2
        subst h4
        have hl' : st.local_tables_list = some l := by
          rw [← hl, f1]
          rfl
        refine ⟨⟨l, moved, _, hl', ?_, Nat.min_le_right _ _, hk⟩, ?_, ?_, ?_⟩
        · split_ifs <;> rfl
        · split_ifs <;> simp [f2]
        · split_ifs <;> simp [f3]
        · split_ifs <;> simp [f4]
    · cases h2

/-- A successful pop of `alloc_log_table` lowered the count of the thread's
table pool by one and left the entry and data pools as they were. -/
theorem alloc_log_table_pop_inv (cfg : Config) (parent : Nat) (index : Int) (type : Nat)
    (st st1 : State) (t : Nat)
    (h : alloc_log_table_pop cfg parent index type st = Res.ok (t, st1)) :
    (∃ l rest, st.local_tables_list = some l ∧
      st1.local_tables_list = some { head := rest, count := usub l.count 1 }) ∧
    st1.local_entries_list = st.local_entries_list ∧
    st1.global_entries_list = st.global_entries_list ∧
    st1.local_data_list = st.local_data_list := by
  unfold alloc_log_table_pop at h
  split at h
  · cases h
  · rename_i l hl
    split at h
    · cases h
    · rename_i table rest hhead
      simp only at h
      split_ifs at h
      have h3 := Res.ok_inj h
      simp only [Prod.mk.injEq] at h3
      obtain ⟨-, h5⟩ := h3
      subst h5
      exact ⟨⟨l, rest, hl, rfl⟩, rfl, rfl, rfl⟩

/-- The effect of a successful `alloc_log_table` on the local pools: a table
pool with count at most `NR_FILL_NODES` stays so; the entry and data pools of
the thread and the global entry pool are as they were. -/
theorem alloc_log_table_effect (cfg : Config) (parent : Nat) (index : Int) (type : Nat)
    (st st1 : State) (t : Nat)
    (h : alloc_log_table cfg parent index type st = Res.ok (t, st1))
    (h1 : 1 ≤ cfg.NR_FILL_NODES)
    (hU : cfg.MAX_FREE_NODES + cfg.NR_FILL_NODES < ULONG_MOD)
    (hinv : ∀ l, st.local_tables_list = some l → l.count ≤ cfg.NR_FILL_NODES) :
    (∀ l, st1.local_tables_list = some l → l.count ≤ cfg.NR_FILL_NODES) ∧
    st1.local_entries_list = st.local_entries_list ∧
    st1.global_entries_list = st.global_entries_list ∧
    st1.local_data_list = st.local_data_list := by
  unfold alloc_log_table at h
  obtain ⟨sr, hr, hp⟩ := Res.bind_eq_ok h
  obtain ⟨⟨l, rest, hl, hl1⟩, p2, p3, p4⟩ :=
    alloc_log_table_pop_inv cfg parent index type sr st1 t hp
  obtain ⟨l0, hl0⟩ := alloc_list_some st.local_tables_list
  by_cases hc : l0.count = 0
  · have hl0' : alloc_list st.local_tables_list = some { head := l0.head, count := 0 } := by
      rw [hl0, ← hc]
    rw [alloc_log_table_refill_fill cfg st l0.head hl0'] at hr
    obtain ⟨⟨lf, moved, k, hlf, hlr, hk, hk1⟩, q2, q3, q4⟩ :=
      fill_local_tables_list_inv cfg _ _ hr
    simp only [Option.some.injEq] at hlf
    subst hlf
    have hk1' := hk1 h1 (by omega)
    rw [hlr] at hl
    simp only [Option.some.injEq] at hl
    subst hl
    simp only [uadd_zero_left (show k < ULONG_MOD by omega)] at hl1
    refine ⟨?_, ?_, ?_, ?_⟩
    · intro l2 hl2
      rw [hl1] at hl2
      simp only [Option.some.injEq] at hl2
      subst hl2
      simp only [usub_of_le hk1' (show k < ULONG_MOD by omega)]
      omega
    · rw [p2, q2]
    · rw [p3, q3]
    · rw [p4, q4]
  · have hs : st.local_tables_list = some l0 := by
      rcases alloc_list_eq_some _ _ hl0 with ⟨-, hx⟩ | hs
      · exfalso
        rw [hx] at hc
        exact hc rfl
      · exact hs
    rw [alloc_log_table_refill_skip cfg st l0 hs hc] at hr
    have hsr := Res.ok_inj hr
    subst hsr
    rw [hs] at hl
    simp only [Option.some.injEq] at hl
    subst hl
    have hb := hinv l0 hs
    refine ⟨?_, p2, p3, p4⟩
    intro l2 hl2
    rw [hl1] at hl2
    simp only [Option.some.injEq] at hl2
    subst hl2
    simp only [usub_of_le (Nat.one_le_iff_ne_zero.mpr hc) (show l0.count < ULONG_MOD by omega)]
    omega

/-! ## Effect of `release_local_list` and of `free_log_entry` -/

/-- The effect of a successful `release_local_list` on a local entry pool whose
count is the length of its chain: the local pool ends empty, and the global
count grows by the local count (modulo `2 ^ 64`), the global pool being
untouched when the local count is zero. -/
theorem release_local_list_effect (st st1 : State) (l : freelist_t)
    (h : release_local_list st = Res.ok st1)
    (hl : alloc_list st.local_entries_list = some l)
    (hcoh : l.count = l.head.length) (hU : l.count < ULONG_MOD) :
    st1.local_entries_list = some { head := [], count := 0 } ∧
    ((l.count = 0 ∧ st1.global_entries_list = st.global_entries_list) ∨
     (l.count ≠ 0 ∧ ∃ g gh, st.global_entries_list = some g ∧
        st1.global_entries_list = some { head := gh, count := uadd g.count l.count })) ∧
    st1.local_tables_list = st.local_tables_list ∧
    st1.local_data_list = st.local_data_list := by
  rw [release_local_list_eq st l hl] at h
  by_cases hc : l.count = 0
  · rw [if_pos hc] at h
    have h2 := Res.ok_inj h
    subst h2
    have hhead : l.head = [] := List.length_eq_zero.mp (by rw [← hcoh, hc])
    refine ⟨?_, Or.inl ⟨hc, rfl⟩, rfl, rfl⟩
    show some l = _
    cases l
    simp_all
  · rw [if_neg hc] at h
    have hz : usub l.count l.count = 0 := by
      rw [usub_of_le (Nat.le_refl _) hU]
      omega
    split at h
    · cases h
    · split_ifs at h <;>
      first
      | (exfalso
         omega)
      | (split at h
         · cases h
         · rename_i g hg
           have h2 := Res.ok_inj h
           subst h2
           refine ⟨?_, Or.inr ⟨hc, g, _, hg, rfl⟩, rfl, rfl⟩
           simp [hz])

/-- A successful `free_log_entry` had a non-`NULL` entry and ran the four steps
of `put_log_local` on the cleared state. -/
theorem free_log_entry_inv (cfg : Config) (e s : Nat) (sync : Bool) (st st1 : State)
    (h : free_log_entry cfg e s sync st = Res.ok st1) :
    e ≠ 0 ∧ ∃ s1 s2 s3,
      put_log_local_push_data e s (free_log_entry_clear cfg e sync st) = Res.ok s1 ∧
      put_log_local_spill_data cfg s s1 = Res.ok s2 ∧
      put_log_local_push_entry e s2 = Res.ok s3 ∧
      put_log_local_spill_entries cfg s3 = Res.ok st1 := by
  by_cases he : e = 0
  · exfalso
    simp [free_log_entry, he] at h
  · simp only [free_log_entry, he, if_false, put_log_local] at h
    obtain ⟨s1, h1, h⟩ := Res.bind_eq_ok h
    obtain ⟨s2, h2, h⟩ := Res.bind_eq_ok h
    obtain ⟨s3, h3, h⟩ := Res.bind_eq_ok h
    exact ⟨he, s1, s2, s3, h1, h2, h3, h⟩

/-- The data steps of `put_log_local` leave the entry pools and the local table
pool as they were, whatever the data pools hold. -/
theorem put_log_local_data_steps_frame (cfg : Config) (e s : Nat) (st s1 s2 : State)
    (h1 : put_log_local_push_data e s st = Res.ok s1)
    (h2 : put_log_local_spill_data cfg s s1 = Res.ok s2) :
    s2.local_entries_list = st.local_entries_list ∧
    s2.global_entries_list = st.global_entries_list ∧
    s2.local_tables_list = st.local_tables_list := by
  obtain ⟨-, l, -, hs1⟩ := put_log_local_push_data_inv e s st s1 h1
  obtain ⟨l2, -, hcase⟩ := put_log_local_spill_data_inv cfg s s1 s2 h2
  rcases hcase with ⟨-, hs2⟩ | ⟨-, -, g, -, hs2⟩
  · subst hs2 hs1
    simp [alloc_list_node_eq]
  · subst hs2 hs1
    simp [alloc_list_node_eq]

/-! ## The local pools stay bounded -/

@[simp] theorem free_log_entry_clear_local_tables_list (cfg : Config) (e : Nat) (sync : Bool)
    (st : State) :
    (free_log_entry_clear cfg e sync st).local_tables_list = st.local_tables_list := by
  cases sync <;> rfl

/-- A property of the empty pool and of an allocated pool holds of the pool
after `alloc_list`. -/
theorem alloc_list_elim (P : freelist_t → Prop) (o : Option freelist_t) (l : freelist_t)
    (h : alloc_list o = some l) (h0 : P { head := [], count := 0 })
    (hs : ∀ x, o = some x → P x) : P l := by
  rcases alloc_list_eq_some _ _ h with ⟨-, hx⟩ | hs2
  · rw [hx]
    exact h0
  · exact hs l hs2

/-- Empty local pools satisfy the invariant of the local pools. -/
theorem local_inv_of_locals_empty (cfg : Config) (st : State) (h : locals_empty st) :
    local_inv cfg st := by
  obtain ⟨hT, hE, hD⟩ := h
  refine ⟨?_, ?_, ?_⟩
  · intro l hl
    rw [hl] at hT
    simp only [alloc_list, Option.some.injEq] at hT
    rw [hT]
    exact Nat.zero_le _
  · intro l hl
    rw [hl] at hE
    simp only [alloc_list, Option.some.injEq] at hE
    rw [hE]
    exact ⟨rfl, Nat.zero_le _⟩
  · intro s l hl
    have h2 := hD s
    rw [hl] at h2
    simp only [alloc_list, Option.some.injEq] at h2
    rw [h2]
    exact ⟨rfl, Nat.zero_le _⟩

/-- The invariant of the local pools bounds every local count by
`MAX_FREE_NODES + NR_FILL_NODES`. -/
theorem local_counts_le_of_local_inv (cfg : Config) (st : State) (h : local_inv cfg st) :
    local_counts_le st (cfg.MAX_FREE_NODES + cfg.NR_FILL_NODES) := by
  obtain ⟨hT, hE, hD⟩ := h
  refine ⟨?_, ?_, ?_⟩
  · intro l hl
    have := hT l hl
    omega
  · intro l hl
    have := (hE l hl).2
    omega
  · intro s l hl
    have := (hD s l hl).2
    omega

/-- The invariant of the local pools is kept by `alloc_log_table`. -/
theorem local_inv_alloc_log_table (cfg : Config) (parent : Nat) (index : Int) (type : Nat)
    (st st1 : State) (t : Nat) (h1 : 1 ≤ cfg.NR_FILL_NODES)
    (hU : cfg.MAX_FREE_NODES + cfg.NR_FILL_NODES < ULONG_MOD)
    (hinv : local_inv cfg st)
    (h : alloc_log_table cfg parent index type st = Res.ok (t, st1)) :
    local_inv cfg st1 := by
  obtain ⟨hT, hE, hD⟩ := hinv
  obtain ⟨a, b, -, d⟩ := alloc_log_table_effect cfg parent index type st st1 t h h1 hU hT
  refine ⟨a, ?_, ?_⟩
  · intro l hl
    rw [b] at hl
    exact hE l hl
  · intro s l hl
    rw [d] at hl
    exact hD s l hl

/-- The invariant of the local pools is kept by `alloc_log_entry`. -/
theorem local_inv_alloc_log_entry (cfg : Config) (u s : Nat) (st st1 : State) (e : Nat)
    (h1 : 1 ≤ cfg.NR_FILL_NODES)
    (hU : cfg.MAX_FREE_NODES + cfg.NR_FILL_NODES < ULONG_MOD)
    (hinv : local_inv cfg st)
    (h : alloc_log_entry cfg u s st = Res.ok (e, st1)) :
    local_inv cfg st1 := by
  obtain ⟨hT, hE, hD⟩ := hinv
  obtain ⟨l0, hl0⟩ := alloc_list_some st.local_entries_list
  have hl0p : l0.count = l0.head.length ∧
      l0.count ≤ max cfg.MAX_FREE_NODES (cfg.NR_FILL_NODES - 1) :=
    alloc_list_elim (fun x => x.count = x.head.length ∧
      x.count ≤ max cfg.MAX_FREE_NODES (cfg.NR_FILL_NODES - 1)) _ l0 hl0
      ⟨rfl, Nat.zero_le _⟩ hE
  obtain ⟨⟨l1, hl1, hcoh1, hcase⟩, ht, hd⟩ :=
    alloc_log_entry_entries_effect cfg u s st st1 e l0 h h1 (fun g _ => by omega) hl0
      hl0p.1 (by omega)
  refine ⟨?_, ?_, ?_⟩
  · intro l hl
    rw [ht] at hl
    exact hT l hl
  · intro l hl
    rw [hl1] at hl
    simp only [Option.some.injEq] at hl
    subst hl
    refine ⟨hcoh1, ?_⟩
    rcases hcase with ⟨-, hcnt, -⟩ | ⟨-, g, left, -, -, hcnt, -⟩
    · omega
    · omega
  · intro s2 l hl
    rw [hd] at hl
    exact hD s2 l hl

/-- The invariant of the local pools is kept by `release_local_list`. -/
theorem local_inv_release_local_list (cfg : Config) (st st1 : State)
    (hU : cfg.MAX_FREE_NODES + cfg.NR_FILL_NODES < ULONG_MOD)
    (hinv : local_inv cfg st)
    (h : release_local_list st = Res.ok st1) :
    local_inv cfg st1 := by
  obtain ⟨hT, hE, hD⟩ := hinv
  obtain ⟨l0, hl0⟩ := alloc_list_some st.local_entries_list
  have hl0p : l0.count = l0.head.length ∧
      l0.count ≤ max cfg.MAX_FREE_NODES (cfg.NR_FILL_NODES - 1) :=
    alloc_list_elim (fun x => x.count = x.head.length ∧
      x.count ≤ max cfg.MAX_FREE_NODES (cfg.NR_FILL_NODES - 1)) _ l0 hl0
      ⟨rfl, Nat.zero_le _⟩ hE
  obtain ⟨hl1, -, ht, hd⟩ := release_local_list_effect st st1 l0 h hl0 hl0p.1 (by omega)
  refine ⟨?_, ?_, ?_⟩
  · intro l hl
    rw [ht] at hl
    exact hT l hl
  · intro l hl
    rw [hl1] at hl
    simp only [Option.some.injEq] at hl
    subst hl
    exact ⟨rfl, Nat.zero_le _⟩
  · intro s2 l hl
    rw [hd] at hl
    exact hD s2 l hl

/-- The four steps of `put_log_local` inside `free_log_entry`, started in a
state that satisfies the invariant of the local pools: the state after the data
push and the state after the entry push have every local count at most
`MAX_FREE_NODES + NR_FILL_NODES`, and the state after the last step satisfies
the invariant again. -/
theorem local_inv_free_steps (cfg : Config) (e s : Nat) (sync : Bool) (st s1 : State)
    (h1 : 1 ≤ cfg.NR_FILL_NODES)
    (hU : cfg.MAX_FREE_NODES + cfg.NR_FILL_NODES < ULONG_MOD)
    (hinv : local_inv cfg st)
    (p1 : put_log_local_push_data e s (free_log_entry_clear cfg e sync st) = Res.ok s1) :
    local_counts_le s1 (cfg.MAX_FREE_NODES + cfg.NR_FILL_NODES) ∧
    ∀ s2, put_log_local_spill_data cfg s s1 = Res.ok s2 →
      ∀ s3, put_log_local_push_entry e s2 = Res.ok s3 →
        local_counts_le s3 (cfg.MAX_FREE_NODES + cfg.NR_FILL_NODES) ∧
        ∀ st1, put_log_local_spill_entries cfg s3 = Res.ok st1 → local_inv cfg st1 := by
  obtain ⟨hT, hE, hD⟩ := hinv
  obtain ⟨ld0, hld0⟩ := alloc_list_some (st.local_data_list s)
  have hld0p : ld0.count = ld0.head.length ∧ ld0.count ≤ cfg.MAX_FREE_NODES :=
    alloc_list_elim (fun x => x.count = x.head.length ∧ x.count ≤ cfg.MAX_FREE_NODES) _ ld0
      hld0 ⟨rfl, Nat.zero_le _⟩ (hD s)
  obtain ⟨⟨ld1, hld1, hc1, hcnt1⟩, fd1, fe1, -, ft1⟩ :=
    put_log_local_push_data_effect e s (free_log_entry_clear cfg e sync st) s1 ld0 p1
      (by simpa using hld0) hld0p.1 (by omega)
  simp only [free_log_entry_clear_local_data_list, free_log_entry_clear_local_entries_list,
    free_log_entry_clear_local_tables_list] at fd1 fe1 ft1
  have hD1 : ∀ s2 l, s1.local_data_list s2 = some l →
      l.count = l.head.length ∧ l.count ≤ cfg.MAX_FREE_NODES + 1 := by
    intro s2 l hl
    by_cases hs : s2 = s
    · subst hs
      rw [hld1] at hl
      simp only [Option.some.injEq] at hl
      subst hl
      exact ⟨hc1, by omega⟩
    · rw [fd1 s2 hs] at hl
      have := hD s2 l hl
      exact ⟨this.1, by omega⟩
  refine ⟨⟨?_, ?_, ?_⟩, ?_⟩
  · intro l hl
    rw [ft1] at hl
    have := hT l hl
    omega
  · intro l hl
    rw [fe1] at hl
    have := (hE l hl).2
    omega
  · intro s2 l hl
    have := (hD1 s2 l hl).2
    omega
  intro s2 p2 s3 p3
  obtain ⟨⟨ld2, hld2, hc2, hcase2⟩, fd2, fe2, -, ft2⟩ :=
    put_log_local_spill_data_effect cfg s s1 s2 ld1 h1 p2 hld1 hc1 (by omega)
  have hD2 : ∀ s4 l, s2.local_data_list s4 = some l →
      l.count = l.head.length ∧ l.count ≤ cfg.MAX_FREE_NODES := by
    intro s4 l hl
    by_cases hs : s4 = s
    · subst hs
      rw [hld2] at hl
      simp only [Option.some.injEq] at hl
      subst hl
      refine ⟨hc2, ?_⟩
      rcases hcase2 with ⟨ha, hb⟩ | ⟨ha, hb⟩
      · omega
      · omega
    · rw [fd2 s4 hs, fd1 s4 hs] at hl
      exact hD s4 l hl
  obtain ⟨l0, hl0⟩ := alloc_list_some st.local_entries_list
  have hl0p : l0.count = l0.head.length ∧
      l0.count ≤ max cfg.MAX_FREE_NODES (cfg.NR_FILL_NODES - 1) :=
    alloc_list_elim (fun x => x.count = x.head.length ∧
      x.count ≤ max cfg.MAX_FREE_NODES (cfg.NR_FILL_NODES - 1)) _ l0 hl0
      ⟨rfl, Nat.zero_le _⟩ hE
  obtain ⟨⟨l1, hl1, hce1, hcnte1⟩, gd3, -, gt3⟩ :=
    put_log_local_push_entry_effect e s2 s3 l0 p3 (by rw [fe2, fe1]; exact hl0) hl0p.1
      (by omega)
  refine ⟨⟨?_, ?_, ?_⟩, ?_⟩
  · intro l hl
    rw [gt3, ft2, ft1] at hl
    have := hT l hl
    omega
  · intro l hl
    rw [hl1] at hl
    simp only [Option.some.injEq] at hl
    subst hl
    omega
  · intro s4 l hl
    rw [gd3] at hl
    have := (hD2 s4 l hl).2
    omega
  intro st1 p4
  obtain ⟨⟨l2, hl2, hce2, hcasee⟩, gd4, gt4⟩ :=
    put_log_local_spill_entries_effect cfg s3 st1 l1 h1 p4 hl1 hce1 (by omega)
  refine ⟨?_, ?_, ?_⟩
  · intro l hl
    rw [gt4, gt3, ft2, ft1] at hl
    exact hT l hl
  · intro l hl
    rw [hl2] at hl
    simp only [Option.some.injEq] at hl
    subst hl
    refine ⟨hce2, ?_⟩
    rcases hcasee with ⟨ha, hb, -⟩ | ⟨ha, hb, -⟩
    · omega
    · omega
  · intro s4 l hl
    rw [gd4, gd3] at hl
    exact hD2 s4 l hl

/-- The invariant of the local pools is kept by `free_log_entry`. -/
theorem local_inv_free_log_entry (cfg : Config) (e s : Nat) (sync : Bool) (st st1 : State)
    (h1 : 1 ≤ cfg.NR_FILL_NODES)
    (hU : cfg.MAX_FREE_NODES + cfg.NR_FILL_NODES < ULONG_MOD)
    (hinv : local_inv cfg st)
    (h : free_log_entry cfg e s sync st = Res.ok st1) :
    local_inv cfg st1 := by
  obtain ⟨-, s1, s2, s3, p1, p2, p3, p4⟩ := free_log_entry_inv cfg e s sync st st1 h
  exact ((local_inv_free_steps cfg e s sync st s1 h1 hU hinv p1).2 s2 p2 s3 p3).2 st1 p4

/-- The invariant of the local pools is kept by every operation of the thread. -/
theorem local_inv_step (cfg : Config) (op : Op) (st st1 : State)
    (h1 : 1 ≤ cfg.NR_FILL_NODES)
    (hU : cfg.MAX_FREE_NODES + cfg.NR_FILL_NODES < ULONG_MOD)
    (hinv : local_inv cfg st) (h : step cfg op st = Res.ok st1) :
    local_inv cfg st1 := by
  cases op with
  | alloc_table parent index type =>
    simp only [step] at h
    obtain ⟨r, hr, h2⟩ := Res.bind_eq_ok h
    obtain ⟨t, sr⟩ := r
    have h3 := Res.ok_inj h2
    simp only at h3
    subst h3
    exact local_inv_alloc_log_table cfg parent index type st _ t h1 hU hinv hr
  | alloc_entry u s =>
    simp only [step] at h
    obtain ⟨r, hr, h2⟩ := Res.bind_eq_ok h
    obtain ⟨e, sr⟩ := r
    have h3 := Res.ok_inj h2
    simp only at h3
    subst h3
    exact local_inv_alloc_log_entry cfg u s st _ e h1 hU hinv hr
  | free_entry e s sync =>
    exact local_inv_free_log_entry cfg e s sync st st1 h1 hU hinv h
  | release =>
    exact local_inv_release_local_list cfg st st1 hU hinv h

/-- The invariant of the local pools holds after every sequence of operations
that starts in a state satisfying it. -/
theorem local_inv_run (cfg : Config) (ops : List Op) (st st1 : State)
    (h1 : 1 ≤ cfg.NR_FILL_NODES)
    (hU : cfg.MAX_FREE_NODES + cfg.NR_FILL_NODES < ULONG_MOD)
    (hinv : local_inv cfg st) (h : run cfg ops st = Res.ok st1) :
    local_inv cfg st1 := by
  induction ops generalizing st with
  | nil =>
    have h2 := Res.ok_inj h
    subst h2
    exact hinv
  | cons op ops ih =>
    simp only [run] at h
    obtain ⟨s2, hs, h2⟩ := Res.bind_eq_ok h
    exact ih s2 (local_inv_step cfg op st s2 h1 hU hinv hs) h2

/-- C13: in every state a thread reaches from empty local pools through
`alloc_log_table`, `alloc_log_entry`, `free_log_entry` (and
`release_local_list`), each local pool of the thread (tables, entries, data of
every size class) has count at most `MAX_FREE_NODES + NR_FILL_NODES`; the same
holds inside a following `free_log_entry` in the state between the data push
and the data spill and in the state between the entry push and the entry
spill. -/
theorem local_pools_bounded (cfg : Config) (ops : List Op) (st0 st : State)
    (h1 : 1 ≤ cfg.NR_FILL_NODES)
    (hU : cfg.MAX_FREE_NODES + cfg.NR_FILL_NODES < ULONG_MOD)
    (hstart : locals_empty st0) (hrun : run cfg ops st0 = Res.ok st) :
    local_counts_le st (cfg.MAX_FREE_NODES + cfg.NR_FILL_NODES) ∧
    ∀ e s sync s1,
      put_log_local_push_data e s (free_log_entry_clear cfg e sync st) = Res.ok s1 →
      local_counts_le s1 (cfg.MAX_FREE_NODES + cfg.NR_FILL_NODES) ∧
      ∀ s2 s3, put_log_local_spill_data cfg s s1 = Res.ok s2 →
        put_log_local_push_entry e s2 = Res.ok s3 →
        local_counts_le s3 (cfg.MAX_FREE_NODES + cfg.NR_FILL_NODES) := by
  have hinv := local_inv_run cfg ops st0 st h1 hU
    (local_inv_of_locals_empty cfg st0 hstart) hrun
  refine ⟨local_counts_le_of_local_inv cfg st hinv, ?_⟩
  intro e s sync s1 p1
  obtain ⟨ha, hb⟩ := local_inv_free_steps cfg e s sync st s1 h1 hU hinv p1
  exact ⟨ha, fun s2 s3 p2 p3 => (hb s2 p2 s3 p3).1⟩

/-- Witness of C13 with `MAX_FREE_NODES = 4`, `NR_FILL_NODES = 2`: after six
allocations and four frees the local entry and data pools hold four nodes; in
the fifth free the data pool holds five nodes after the data push and the entry
pool five nodes after the entry push, within the bound 6. -/
theorem local_pools_bounded_witness :
    bound_demo_state.local_entries_list =
      some { head := [536878848, 536878912, 536878976, 536879040], count := 4 } ∧
    local_counts_le bound_demo_state 6 ∧
    (∃ s1 s2 s3,
      put_log_local_push_data 536878784 0
        (free_log_entry_clear (cfg_small 4 2) 536878784 false bound_demo_state) = Res.ok s1 ∧
      s1.local_data_list 0 = some { head := [0, 0, 0, 0, 0], count := 5 } ∧
      local_counts_le s1 6 ∧
      put_log_local_spill_data (cfg_small 4 2) 0 s1 = Res.ok s2 ∧
      put_log_local_push_entry 536878784 s2 = Res.ok s3 ∧
      s3.local_entries_list =
        some { head := [536878784, 536878848, 536878912, 536878976, 536879040],
               count := 5 } ∧
      local_counts_le s3 6) := by
  have hstart : locals_empty (ready_small 4 2) := ⟨by rfl, by rfl, fun s => by rfl⟩
  obtain ⟨ha, hb⟩ := local_pools_bounded (cfg_small 4 2) bound_demo_ops (ready_small 4 2)
    bound_demo_state (by decide) (by decide) hstart (by rfl)
  refine ⟨by rfl, ha, ?_⟩
  have p1 : put_log_local_push_data 536878784 0
      (free_log_entry_clear (cfg_small 4 2) 536878784 false bound_demo_state) =
      Res.ok (put_log_local_push_data 536878784 0
        (free_log_entry_clear (cfg_small 4 2) 536878784 false bound_demo_state)).get := by
    rfl
  obtain ⟨hc, hd⟩ := hb 536878784 0 false _ p1
  have p2 : put_log_local_spill_data (cfg_small 4 2) 0
      (put_log_local_push_data 536878784 0
        (free_log_entry_clear (cfg_small 4 2) 536878784 false bound_demo_state)).get =
      Res.ok (put_log_local_spill_data (cfg_small 4 2) 0
        (put_log_local_push_data 536878784 0
          (free_log_entry_clear (cfg_small 4 2) 536878784 false bound_demo_state)).get).get := by
    rfl
  have p3 : put_log_local_push_entry 536878784
      (put_log_local_spill_data (cfg_small 4 2) 0
        (put_log_local_push_data 536878784 0
          (free_log_entry_clear (cfg_small 4 2) 536878784 false bound_demo_state)).get).get =
      Res.ok (put_log_local_push_entry 536878784
        (put_log_local_spill_data (cfg_small 4 2) 0
          (put_log_local_push_data 536878784 0
            (free_log_entry_clear (cfg_small 4 2) 536878784 false
              bound_demo_state)).get).get).get := by
    rfl
  exact ⟨_, _, _, p1, by rfl, hc, p2, p3, by rfl, hd _ _ p2 p3⟩

/-! ## Inflight count of the entries -/

/-- A successful `alloc_log_table` leaves the entry pools and the local data
pools as they were. -/
theorem alloc_log_table_frame (cfg : Config) (parent : Nat) (index : Int) (type : Nat)
    (st st1 : State) (t : Nat)
    (h : alloc_log_table cfg parent index type st = Res.ok (t, st1)) :
    st1.local_entries_list = st.local_entries_list ∧
    st1.global_entries_list = st.global_entries_list ∧
    st1.local_data_list = st.local_data_list := by
  unfold alloc_log_table at h
  obtain ⟨sr, hr, hp⟩ := Res.bind_eq_ok h
  obtain ⟨-, p2, p3, p4⟩ := alloc_log_table_pop_inv cfg parent index type sr st1 t hp
  obtain ⟨l0, hl0⟩ := alloc_list_some st.local_tables_list
  by_cases hc : l0.count = 0
  · have hl0' : alloc_list st.local_tables_list = some { head := l0.head, count := 0 } := by
      rw [hl0, ← hc]
    rw [alloc_log_table_refill_fill cfg st l0.head hl0'] at hr
    obtain ⟨-, q2, q3, q4⟩ := fill_local_tables_list_inv cfg _ _ hr
    exact ⟨by rw [p2, q2], by rw [p3, q3], by rw [p4, q4]⟩
  · have hs : st.local_tables_list = some l0 := by
      rcases alloc_list_eq_some _ _ hl0 with ⟨-, hx⟩ | hs
      · exfalso
        rw [hx] at hc
        exact hc rfl
      · exact hs
    rw [alloc_log_table_refill_skip cfg st l0 hs hc] at hr
    have hsr := Res.ok_inj hr
    subst hsr
    exact ⟨p2, p3, p4⟩

/-- The inflight invariant of the entries is kept by `alloc_log_entry`: the
entry returned joins the entries held by the caller. -/
theorem entries_inv_alloc_log_entry (cfg : Config) (total u s : Nat) (st st1 : State)
    (e : Nat) (held : List Nat) (h1 : 1 ≤ cfg.NR_FILL_NODES) (hN : total < ULONG_MOD)
    (hinv : entries_inv total st held)
    (h : alloc_log_entry cfg u s st = Res.ok (e, st1)) :
    entries_inv total st1 (e :: held) := by
  obtain ⟨g, l, hg, hl, hcoh, hsum⟩ := hinv
  obtain ⟨⟨l1, hl1, hcoh1, hcase⟩, -, -⟩ :=
    alloc_log_entry_entries_effect cfg u s st st1 e l h h1
      (fun g2 hg2 => by
        rw [hg] at hg2
        simp only [Option.some.injEq] at hg2
        subst hg2
        omega)
      hl hcoh (by omega)
  rcases hcase with ⟨hc, hcnt, hg1⟩ | ⟨hc, g2, left, hg2, hgc, hcnt, hg1⟩
  · refine ⟨g, l1, by rw [hg1, hg], by rw [hl1]; rfl, hcoh1, ?_⟩
    simp only [List.length_cons]
    omega
  · rw [hg] at hg2
    simp only [Option.some.injEq] at hg2
    subst hg2
    refine ⟨_, l1, hg1, by rw [hl1]; rfl, hcoh1, ?_⟩
    have hle : min g.count cfg.NR_FILL_NODES ≤ g.count := Nat.min_le_left _ _
    simp only [List.length_cons, usub_of_le hle (show g.count < ULONG_MOD by omega)]
    omega

/-- The inflight invariant of the entries is kept by `free_log_entry` of an
entry held by the caller, which leaves the entries held. -/
theorem entries_inv_free_log_entry (cfg : Config) (total e s : Nat) (sync : Bool)
    (st st1 : State) (held : List Nat) (h1 : 1 ≤ cfg.NR_FILL_NODES)
    (hN : total < ULONG_MOD) (hmem : e ∈ held)
    (hinv : entries_inv total st held)
    (h : free_log_entry cfg e s sync st = Res.ok st1) :
    entries_inv total st1 (held.erase e) := by
  obtain ⟨g, l, hg, hl, hcoh, hsum⟩ := hinv
  have hlen : (held.erase e).length + 1 = held.length := by
    rw [List.length_erase_of_mem hmem]
    have : 0 < held.length := List.length_pos_of_mem hmem
    omega
  obtain ⟨-, s1, s2, s3, p1, p2, p3, p4⟩ := free_log_entry_inv cfg e s sync st st1 h
  obtain ⟨fe, fg, -⟩ := put_log_local_data_steps_frame cfg e s _ s1 s2 p1 p2
  simp only [free_log_entry_clear_local_entries_list,
    free_log_entry_clear_global_entries_list] at fe fg
  obtain ⟨⟨l1, hl1, hce1, hcnt1⟩, -, gg3, -⟩ :=
    put_log_local_push_entry_effect e s2 s3 l p3 (by rw [fe]; exact hl) hcoh (by omega)
  obtain ⟨⟨l2, hl2, hce2, hcase⟩, -, -⟩ :=
    put_log_local_spill_entries_effect cfg s3 st1 l1 h1 p4 hl1 hce1 (by omega)
  rcases hcase with ⟨-, hcnt, hg1⟩ | ⟨-, hcnt, g3, gh, hg3, hg1⟩
  · refine ⟨g, l2, by rw [hg1, gg3, fg, hg], by rw [hl2]; rfl, hce2, ?_⟩
    omega
  · rw [gg3, fg, hg] at hg3
    simp only [Option.some.injEq] at hg3
    subst hg3
    refine ⟨_, l2, hg1, by rw [hl2]; rfl, hce2, ?_⟩
    simp only [uadd_of_lt (show g.count + cfg.NR_FILL_NODES < ULONG_MOD by omega)]
    omega

/-- The inflight invariant of the entries is kept by `release_local_list`. -/
theorem entries_inv_release_local_list (total : Nat) (st st1 : State) (held : List Nat)
    (hN : total < ULONG_MOD) (hinv : entries_inv total st held)
    (h : release_local_list st = Res.ok st1) :
    entries_inv total st1 held := by
  obtain ⟨g, l, hg, hl, hcoh, hsum⟩ := hinv
  obtain ⟨hl1, hcase, -, -⟩ := release_local_list_effect st st1 l h hl hcoh (by omega)
  rcases hcase with ⟨hc, hg1⟩ | ⟨hc, g2, gh, hg2, hg1⟩
  · refine ⟨g, _, by rw [hg1, hg], by rw [hl1]; rfl, rfl, ?_⟩
    simp only
    omega
  · rw [hg] at hg2
    simp only [Option.some.injEq] at hg2
    subst hg2
    refine ⟨_, _, hg1, by rw [hl1]; rfl, rfl, ?_⟩
    simp only [uadd_of_lt (show g.count + l.count < ULONG_MOD by omega)]
    omega

/-- The inflight invariant of the entries is kept by every admitted operation. -/
theorem entries_inv_step_owned (cfg : Config) (total : Nat) (op : Op) (st st1 : State)
    (held held1 : List Nat) (h1 : 1 ≤ cfg.NR_FILL_NODES) (hN : total < ULONG_MOD)
    (hinv : entries_inv total st held)
    (h : step_owned cfg op (st, held) = some (st1, held1)) :
    entries_inv total st1 held1 := by
  cases op with
  | alloc_table parent index type =>
    simp only [step_owned] at h
    cases hr : alloc_log_table cfg parent index type st with
    | fatal x =>
      rw [hr] at h
      cases h
    | fault =>
      rw [hr] at h
      cases h
    | ok r =>
      rw [hr] at h
      obtain ⟨t, sr⟩ := r
      simp only [Option.some.injEq, Prod.mk.injEq] at h
      obtain ⟨h2, h3⟩ := h
      subst h2 h3
      obtain ⟨a, b, -⟩ := alloc_log_table_frame cfg parent index type st _ t hr
      obtain ⟨g, l, hg, hl, hcoh, hsum⟩ := hinv
      exact ⟨g, l, by rw [b, hg], by rw [a, hl], hcoh, hsum⟩
  | alloc_entry u s =>
    simp only [step_owned] at h
    cases hr : alloc_log_entry cfg u s st with
    | fatal x =>
      rw [hr] at h
      cases h
    | fault =>
      rw [hr] at h
      cases h
    | ok r =>
      rw [hr] at h
      obtain ⟨e, sr⟩ := r
      simp only [Option.some.injEq, Prod.mk.injEq] at h
      obtain ⟨h2, h3⟩ := h
      subst h2 h3
      exact entries_inv_alloc_log_entry cfg total u s st _ e held h1 hN hinv hr
  | free_entry e s sync =>
    simp only [step_owned] at h
    split_ifs at h with hmem
    cases hr : free_log_entry cfg e s sync st with
    | fatal x =>
      rw [hr] at h
      cases h
    | fault =>
      rw [hr] at h
      cases h
    | ok sr =>
      rw [hr] at h
      simp only [Option.some.injEq, Prod.mk.injEq] at h
      obtain ⟨h2, h3⟩ := h
      subst h2 h3
      exact entries_inv_free_log_entry cfg total e s sync st _ held h1 hN hmem hinv hr
  | release =>
    simp only [step_owned] at h
    cases hr : release_local_list st with
    | fatal x =>
      rw [hr] at h
      cases h
    | fault =>
      rw [hr] at h
      cases h
    | ok sr =>
      rw [hr] at h
      simp only [Option.some.injEq, Prod.mk.injEq] at h
      obtain ⟨h2, h3⟩ := h
      subst h2 h3
      exact entries_inv_release_local_list total st _ held hN hinv hr

/-- The inflight invariant of the entries holds after every admitted sequence
of operations. -/
theorem entries_inv_run_owned (cfg : Config) (total : Nat) (ops : List Op) (st st1 : State)
    (held held1 : List Nat) (h1 : 1 ≤ cfg.NR_FILL_NODES) (hN : total < ULONG_MOD)
    (hinv : entries_inv total st held)
    (h : run_owned cfg ops (st, held) = some (st1, held1)) :
    entries_inv total st1 held1 := by
  induction ops generalizing st held with
  | nil =>
    simp only [run_owned, Option.some.injEq, Prod.mk.injEq] at h
    obtain ⟨h2, h3⟩ := h
    subst h2 h3
    exact hinv
  | cons op ops ih =>
    simp only [run_owned] at h
    cases hs : step_owned cfg op (st, held) with
    | none =>
      rw [hs] at h
      cases h
    | some y =>
      rw [hs] at h
      obtain ⟨s2, held2⟩ := y
      exact ih s2 held2 (entries_inv_step_owned cfg total op st s2 held held2 h1 hN hinv hs) h

/-- C12: along every single-thread sequence of `alloc_log_entry`,
`free_log_entry` of an entry currently allocated and `release_local_list` (and
`alloc_log_table`) that starts in the initialised state and runs to its end,
the count of the global entry pool plus the count of the thread's entry pool
(zero while that pool is `NULL`) plus the number of entries currently allocated
to the caller equals the number of entries provisioned,
`(32 * LOG_FILE_SIZE) >> PAGE_SHIFT`. -/
theorem entries_inflight_constant (cfg : Config) (boot_state : State) (ops : List Op)
    (st : State) (held : List Nat)
    (ht : boot_state.global_tables_list = none)
    (he : boot_state.global_entries_list = none)
    (hl : boot_state.local_entries_list = none)
    (h1 : 1 ≤ cfg.NR_FILL_NODES)
    (hN : (32 * cfg.LOG_FILE_SIZE) >>> cfg.PAGE_SHIFT < ULONG_MOD)
    (hrun : run_owned cfg ops (init_global_freelist cfg boot_state, []) = some (st, held)) :
    ∃ g l, st.global_entries_list = some g ∧ alloc_list st.local_entries_list = some l ∧
      g.count + l.count + held.length = (32 * cfg.LOG_FILE_SIZE) >>> cfg.PAGE_SHIFT := by
  obtain ⟨-, h2, -, -, -, h6, -⟩ := init_global_freelist_pools cfg boot_state ht he
  rw [Nat.mul_comm cfg.LOG_FILE_SIZE 32] at h2
  have hinv : entries_inv ((32 * cfg.LOG_FILE_SIZE) >>> cfg.PAGE_SHIFT)
      (init_global_freelist cfg boot_state) [] := by
    refine ⟨_, { head := [], count := 0 }, h2, ?_, rfl, ?_⟩
    · rw [h6, hl]
      rfl
    · simp
  obtain ⟨g, l, hg, hl2, -, hsum⟩ :=
    entries_inv_run_owned cfg _ ops _ st [] held h1 hN hinv hrun
  exact ⟨g, l, hg, hl2, hsum⟩

theorem entries_inflight_constant_witness :
    run_owned (cfg_small 4 2) inflight_demo_ops (init_small 4 2, []) =
      some inflight_demo_final ∧
    inflight_demo_final.2 = [536878912, 536878720] ∧
    (inflight_demo_final.1.global_entries_list.map fun g => g.count) = some 125 ∧
    (inflight_demo_final.1.local_entries_list.map fun l => l.count) = some 1 ∧
    ∃ g l, inflight_demo_final.1.global_entries_list = some g ∧
      alloc_list inflight_demo_final.1.local_entries_list = some l ∧
      g.count + l.count + inflight_demo_final.2.length =
        (32 * (cfg_small 4 2).LOG_FILE_SIZE) >>> (cfg_small 4 2).PAGE_SHIFT :=
  ⟨by rfl, by rfl, by rfl, by rfl,
    entries_inflight_constant (cfg_small 4 2)
      (boot (fun n => (n + 1) * 268435456) (fun n => (n + 1) * 256)) inflight_demo_ops
      inflight_demo_final.1 inflight_demo_final.2 rfl rfl rfl (by decide) (by decide)
      (by rfl)⟩

/-! ## Lock order of the refill paths -/

theorem new_events_append (st st1 : State) (es : List Event)
    (h : st1.events = st.events ++ es) : new_events st (Res.ok st1) = es := by
  simp [new_events, h]

/-- The library calls of `fill_local_tables_list` when it leaves the global
table pool below `MAX_FREE_NODES`: the refill mutex is taken while the
table-pool mutex is held. -/
theorem fill_local_tables_list_calls (cfg : Config) (st st1 : State) (g1 : freelist_t)
    (h : fill_local_tables_list cfg st = Res.ok st1)
    (hg1 : st1.global_tables_list = some g1) (hlt : g1.count < cfg.MAX_FREE_NODES) :
    new_events st (fill_local_tables_list cfg st) =
      [Event.lock Mutex.tables, Event.lock Mutex.background,
       Event.unlock Mutex.background, Event.cond_signal, Event.unlock Mutex.tables] := by
  rw [h]
  apply new_events_append
  unfold fill_local_tables_list at h
  simp only [emit_global_tables_list] at h
  cases hg0 : st.global_tables_list with
  | none =>
    rw [hg0] at h
    cases h
  | some g0 =>
    rw [hg0] at h
    simp only at h
    cases hfg : (if g0.count = 0 then
        fill_global_tables_list cfg false (st.emit [Event.lock Mutex.tables])
        else Res.ok (st.emit [Event.lock Mutex.tables])) with
    | fatal e =>
      rw [hfg] at h
      cases h
    | fault =>
      rw [hfg] at h
      cases h
    | ok st2 =>
      rw [hfg] at h
      obtain ⟨hev, -, -⟩ := fill_local_tables_list_growth_frame cfg st st2 g0.count hfg
      simp only [Res.bind_ok] at h
      split at h
      · split at h
        · cases h
        · have h4 := Res.ok_inj h
          subst h4
          split_ifs at hg1 ⊢ <;>
          first
          | (simp [State.emit, hev]; done)
          | (exfalso
             simp only [emit_global_tables_list, Option.some.injEq] at hg1
             subst hg1
             dsimp only at hlt
             omega)
      · cases h

/-- The library calls of a pass of the background thread that finds the flag
set: the table-pool mutex is taken while the refill mutex is held. -/
theorem background_table_alloc_thread_func_calls (cfg : Config) (st : State) (g : freelist_t)
    (hg : st.global_tables_list = some g) (hmax : 1 ≤ cfg.MAX_FREE_NODES)
    (hflag : st.background_table_alloc = true) :
    new_events st (background_table_alloc_thread_func cfg st) =
      [Event.lock Mutex.background, Event.lock Mutex.tables,
       Event.unlock Mutex.tables, Event.unlock Mutex.background] := by
  obtain ⟨st1, h, -, -, -, hev⟩ :=
    fill_global_tables_list_ok cfg true (st.emit [Event.lock Mutex.background]) g hg hmax
  have hrun : background_table_alloc_thread_func cfg st =
      Res.ok ({ st1 with background_table_alloc := false }.emit
        [Event.unlock Mutex.background]) := by
    simp [background_table_alloc_thread_func, hflag, h]
  rw [hrun]
  apply new_events_append
  simp [State.emit, hev]

/-- In every state in which the background thread finds the flag set and the
mutator's refill leaves the global table pool below `MAX_FREE_NODES`, the two
paths take the two mutexes in opposite orders, and the schedule in which each
thread makes its first call ends with each of them waiting for the mutex of the
other. -/
theorem refill_race_deadlocks (cfg : Config) (st st1 : State) (g g1 : freelist_t)
    (hg : st.global_tables_list = some g) (hmax : 1 ≤ cfg.MAX_FREE_NODES)
    (hflag : st.background_table_alloc = true)
    (h : fill_local_tables_list cfg st = Res.ok st1)
    (hg1 : st1.global_tables_list = some g1) (hlt : g1.count < cfg.MAX_FREE_NODES) :
    lock_pairs [] (refill_race cfg st).mutator_calls = [(Mutex.tables, Mutex.background)] ∧
    lock_pairs [] (refill_race cfg st).worker_calls = [(Mutex.background, Mutex.tables)] ∧
    (Threads.run [Thread.mutator, Thread.worker] (refill_race cfg st)).map
      Threads.deadlocked = some true := by
  have hm := fill_local_tables_list_calls cfg st st1 g1 h hg1 hlt
  have hw := background_table_alloc_thread_func_calls cfg st g hg hmax hflag
  simp only [refill_race, hm, hw]
  exact ⟨by rfl, by rfl, by rfl⟩

/-- C21 (the code departs from the claim): with `MAX_FREE_NODES = 4` and
`NR_FILL_NODES = 2`, after 38 table allocations the thread's table pool is
empty, the global table pool holds 2 tables and the flag
`background_table_alloc` is set. The next refill, `fill_local_tables_list`,
takes the table-pool mutex and then, holding it, the refill mutex; a pass of
`background_table_alloc_thread_func` takes the refill mutex and then, holding
it, the table-pool mutex in `fill_global_tables_list(true)`. The two paths take
the two mutexes in opposite orders, and after the first call of each thread the
mutator holds the table-pool mutex and waits for the refill mutex while the
background thread holds the refill mutex and waits for the table-pool mutex. -/
theorem refill_paths_lock_in_opposite_orders :
    alloc_log_tables (cfg_small 4 2) 38 (init_small 4 2) = Res.ok (tables_after 38) ∧
    (tables_after 38).local_tables_list = some { head := [], count := 0 } ∧
    (tables_after 38).global_tables_list =
      some { head := [268435520, 268435456], count := 2 } ∧
    (tables_after 38).background_table_alloc = true ∧
    alloc_log_table_refill (cfg_small 4 2) (tables_after 38) =
      fill_local_tables_list (cfg_small 4 2) (tables_after 38) ∧
    refill_race (cfg_small 4 2) (tables_after 38) =
      { mutator_calls :=
          [Event.lock Mutex.tables, Event.lock Mutex.background,
           Event.unlock Mutex.background, Event.cond_signal, Event.unlock Mutex.tables]
        mutator_holds := []
        worker_calls :=
          [Event.lock Mutex.background, Event.lock Mutex.tables,
           Event.unlock Mutex.tables, Event.unlock Mutex.background]
        worker_holds := [] } ∧
    lock_pairs [] (refill_race (cfg_small 4 2) (tables_after 38)).mutator_calls =
      [(Mutex.tables, Mutex.background)] ∧
    lock_pairs [] (refill_race (cfg_small 4 2) (tables_after 38)).worker_calls =
      [(Mutex.background, Mutex.tables)] ∧
    Threads.run [Thread.mutator, Thread.worker] (refill_race (cfg_small 4 2) (tables_after 38)) =
      some
        { mutator_calls :=
            [Event.lock Mutex.background, Event.unlock Mutex.background,
             Event.cond_signal, Event.unlock Mutex.tables]
          mutator_holds := [Mutex.tables]
          worker_calls :=
            [Event.lock Mutex.tables, Event.unlock Mutex.tables,
             Event.unlock Mutex.background]
          worker_holds := [Mutex.background] } ∧
    (Threads.run [Thread.mutator, Thread.worker]
      (refill_race (cfg_small 4 2) (tables_after 38))).map Threads.deadlocked = some true ∧
    (Threads.run [Thread.worker, Thread.mutator]
      (refill_race (cfg_small 4 2) (tables_after 38))).map Threads.deadlocked = some true :=
  ⟨by rfl, by rfl, by rfl, by rfl, by rfl, by rfl, by rfl, by rfl, by rfl, by rfl, by rfl⟩

/-! ## Free, then allocate: the entry comes back -/

/-- What a returning `free_log_entry` leaves when the thread's entry pool held
fewer than `MAX_FREE_NODES` entries: the entry is at the head of the entry
pool; the global data pools of the other classes are as they were, and so is
every global data pool when the local data pool of the class held fewer than
`MAX_FREE_NODES` nodes. -/
theorem free_log_entry_entry_pushed (cfg : Config) (e s : Nat) (sync : Bool)
    (st st1 : State) (le : freelist_t)
    (hle : alloc_list st.local_entries_list = some le)
    (hlec : le.count < cfg.MAX_FREE_NODES) (hU : cfg.MAX_FREE_NODES < ULONG_MOD)
    (h : free_log_entry cfg e s sync st = Res.ok st1) :
    st1.local_entries_list = some { head := e :: le.head, count := le.count + 1 } ∧
    (∀ s2, s2 ≠ s → st1.global_data_list s2 = st.global_data_list s2) ∧
    (∀ ld, alloc_list (st.local_data_list s) = some ld → ld.count < cfg.MAX_FREE_NODES →
      st1.global_data_list = st.global_data_list) := by
  obtain ⟨-, s1, s2', s3, p1, p2, p3, p4⟩ := free_log_entry_inv cfg e s sync st st1 h
  obtain ⟨fe, -, -⟩ := put_log_local_data_steps_frame cfg e s _ s1 s2' p1 p2
  simp only [free_log_entry_clear_local_entries_list] at fe
  have q3 := put_log_local_push_entry_eq e s2' le (by rw [fe]; exact hle)
  rw [p3] at q3
  have e3 := Res.ok_inj q3
  have hu1 : uadd le.count 1 = le.count + 1 := uadd_of_lt (by omega)
  have q4 := put_log_local_spill_entries_skip cfg s3
    { head := e :: le.head, count := uadd le.count 1 } (by rw [e3])
    (by simp only [hu1]; omega)
  rw [p4] at q4
  have e4 := Res.ok_inj q4
  have hgd : st1.global_data_list = s2'.global_data_list := by
    rw [e4, e3]
    simp [alloc_list_node_eq]
  obtain ⟨-, l0, hl0, e1⟩ := put_log_local_push_data_inv e s _ s1 p1
  simp only [free_log_entry_clear_local_data_list] at hl0
  have hg1 : s1.global_data_list = st.global_data_list := by
    rw [e1]
    simp [alloc_list_node_eq]
  obtain ⟨l, hl, hcase⟩ := put_log_local_spill_data_inv cfg s s1 s2' p2
  refine ⟨by rw [e4, e3, hu1], ?_, ?_⟩
  · intro s2 hne
    rcases hcase with ⟨-, e2⟩ | ⟨-, -, g, -, e2⟩
    · rw [hgd, e2, hg1]
    · rw [hgd, e2]
      simp [State.emit, arr_write_other _ _ hne, hg1]
  · intro ld hld hldc
    rcases hcase with ⟨-, e2⟩ | ⟨hlt, -, g, -, e2⟩
    · rw [hgd, e2, hg1]
    · exfalso
      rw [hld] at hl0
      cases hl0
      rw [e1] at hl
      simp only [free_log_entry_clear_local_data_list, arr_write_same, Option.some.injEq] at hl
      subst hl
      simp only [uadd_of_lt (show l0.count + 1 < ULONG_MOD by omega)] at hlt
      omega


/-- C19 as amended: in a state where the thread's entry pool holds fewer than
`MAX_FREE_NODES` entries, for a non-`NULL` entry `e` and a non-`NULL` UMA `u`:
(1) whenever `free_log_entry(e, s, persist)` returns and the global data pool of
class `s2` then has non-zero count and a non-`NULL` head block,
`alloc_log_entry(u, s2)` called next on the same thread returns `e`;
(2) when the thread's data pool of class `s` holds fewer than `MAX_FREE_NODES`
nodes (the free spills nothing) and the global data pool of class `s2` has
non-zero count and a non-`NULL` head block, `free_log_entry` returns and
`alloc_log_entry` then returns `e`;
(3) when `s2` is another class than `s`, the thread's data pool of class `s` has
as many nodes as its count says, `NR_FILL_NODES` is at most
`MAX_FREE_NODES + 1`, the global data pool of class `s` is allocated and the
global data pool of class `s2` has non-zero count and a non-`NULL` head block,
`free_log_entry` returns, with or without a spill of data nodes, and
`alloc_log_entry` then returns `e`. -/
theorem free_then_alloc_same_entry (cfg : Config) (st : State) (e s s2 u : Nat)
    (sync : Bool) (le : freelist_t)
    (he : e ≠ 0) (hu : u ≠ 0)
    (hle : alloc_list st.local_entries_list = some le)
    (hlec : le.count < cfg.MAX_FREE_NODES) (hU : cfg.MAX_FREE_NODES < ULONG_MOD) :
    (∀ st1 d drest dc, free_log_entry cfg e s sync st = Res.ok st1 →
      st1.global_data_list s2 = some { head := d :: drest, count := dc } →
      dc ≠ 0 → d ≠ 0 →
      ∃ st2, alloc_log_entry cfg u s2 st1 = Res.ok (e, st2)) ∧
    (∀ ld d drest dc, alloc_list (st.local_data_list s) = some ld →
      ld.count < cfg.MAX_FREE_NODES →
      st.global_data_list s2 = some { head := d :: drest, count := dc } →
      dc ≠ 0 → d ≠ 0 →
      ∃ st1 st2, free_log_entry cfg e s sync st = Res.ok st1 ∧
        alloc_log_entry cfg u s2 st1 = Res.ok (e, st2)) ∧
    (∀ d drest dc, s2 ≠ s →
      (∀ l, st.local_data_list s = some l → l.count = l.head.length) →
      cfg.NR_FILL_NODES ≤ cfg.MAX_FREE_NODES + 1 →
      (∃ g, st.global_data_list s = some g) →
      st.global_data_list s2 = some { head := d :: drest, count := dc } →
      dc ≠ 0 → d ≠ 0 →
      ∃ st1 st2, free_log_entry cfg e s sync st = Res.ok st1 ∧
        alloc_log_entry cfg u s2 st1 = Res.ok (e, st2)) := by
  have hA : ∀ st1 d drest dc, free_log_entry cfg e s sync st = Res.ok st1 →
      st1.global_data_list s2 = some { head := d :: drest, count := dc } →
      dc ≠ 0 → d ≠ 0 →
      ∃ st2, alloc_log_entry cfg u s2 st1 = Res.ok (e, st2) := by
    intro st1 d drest dc hf hd hdc hd0
    obtain ⟨hl1, -, -⟩ := free_log_entry_entry_pushed cfg e s sync st st1 le hle hlec hU hf
    have hr : alloc_log_entry_refill cfg st1 = Res.ok st1 :=
      alloc_log_entry_refill_skip cfg st1 _ hl1 (by simp only; omega)
    obtain ⟨st2, hp, -⟩ :=
      alloc_log_entry_pop_ok u s2 st1 e le.head (le.count + 1) d drest dc hl1 he hu hd hdc hd0
    refine ⟨st2, ?_⟩
    simp only [alloc_log_entry, hr, Res.bind_ok]
    exact hp
  refine ⟨hA, ?_, ?_⟩
  · intro ld d drest dc hld hldc hd hdc hd0
    obtain ⟨st1, hf, -, -, hg1, -, -⟩ :=
      free_log_entry_no_spill cfg st e s sync ld le he hld hle
        (by rw [uadd_of_lt (by omega)]; omega) (by rw [uadd_of_lt (by omega)]; omega)
    obtain ⟨st2, h2⟩ := hA st1 d drest dc hf (by rw [hg1]; exact hd) hdc hd0
    exact ⟨st1, st2, hf, h2⟩
  · intro d drest dc hne hcoh hnr hgs hd hdc hd0
    obtain ⟨sd, hdata, hsl, -, -, -⟩ :=
      put_log_local_data_steps cfg e s (free_log_entry_clear cfg e sync st) he hnr
        (by simpa using hcoh) (by simpa using hgs)
    simp only [free_log_entry_clear_local_entries_list] at hsl
    obtain ⟨st1, hentry, -⟩ :=
      put_log_local_entry_steps_skip cfg e sd le.head le.count
        (by rw [hsl]; simpa using hle) (by rw [uadd_of_lt (by omega)]; omega)
    have hf : free_log_entry cfg e s sync st = Res.ok st1 := by
      simp only [free_log_entry, he, if_false, put_log_local_eq, hdata, Res.bind_ok]
      exact hentry
    obtain ⟨-, hfr, -⟩ := free_log_entry_entry_pushed cfg e s sync st st1 le hle hlec hU hf
    obtain ⟨st2, h2⟩ := hA st1 d drest dc hf (by rw [hfr s2 hne]; exact hd) hdc hd0
    exact ⟨st1, st2, hf, h2⟩

/-- Witness of C19 as amended. First input: after six allocations of class 0,
four frees and one allocation of class 1 the thread's entry pool holds 3
entries and its data pool of class 0 holds 4 nodes; `free_log_entry` of the
entry `536878784` (class 0) spills two data nodes to the global data pool of
class 0, and `alloc_log_entry` of class 1 then returns `536878784`. Second
input: free the entry allocated first after initialisation and allocate again
(no spill, same class). -/
theorem free_then_alloc_same_entry_witness :
    lifo_demo_state.local_entries_list =
      some { head := [536878912, 536878976, 536879040], count := 3 } ∧
    lifo_demo_state.local_data_list 0 = some { head := [0, 0, 0, 0], count := 4 } ∧
    (free_log_entry (cfg_small 4 2) 536878784 0 false lifo_demo_state).get.global_data_list 0 =
      some { head := [0, 0, 805310464, 805306368], count := 4 } ∧
    (∃ st1 st2,
      free_log_entry (cfg_small 4 2) 536878784 0 false lifo_demo_state = Res.ok st1 ∧
      alloc_log_entry (cfg_small 4 2) demo_uma 1 st1 = Res.ok (536878784, st2)) ∧
    (∃ st1 st2,
      free_log_entry (cfg_small 4 2) 536879040 0 false (spill_demo_freed 0) = Res.ok st1 ∧
      alloc_log_entry (cfg_small 4 2) demo_uma 0 st1 = Res.ok (536879040, st2)) := by
  refine ⟨by rfl, by rfl, by rfl, ?_, ?_⟩
  · refine (free_then_alloc_same_entry (cfg_small 4 2) lifo_demo_state 536878784 0 1 demo_uma
      false { head := [536878912, 536878976, 536879040], count := 3 }
      (by decide) (by decide) (by rfl) (by decide) (by decide)).2.2
      1073758208 [1073750016, 1073741824] 3 (by decide) ?_ (by decide) ⟨_, by rfl⟩ (by rfl)
      (by decide) (by decide)
    intro l hl
    have h0 : lifo_demo_state.local_data_list 0 = some { head := [0, 0, 0, 0], count := 4 } := by
      rfl
    rw [h0] at hl
    cases hl
    rfl
  · exact (free_then_alloc_same_entry (cfg_small 4 2) (spill_demo_freed 0) 536879040 0 0 demo_uma
      false { head := [], count := 0 }
      (by decide) (by decide) (by rfl) (by decide) (by decide)).2.1
      { head := [], count := 0 } 805310464 [805306368] 2 (by rfl) (by decide) (by rfl)
      (by decide) (by decide)

/-! ## Allocation with a `NULL` block at the head of the global data pool -/

/-- C3 (the code departs from the claim): from the initialised state, allocate
a UMA `u` and six entries of class 0 and free the first five. The thread's
entry pool then holds 3 entries (no refill is needed) and the global data pool
of class 0 holds 4 nodes, so both pools are non-empty; but the node at the head
of the global data pool carries the payload `NULL`, spilled there by the fifth
free, and `alloc_log_entry(u, 0)` ends in `handle_error` on the
`node->ptr == NULL` branch of `alloc_log_data` instead of returning the entry
`536878912` at the head of the thread's entry pool. -/
theorem alloc_log_entry_aborts_on_null_block :
    (∃ st, alloc_uma (init_small 4 2) = Res.ok (demo_uma, st)) ∧
    ((alloc_uma (init_small 4 2)).bind fun r =>
        alloc_log_entries (cfg_small 4 2) r.1 0 6 r.2) =
      Res.ok (spill_demo_entries, spill_demo_allocated) ∧
    free_log_entries (cfg_small 4 2) 0 false (spill_demo_entries.take 5)
        spill_demo_allocated = Res.ok (spill_demo_freed 5) ∧
    (spill_demo_freed 5).local_entries_list =
      some { head := [536878912, 536878976, 536879040], count := 3 } ∧
    (spill_demo_freed 5).global_data_list 0 =
      some { head := [0, 0, 805310464, 805306368], count := 4 } ∧
    alloc_log_entry_refill (cfg_small 4 2) (spill_demo_freed 5) = Res.ok (spill_demo_freed 5) ∧
    alloc_log_entry (cfg_small 4 2) demo_uma 0 (spill_demo_freed 5) =
      Res.fatal Fatal.node_ptr_null :=
  ⟨⟨_, rfl⟩, rfl, rfl, rfl, rfl, rfl, rfl⟩

end Nvmmio
